import Mathlib

/-! PlusServer: the OpenIGTLink streaming server of PlusLib

A shallow embedding of `vtkPlusOpenIGTLinkServer.cxx` (sender, receiver,
client roster) and theorems about it.

Conventions of the embedding

* C++ `int` members are `Int`; the arithmetic on them in the batch size is a
  quotient by a divisor that is at least 1, a `max` and a `min`, none of which
  can leave the range of the operands. The conversion of the processing time
  from `double` to `int` discards the fractional part; a value outside the
  range of `int` is not modelled.
* `double` timestamps (seconds) are exact rationals `ℚ`: the comparisons and
  the branch structure of the code are kept, rounding and NaN are not modelled.
* A smart pointer that may be null is an `Option`; a function in which a null
  socket would be dereferenced returns `none` there.
* The world outside the server is a set of oracles: the system clock is the
  sequence of its successive readings in a thread, the result of a socket
  `Send` is a function of the whole history of earlier sends, the Message
  Factory and the channel are functions handed to the code.
* Each thread is modelled on its own: what another thread does to the shared
  members between two steps is not part of a step.
-/

namespace PlusServer

/-! ## Data model -/

/-- The two values of `PlusStatus`. -/
inductive PlusStatus where
  | PLUS_FAIL
  | PLUS_SUCCESS
deriving DecidableEq, Repr

/-- Identity of an `igtl::ClientSocket` object (a null pointer is `none`). -/
abbrev Socket := Nat

/-- Size in bytes of an OpenIGTLink message header (`IGTL_HEADER_SIZE`). -/
def IGTL_HEADER_SIZE : Nat := 58

/-- A packed OpenIGTLink message: type tag, device name and body bytes. -/
structure IgtlMessage where
  DeviceType : String
  DeviceName : String
  Body : List Nat
deriving DecidableEq, Repr

/-- Embeds `MessageBase::GetPackBodySize`. -/
def IgtlMessage.GetPackBodySize (m : IgtlMessage) : Nat := m.Body.length

/-- Embeds `MessageBase::GetPackSize`: header plus body. -/
def IgtlMessage.GetPackSize (m : IgtlMessage) : Nat := IGTL_HEADER_SIZE + m.Body.length

/-- A `PlusTransformName` (from-frame, to-frame). -/
structure PlusTransformName where
  From : String
  To : String
deriving DecidableEq, Repr

/-- The nested `PlusIgtlClientInfo::ImageStream`. -/
structure ImageStream where
  Name : String
  EmbeddedTransformToFrame : String
deriving DecidableEq, Repr

/-- One entry of the client list, `PlusIgtlClientInfo`. -/
structure PlusIgtlClientInfo where
  ClientId : Int
  ClientSocket : Option Socket
  IgtlMessageTypes : List String
  TransformNames : List PlusTransformName
  ImageStreams : List ImageStream
  StringNames : List String
deriving DecidableEq, Repr

/-- A tracked frame: its timestamp and an identifier of its content. -/
structure TrackedFrame where
  Timestamp : ℚ
  Content : Nat
deriving DecidableEq, Repr

/-- One call of `ClientSocket::Send`: the socket, the message whose pack
pointer was passed, the byte count passed, and the value returned. -/
structure SendEvent where
  socket : Socket
  msg : IgtlMessage
  length : Nat
  ret : Int
deriving DecidableEq, Repr

/-- The network as seen by one thread: the value `Send` returns, given every
earlier send of the thread, the socket, the message and the byte count. -/
abbrev SendOracle := List SendEvent → Socket → IgtlMessage → Nat → Int

/-- The system clock as seen by one thread: its successive readings. -/
abbrev Clock := Nat → ℚ

/-- A 4x4 matrix: a fresh `vtkMatrix4x4` is the identity. -/
inductive Matrix4x4 where
  | identity
  | given (id : Nat)
deriving DecidableEq, Repr

/-- The command responses, subclasses of `vtkPlusCommandResponse`; `other` is
a response of none of the three known subclasses. -/
inductive CommandResponse where
  | stringResponse (ClientId : Int) (Status : PlusStatus) (Message DeviceName : String)
  | imageResponse (ClientId : Int) (ImageName : String) (ImageData : Option Nat)
      (ImageToReferenceTransform : Option Matrix4x4)
  | imageMetaDataResponse (ClientId : Int) (Items : List String)
  | other (ClientId : Int)
deriving DecidableEq, Repr

/-- Embeds `vtkPlusCommandResponse::GetClientId`. -/
def CommandResponse.GetClientId : CommandResponse → Int
  | .stringResponse c _ _ _ => c
  | .imageResponse c _ _ _ => c
  | .imageMetaDataResponse c _ => c
  | .other c => c

/-- Result of `vtkPlusCommandImageResponse::SafeDownCast`: is it an image response. -/
def CommandResponse.isImageResponse : CommandResponse → Bool
  | .imageResponse _ _ _ _ => true
  | _ => false

/-- A request queued in the command processor. -/
inductive QueuedCommand where
  | command (clientId : Int) (commandString deviceName uid : String)
  | getImageMetaData (clientId : Int) (deviceName : String)
  | getImage (clientId : Int) (deviceName : String)
deriving DecidableEq, Repr

/-- Log levels used for the grace period. -/
inductive LogLevel where
  | LOG_LEVEL_DEBUG
  | LOG_LEVEL_WARNING
deriving DecidableEq, Repr

/-- The collaborators the server calls and whose code is outside this file:
the packers of `vtkPlusIgtlMessageCommon`, the Message Factory, the transform
repository, the timer conversion, the XML encoder, the device-name helpers
of `vtkPlusCommand` and the members of `PlusIgtlClientInfo`. -/
structure Env where
  /-- Embeds `vtkXMLUtilities::EncodeString` with special characters encoded. -/
  EncodeString : String → String
  /-- Embeds `vtkPlusIgtlMessageCommon::PackImageMessage`: status and packed body. -/
  PackImageMessage : Nat → Matrix4x4 → ℚ → PlusStatus × List Nat
  /-- Embeds `vtkPlusIgtlMessageCommon::PackImageMetaMessage`: status and packed body. -/
  PackImageMetaMessage : List String → PlusStatus × List Nat
  /-- Body bytes of a packed STRING message with the given text. -/
  PackString : String → List Nat
  /-- Embeds `vtkPlusIgtlMessageFactory::PackMessages`: message types, frame,
  transform names, image streams, string names, valid-only flag, repository. -/
  PackMessages : List String → TrackedFrame → List PlusTransformName → List ImageStream →
    List String → Bool → Option Nat → PlusStatus × List (Option IgtlMessage)
  /-- Embeds `vtkTransformRepository::SetTransforms`: status and new repository state. -/
  SetTransforms : Nat → TrackedFrame → PlusStatus × Nat
  /-- Embeds `vtkAccurateTimer::GetUniversalTimeFromSystemTime`. -/
  GetUniversalTimeFromSystemTime : ℚ → ℚ
  /-- Embeds `vtkPlusCommand::GetPrefixFromCommandDeviceName`. -/
  GetPrefixFromCommandDeviceName : String → String
  /-- Embeds `vtkPlusCommand::GetUidFromCommandDeviceName`. -/
  GetUidFromCommandDeviceName : String → String
  /-- Embeds `PlusIgtlClientInfo::operator==`, used by `std::find` on the client list. -/
  ClientEquals : PlusIgtlClientInfo → PlusIgtlClientInfo → Bool
  /-- Embeds `PlusIgtlClientInfo::ShallowCopy`: the entry copied into, the
  entry copied from, and the entry afterwards. -/
  ShallowCopy : PlusIgtlClientInfo → PlusIgtlClientInfo → PlusIgtlClientInfo
  /-- The rounding of `double` arithmetic: the `double` the machine stores for
  the exact result of an addition, subtraction, multiplication or division of
  two `double` values (IEEE 754 rounds the exact result). -/
  RoundToDouble : ℚ → ℚ

/-- The members of `vtkPlusOpenIGTLinkServer` the threads read and write,
the command processor's queue, the sender thread's local accumulator, and the
history of the world (sends made, clock readings taken). -/
structure Server where
  IgtlClients : List PlusIgtlClientInfo
  LastSentTrackedFrameTimestamp : ℚ
  NumberOfRetryAttempts : Int
  MaxNumberOfIgtlMessagesToSend : Int
  MaxTimeSpentWithProcessingMs : Int
  LastProcessingTimePerFrameMs : Int
  DefaultClientInfo : PlusIgtlClientInfo
  SendValidTransformsOnly : Bool
  TransformRepository : Option Nat
  /-- Is `BroadcastChannel` non-null. -/
  BroadcastChannel : Bool
  GracePeriodLogLevel : LogLevel
  MissingInputGracePeriodSec : ℚ
  BroadcastStartTime : ℚ
  LastCommandTimestamp : Int → ℚ
  PreviousCommands : Int → List String
  /-- The queue of the command processor, oldest first. -/
  CommandQueue : List QueuedCommand
  /-- The pair (requested, running) of the connection receiver thread. -/
  ConnectionActive : Bool × Bool
  /-- The pair (requested, running) of the data sender thread. -/
  DataSenderActive : Bool × Bool
  /-- The pair (requested, running) of the data receiver thread. -/
  DataReceiverActive : Bool × Bool
  /-- The local `elapsedTimeSinceLastPacketSentSec` of `DataSenderThread`. -/
  elapsedTimeSinceLastPacketSentSec : ℚ
  /-- Every `Send` made so far, oldest first. -/
  Sent : List SendEvent
  /-- Number of clock readings taken so far. -/
  TimeReads : Nat

/-- The constant `static const int CLIENT_SOCKET_TIMEOUT_MSEC = 500`. -/
def CLIENT_SOCKET_TIMEOUT_MSEC : Int := 500

/-- The constant `static const double SAMPLING_SKIPPING_MARGIN_SEC = 0.1`. -/
def SAMPLING_SKIPPING_MARGIN_SEC : ℚ := 1 / 10

/-- The constant `const double CLEAR_PREVIOUS_COMMANDS_TIMEOUT_SEC = 30.0`. -/
def CLEAR_PREVIOUS_COMMANDS_TIMEOUT_SEC : ℚ := 30

/-- The constant `const int IGTL_EMPTY_DATA_SIZE = -1`. -/
def IGTL_EMPTY_DATA_SIZE : Int := -1

/-- Embeds `vtkAccurateTimer::GetSystemTime()`: the next reading of the clock. -/
def GetSystemTime (clock : Clock) (s : Server) : ℚ × Server :=
  (clock s.TimeReads, { s with TimeReads := s.TimeReads + 1 })

/-- Embeds one call `socket->Send(msg->GetPackPointer(), length)`: asks the
network for the return value and records the call. -/
def socketSend (net : SendOracle) (s : Server) (sock : Socket) (m : IgtlMessage)
    (length : Nat) : Int × Server :=
  let r := net s.Sent sock m length
  (r, { s with Sent := s.Sent ++ [⟨sock, m, length, r⟩] })

/-! ## Command responses (DataSenderThread, lines 363-419) -/

/-- Embeds `vtkPlusOpenIGTLinkServer::CreateIgtlMessageFromCommandResponse`.
Returns the message (`none` for a NULL pointer) and the server, whose clock
counter advances when the image branch reads the system time. -/
def CreateIgtlMessageFromCommandResponse (env : Env) (clock : Clock) (s : Server) :
    CommandResponse → Option IgtlMessage × Server
  | .stringResponse _ status message deviceName =>
    let replyStr := "<CommandReply" ++ " Status=\"" ++
      (if status = PlusStatus.PLUS_SUCCESS then "SUCCESS" else "FAIL") ++ "\"" ++
      " Message=\"" ++ env.EncodeString message ++ "\"" ++ " />"
    (some ⟨"STRING", deviceName, env.PackString replyStr⟩, s)
  | .imageResponse _ imageName0 imageData0 transform0 =>
    let imageName := if imageName0.isEmpty then "PlusServerImage" else imageName0
    let imageToReferenceTransform :=
      match transform0 with
      | some t => t
      | none => Matrix4x4.identity
    match imageData0 with
    | none => (none, s)
    | some imageData =>
      let t := GetSystemTime clock s
      let packed := env.PackImageMessage imageData imageToReferenceTransform t.1
      if packed.1 ≠ PlusStatus.PLUS_SUCCESS then (none, t.2)
      else (some ⟨"IMAGE", imageName, packed.2⟩, t.2)
  | .imageMetaDataResponse _ items =>
    let packed := env.PackImageMetaMessage items
    if packed.1 ≠ PlusStatus.PLUS_SUCCESS then (none, s)
    else (some ⟨"IMGMETA", "PlusServerImageMetaData", packed.2⟩, s)
  | .other _ => (none, s)

/-- Embeds `vtkPlusOpenIGTLinkServer::GetClientSocket`: the socket of the
first client of the list with the given id, NULL when there is none. -/
def GetClientSocket : List PlusIgtlClientInfo → Int → Option Socket
  | [], _ => none
  | c :: rest, clientId =>
    if c.ClientId = clientId then c.ClientSocket else GetClientSocket rest clientId

/-- The broadcast loop of lines 394-402: one `Send` of the whole packed message
on every client whose socket is not null; the return value is ignored. -/
def broadcastResponse (net : SendOracle) (m : IgtlMessage) :
    List PlusIgtlClientInfo → Server → Server
  | [], s => s
  | c :: rest, s =>
    match c.ClientSocket with
    | none => broadcastResponse net m rest s
    | some sock => broadcastResponse net m rest (socketSend net s sock m m.GetPackSize).2

/-- The body of the loop over the drained responses (lines 371-416) for one response. -/
def sendCommandResponse (env : Env) (net : SendOracle) (clock : Clock)
    (response : CommandResponse) (s : Server) : Server :=
  let created := CreateIgtlMessageFromCommandResponse env clock s response
  match created.1 with
  | none => created.2
  | some igtlResponseMessage =>
    let broadcastResponseFlag := response.isImageResponse
    if broadcastResponseFlag then
      broadcastResponse net igtlResponseMessage created.2.IgtlClients created.2
    else
      match GetClientSocket created.2.IgtlClients response.GetClientId with
      | none => created.2
      | some clientSocket =>
        (socketSend net created.2 clientSocket igtlResponseMessage
          igtlResponseMessage.GetPackSize).2

/-- The loop over the responses popped from the command processor (lines 365-419). -/
def sendCommandResponses (env : Env) (net : SendOracle) (clock : Clock) :
    List CommandResponse → Server → Server
  | [], s => s
  | response :: rest, s =>
    sendCommandResponses env net clock rest (sendCommandResponse env net clock response s)

/-! ## Sending a tracked frame (SendTrackedFrame, lines 680-795) -/

/-- Modelled from the spec: the macro `RETRY_UNTIL_TRUE` of `PlusCommon.h`, which
is not among the sources, applied to the command
`(retValue = client.ClientSocket->Send(pack pointer, length)) != 0`.
The spec: a send attempt that returns 0 is retried, `numberOfRetryAttempts`
attempts at most, and a persistent 0 marks the client as disconnected.
The first argument is the number of attempts left, the second the current
`retValue`. Dereferencing a null socket has no defined result (`none`). -/
def retrySend (net : SendOracle) (client : PlusIgtlClientInfo) (m : IgtlMessage)
    (length : Nat) : Nat → Int → Server → Option (Int × Server)
  | 0, retValue, s => some (retValue, s)
  | attempts + 1, _, s =>
    match client.ClientSocket with
    | none => none
    | some sock =>
      let r := socketSend net s sock m length
      if r.1 ≠ 0 then some r
      else retrySend net client m length attempts r.1 r.2

/-- What was done for one message of one client: the message and the final
`retValue` of its retry loop. -/
abbrev MessageRecord := IgtlMessage × Int

/-- The loop over the messages of one client (lines 747-770). Takes the flag
`clientDisconnected` as it stands before the loop and returns it as it
stands after, with the server and the record of the messages handled. -/
def sendMessagesToClient (net : SendOracle) (client : PlusIgtlClientInfo) :
    List (Option IgtlMessage) → Bool → Server → Option (Bool × Server × List MessageRecord)
  | [], clientDisconnected, s => some (clientDisconnected, s, [])
  | none :: rest, clientDisconnected, s =>
    sendMessagesToClient net client rest clientDisconnected s
  | some igtlMessage :: rest, clientDisconnected, s =>
    match retrySend net client igtlMessage igtlMessage.GetPackSize
        s.NumberOfRetryAttempts.toNat 0 s with
    | none => none
    | some (retValue, s1) =>
      if retValue = 0 then some (true, s1, [(igtlMessage, retValue)])
      else
        match sendMessagesToClient net client rest clientDisconnected s1 with
        | none => none
        | some (d, s2, records) => some (d, s2, (igtlMessage, retValue) :: records)

/-- The subscription handed to the Message Factory for one client. -/
structure Subscription where
  messageTypes : List String
  transformNames : List PlusTransformName
  imageStreams : List ImageStream
  stringNames : List String
deriving DecidableEq, Repr

/-- The four lists of a client entry as a subscription. -/
def PlusIgtlClientInfo.subscription (c : PlusIgtlClientInfo) : Subscription :=
  ⟨c.IgtlMessageTypes, c.TransformNames, c.ImageStreams, c.StringNames⟩

/-- Lines 712-738 of `SendTrackedFrame`: each list starts as the server default
and is replaced by the client's list when that one is not empty. -/
def effectiveSubscription (defaults client : PlusIgtlClientInfo) : Subscription :=
  let messageTypes := defaults.IgtlMessageTypes
  let messageTypes := if !client.IgtlMessageTypes.isEmpty then client.IgtlMessageTypes
    else messageTypes
  let transformNames := defaults.TransformNames
  let transformNames := if !client.TransformNames.isEmpty then client.TransformNames
    else transformNames
  let imageStreams := defaults.ImageStreams
  let imageStreams := if !client.ImageStreams.isEmpty then client.ImageStreams
    else imageStreams
  let stringNames := defaults.StringNames
  let stringNames := if !client.StringNames.isEmpty then client.StringNames
    else stringNames
  ⟨messageTypes, transformNames, imageStreams, stringNames⟩

/-- Lines 740-744: the call of the Message Factory for one client; the status
is only logged, the messages are kept. -/
def packForClient (env : Env) (s : Server) (trackedFrame : TrackedFrame)
    (client : PlusIgtlClientInfo) : List (Option IgtlMessage) :=
  let sub := effectiveSubscription s.DefaultClientInfo client
  (env.PackMessages sub.messageTypes trackedFrame sub.transformNames sub.imageStreams
    sub.stringNames s.SendValidTransformsOnly s.TransformRepository).2

/-- What one iteration of the client loop did: the client visited, the
messages the factory returned for it, the messages sent with their final
return values, and whether the client was erased from the list. -/
structure ClientVisit where
  client : PlusIgtlClientInfo
  offered : List (Option IgtlMessage)
  records : List MessageRecord
  erased : Bool
deriving DecidableEq, Repr

/-- The client loop of `SendTrackedFrame` (lines 703-789). The list iterator
is the pair of the clients already passed (`before`) and those from the
iterator on. Erasing the current client makes the list `before ++` the
clients after it and leaves the iterator on the next one. -/
def sendFrameToClients (env : Env) (net : SendOracle) (trackedFrame : TrackedFrame) :
    List PlusIgtlClientInfo → List PlusIgtlClientInfo → Bool → Server →
    Option (Server × List ClientVisit)
  | _, [], _, s => some (s, [])
  | before, client :: rest, clientDisconnected, s =>
    let igtlMessages := packForClient env s trackedFrame client
    match sendMessagesToClient net client igtlMessages clientDisconnected s with
    | none => none
    | some (d, s1, records) =>
      if d then
        match sendFrameToClients env net trackedFrame before rest false
            { s1 with IgtlClients := before ++ rest } with
        | none => none
        | some (s2, visits) => some (s2, ⟨client, igtlMessages, records, true⟩ :: visits)
      else
        match sendFrameToClients env net trackedFrame (before ++ [client]) rest d s1 with
        | none => none
        | some (s2, visits) => some (s2, ⟨client, igtlMessages, records, false⟩ :: visits)

/-- Result of `SendTrackedFrame`: the returned status, the frame as the caller
sees it afterwards, the server, and what was done for each client. -/
structure SendTrackedFrameResult where
  status : PlusStatus
  trackedFrame : TrackedFrame
  server : Server
  visits : List ClientVisit

/-- Embeds `vtkPlusOpenIGTLinkServer::SendTrackedFrame`. -/
def SendTrackedFrame (env : Env) (net : SendOracle) (trackedFrame : TrackedFrame)
    (s : Server) : Option SendTrackedFrameResult :=
  let numberOfErrors : Int := 0
  -- Update transform repository with the tracked frame
  let upd : Int × Server :=
    match s.TransformRepository with
    | none => (numberOfErrors, s)
    | some repo =>
      let r := env.SetTransforms repo trackedFrame
      (if r.1 ≠ PlusStatus.PLUS_SUCCESS then numberOfErrors + 1 else numberOfErrors,
        { s with TransformRepository := some r.2 })
  -- Convert relative timestamp to UTC
  let timestampSystem := trackedFrame.Timestamp
  let timestampUniversal := env.GetUniversalTimeFromSystemTime timestampSystem
  let frameUniversal : TrackedFrame := { trackedFrame with Timestamp := timestampUniversal }
  match sendFrameToClients env net frameUniversal [] upd.2.IgtlClients false upd.2 with
  | none => none
  | some (s1, visits) =>
    some ⟨if upd.1 = 0 then PlusStatus.PLUS_SUCCESS else PlusStatus.PLUS_FAIL,
      { frameUniversal with Timestamp := timestampSystem }, s1, visits⟩

/-- Embeds `vtkPlusOpenIGTLinkServer::GetNumberOfConnectedClients`. -/
def GetNumberOfConnectedClients (s : Server) : Int := s.IgtlClients.length

/-! ## Keep-alive (KeepAlive, lines 798-851) -/

/-- The packed `igtl::StatusMessage` with code `STATUS_OK` and nothing else
set: code 1, sub-code 0, empty error name, empty status string. -/
def statusOkMessage : IgtlMessage :=
  ⟨"STATUS", "", [0, 1] ++ List.replicate 29 0⟩

/-- The client loop of `KeepAlive` (lines 806-847), with the list iterator as in
`sendFrameToClients`. The flag tested and reset in the loop is the one
declared inside it. The record is each client visited with its `retValue`. -/
def keepAliveClients (net : SendOracle) :
    List PlusIgtlClientInfo → List PlusIgtlClientInfo → Server →
    Option (Server × List (PlusIgtlClientInfo × Int))
  | _, [], s => some (s, [])
  | before, client :: rest, s =>
    let replyMsg := statusOkMessage
    match retrySend net client replyMsg replyMsg.GetPackSize s.NumberOfRetryAttempts.toNat 0 s with
    | none => none
    | some (retValue, s1) =>
      let clientDisconnected := false
      let clientDisconnected := if retValue = 0 then true else clientDisconnected
      if clientDisconnected then
        match keepAliveClients net before rest { s1 with IgtlClients := before ++ rest } with
        | none => none
        | some (s2, records) => some (s2, (client, retValue) :: records)
      else
        match keepAliveClients net (before ++ [client]) rest s1 with
        | none => none
        | some (s2, records) => some (s2, (client, retValue) :: records)

/-- Embeds `vtkPlusOpenIGTLinkServer::KeepAlive`; `numberOfErrors` is never
changed, so the status is always `PLUS_SUCCESS`. -/
def KeepAlive (net : SendOracle) (s : Server) :
    Option (PlusStatus × Server × List (PlusIgtlClientInfo × Int)) :=
  let numberOfErrors : Int := 0
  match keepAliveClients net [] s.IgtlClients s with
  | none => none
  | some (s1, records) =>
    some (if numberOfErrors = 0 then PlusStatus.PLUS_SUCCESS else PlusStatus.PLUS_FAIL, s1, records)

/-! ## One iteration of the sender loop (DataSenderThread, lines 348-493) -/

/-- The answers of the broadcast channel during one sender tick.
`GetTrackedFrameList` takes the timestamp and the maximum number of frames and
returns its status, the value it leaves in the timestamp passed by reference,
and the content of the frame list. -/
structure ChannelView where
  HasVideoSource : Bool
  GetVideoDataAvailable : Bool
  GetTrackingDataAvailable : Bool
  GetOldestTimestamp : PlusStatus × ℚ
  GetTrackedFrameList : ℚ → Int → PlusStatus × ℚ × List TrackedFrame

/-- The channel reports that it has no data yet (line 438-439). -/
def ChannelView.noDataAvailable (channel : ChannelView) : Bool :=
  (channel.HasVideoSource && !channel.GetVideoDataAvailable)
    || (!channel.HasVideoSource && !channel.GetTrackingDataAvailable)

/-- What the acquisition step computed: the local `numberOfFramesToGet` and,
when `GetTrackedFrameList` was called, the timestamp and number passed. -/
structure AcquireReport where
  numberOfFramesToGet : Int
  channelQuery : Option (ℚ × Int)
deriving DecidableEq, Repr

/-- Lines 426-460 of `DataSenderThread`: the batch size and the channel query.
Returns the server, the report and the content of `trackedFrameList`.  The sum
of line 451 is the exact one: it is only stored and passed on, no test of this
function reads it. -/
def acquireTrackedFrames (channel : ChannelView) (s : Server) :
    Server × AcquireReport × List TrackedFrame :=
  -- Acquire tracked frames since last acquisition (minimum 1 frame)
  let s1 := if s.LastProcessingTimePerFrameMs < 1 then
      { s with LastProcessingTimePerFrameMs := 1 } else s
  let numberOfFramesToGet : Int :=
    max (Int.tdiv s1.MaxTimeSpentWithProcessingMs s1.LastProcessingTimePerFrameMs) 1
  -- Maximize the number of frames to send
  let numberOfFramesToGet := min numberOfFramesToGet s1.MaxNumberOfIgtlMessagesToSend
  if s1.BroadcastChannel then
    if channel.noDataAvailable then
      (s1, ⟨numberOfFramesToGet, none⟩, [])
    else
      let oldest := channel.GetOldestTimestamp
      if oldest.1 = PlusStatus.PLUS_SUCCESS then
        let oldestDataTimestamp := oldest.2
        let s2 := if s1.LastSentTrackedFrameTimestamp < oldestDataTimestamp then
            { s1 with LastSentTrackedFrameTimestamp :=
                oldestDataTimestamp + SAMPLING_SKIPPING_MARGIN_SEC } else s1
        let got := channel.GetTrackedFrameList s2.LastSentTrackedFrameTimestamp
          numberOfFramesToGet
        ({ s2 with LastSentTrackedFrameTimestamp := got.2.1 },
          ⟨numberOfFramesToGet, some (s2.LastSentTrackedFrameTimestamp, numberOfFramesToGet)⟩,
          got.2.2)
      else (s1, ⟨numberOfFramesToGet, none⟩, [])
  else (s1, ⟨numberOfFramesToGet, none⟩, [])

/-- Lines 478-483: every frame of the list is sent and the accumulator reset. -/
def sendTrackedFrames (env : Env) (net : SendOracle) :
    List TrackedFrame → Server → Option Server
  | [], s => some s
  | frame :: rest, s =>
    match SendTrackedFrame env net frame s with
    | none => none
    | some r =>
      sendTrackedFrames env net rest { r.server with elapsedTimeSinceLastPacketSentSec := 0 }

/-- Conversion of a `double` to `int`: the fractional part is discarded. -/
def truncToInt (q : ℚ) : Int := Int.tdiv q.num q.den

/-- What the environment hands to one sender tick. -/
structure SenderTickInput where
  /-- The list `PopCommandResponses` would return in this tick. -/
  replies : List CommandResponse
  channel : ChannelView

/-- What one sender tick did. -/
structure TickReport where
  /-- Were the command responses popped from the processor. -/
  drained : Bool
  acquire : Option AcquireReport
  keepAliveCalled : Bool

/-- Lines 358-424 of the loop body: the grace period, the command responses,
and the reading of `startTimeSec`. Returns `startTimeSec` and the server. -/
def tickPrologue (env : Env) (net : SendOracle) (clock : Clock) (inp : SenderTickInput)
    (s : Server) : ℚ × Server :=
  let g := GetSystemTime clock s
  let s1 := if env.RoundToDouble (g.1 - g.2.BroadcastStartTime)
      > g.2.MissingInputGracePeriodSec then
      { g.2 with GracePeriodLogLevel := LogLevel.LOG_LEVEL_WARNING } else g.2
  -- Send remote command execution replies to clients
  let s2 := sendCommandResponses env net clock inp.replies s1
  -- Send image/tracking/string data
  GetSystemTime clock s2

/-- Lines 462-492 of the loop body: the keep-alive when the frame list is
empty, otherwise the sending of the frames and the new processing time.
Returns whether `KeepAlive` was called and the server, `none` when a null
socket was dereferenced. -/
def tickEpilogue (env : Env) (net : SendOracle) (clock : Clock) (startTimeSec : ℚ)
    (trackedFrameList : List TrackedFrame) (s : Server) : Bool × Option Server :=
  if trackedFrameList.length = 0 then
    -- There is no new frame in the buffer
    let now := GetSystemTime clock s
    let elapsed := env.RoundToDouble (now.2.elapsedTimeSinceLastPacketSentSec
      + env.RoundToDouble (now.1 - startTimeSec))
    let s3 := { now.2 with elapsedTimeSinceLastPacketSentSec := elapsed }
    -- Send keep alive packet to clients
    if env.RoundToDouble (1000 * s3.elapsedTimeSinceLastPacketSentSec)
        > (CLIENT_SOCKET_TIMEOUT_MSEC : ℚ) / 2 then
      match KeepAlive net s3 with
      | none => (true, none)
      | some (_, s4, _) => (true, some { s4 with elapsedTimeSinceLastPacketSentSec := 0 })
    else (false, some s3)
  else
    match sendTrackedFrames env net trackedFrameList s with
    | none => (false, none)
    | some s3 =>
      -- Compute time spent with processing one frame in this round
      let now := GetSystemTime clock s3
      let computationTimeMs := env.RoundToDouble (env.RoundToDouble (now.1 - startTimeSec) * 1000)
      let s4 := if trackedFrameList.length > 0 then
          { now.2 with LastProcessingTimePerFrameMs :=
              truncToInt (env.RoundToDouble (computationTimeMs / trackedFrameList.length)) }
          else now.2
      (false, some s4)

/-- One iteration of the `while` loop of `DataSenderThread` (lines 350-492).
The server is `none` when a null socket was dereferenced. -/
def DataSenderTick (env : Env) (net : SendOracle) (clock : Clock) (inp : SenderTickInput)
    (s : Server) : TickReport × Option Server :=
  if s.IgtlClients.isEmpty then
    -- No client connected, wait for a while
    (⟨false, none, false⟩, some { s with LastSentTrackedFrameTimestamp := 0 })
  else
    let start := tickPrologue env net clock inp s
    let acq := acquireTrackedFrames inp.channel start.2
    let fin := tickEpilogue env net clock start.1 acq.2.2 acq.1
    (⟨true, some acq.2.1, fin.1⟩, fin.2)

/-! ## One iteration of the receiver loop (DataReceiverThread, lines 523-669) -/

/-- The header received from a client and what unpacking its body gave.
`DeviceName` is `none` for a NULL `GetDeviceName()`; `unpackBody` is the bit
`UNPACK_BODY` of the result of `Unpack` after the body was received. -/
structure InboundMessage where
  DeviceType : String
  DeviceName : Option String
  BodySizeToRead : Nat
  unpackBody : Bool
  /-- Result of `GetClientInfo()` of a CLIENTINFO message. -/
  ClientInfo : PlusIgtlClientInfo
  /-- Result of `GetString()` of a STRING message. -/
  Text : String
deriving DecidableEq, Repr

/-- What the socket of a client delivered in one iteration: the value returned
by the `Receive` of the header, and the message when the header was complete. -/
structure Inbound where
  bytesReceived : Int
  message : InboundMessage
deriving DecidableEq, Repr

/-- Replaces the first element satisfying `p` by its image under `f`:
`std::find` followed by an update through the iterator. -/
def updateFirst {α : Type} (p : α → Bool) (f : α → α) : List α → List α
  | [] => []
  | a :: rest => if p a then f a :: rest else a :: updateFirst p f rest

/-- Lines 530-534: when the `double` difference of the current time and the
time of the client's last command is more than
`CLEAR_PREVIOUS_COMMANDS_TIMEOUT_SEC` and its uid list is not empty, the list
is cleared and the time of the last command set to the current time. -/
def clearPreviousCommands (env : Env) (clock : Clock) (client : PlusIgtlClientInfo) (s : Server) : Server :=
  let now := GetSystemTime clock s
  if env.RoundToDouble (now.1 - now.2.LastCommandTimestamp client.ClientId)
        > CLEAR_PREVIOUS_COMMANDS_TIMEOUT_SEC
      ∧ now.2.PreviousCommands client.ClientId ≠ [] then
    let now2 := GetSystemTime clock now.2
    { now2.2 with
      LastCommandTimestamp := Function.update now2.2.LastCommandTimestamp client.ClientId now2.1
      PreviousCommands := Function.update now2.2.PreviousCommands client.ClientId [] }
  else now.2

/-- Lines 583-637: a STRING message, a remote command: a uid already in the
client's list stops the iteration, otherwise a non-empty uid is pushed to the
list and the command is queued in the command processor. -/
def receiveStringCommand (env : Env) (client : PlusIgtlClientInfo) (msg : InboundMessage)
    (s : Server) : Server :=
  if msg.unpackBody then
    let deviceName :=
      match msg.DeviceName with
      | some name => name
      | none => "UNKNOWN"
    let deviceNameStr := env.GetPrefixFromCommandDeviceName deviceName
    let uid := env.GetUidFromCommandDeviceName deviceName
    let queued : Server → Server := fun st =>
      { st with CommandQueue := st.CommandQueue ++
          [QueuedCommand.command client.ClientId msg.Text deviceNameStr uid] }
    if uid ≠ "" then
      let previousCommands := s.PreviousCommands client.ClientId
      if uid ∈ previousCommands then
        -- Command already exists
        s
      else
        let pushed := Function.update s.PreviousCommands client.ClientId
          (s.PreviousCommands client.ClientId ++ [uid])
        queued { s with PreviousCommands := pushed }
    else queued s
  else s

/-- Lines 545-667: the dispatch on the device type of a complete header.
The second component tells whether the thread function returned. -/
def dispatchMessage (env : Env) (net : SendOracle) (client : PlusIgtlClientInfo)
    (sock : Socket) (msg : InboundMessage) (s : Server) : Server × Bool :=
  if msg.DeviceType = "CLIENTINFO" then
    if msg.unpackBody then
      let updated := updateFirst (fun c => env.ClientEquals c client)
        (fun c => env.ShallowCopy c msg.ClientInfo) s.IgtlClients
      ({ s with IgtlClients := updated }, false)
    else (s, false)
  else if msg.DeviceType = "GET_STATUS" then
    -- Just ping server, we can skip message and respond
    let replyMsg := statusOkMessage
    ((socketSend net s sock replyMsg replyMsg.GetPackBodySize).2, false)
  else if msg.DeviceType = "STRING" then
    (receiveStringCommand env client msg s, false)
  else if msg.DeviceType = "GET_IMGMETA" then
    let deviceName :=
      match msg.DeviceName with
      | some name => name
      | none => ""
    ({ s with CommandQueue := s.CommandQueue ++
        [QueuedCommand.getImageMetaData client.ClientId deviceName] }, false)
  else if msg.DeviceType = "GET_IMAGE" then
    match msg.DeviceName with
    | some deviceName =>
      ({ s with CommandQueue := s.CommandQueue ++
          [QueuedCommand.getImage client.ClientId deviceName] }, false)
    | none => (s, true)
  else
    -- if the device type is unknown, skip reading.
    (s, false)

/-- The body of the loop over the clients (lines 525-667) for a client whose
socket pointer is `sock`. The second component tells whether the thread
function returned. -/
def receiveFromClient (env : Env) (net : SendOracle) (clock : Clock)
    (client : PlusIgtlClientInfo) (sock : Socket) (inb : Inbound) (s : Server) :
    Server × Bool :=
  let s1 := clearPreviousCommands env clock client s
  -- Receive generic header from the socket
  if inb.bytesReceived = IGTL_EMPTY_DATA_SIZE ∨ inb.bytesReceived ≠ (IGTL_HEADER_SIZE : Int) then
    (s1, false)
  else
    let now := GetSystemTime clock s1
    let s2 := { now.2 with
      LastCommandTimestamp := Function.update now.2.LastCommandTimestamp client.ClientId now.1 }
    dispatchMessage env net client sock inb.message s2

/-- One execution of the loop body: the copy of the client entry, the socket
it points to, and what the socket delivered. -/
structure ReceiverStep where
  client : PlusIgtlClientInfo
  sock : Socket
  inbound : Inbound
deriving DecidableEq, Repr

/-- A sequence of executions of the receiver loop body, in the order the
thread makes them; nothing more is executed once the thread function returned. -/
def receiverRun (env : Env) (net : SendOracle) (clock : Clock) :
    List ReceiverStep → Server → Server × Bool
  | [], s => (s, false)
  | e :: rest, s =>
    let r := receiveFromClient env net clock e.client e.sock e.inbound s
    if r.2 then r else receiverRun env net clock rest r.1

/-- The `for` loop over the copy of the client list (lines 523-669); `inbound i`
is what the socket of the client at position `i` of the copy delivers.
The result is `none` when a null socket is dereferenced. -/
def receiveFromClients (env : Env) (net : SendOracle) (clock : Clock) (inbound : Nat → Inbound) :
    Nat → List PlusIgtlClientInfo → Server → Option (Server × Bool)
  | _, [], s => some (s, false)
  | i, client :: rest, s =>
    match client.ClientSocket with
    | none => none
    | some sock =>
      let r := receiveFromClient env net clock client sock (inbound i) s
      if r.2 then some r else receiveFromClients env net clock inbound (i + 1) rest r.1

/-- One iteration of the `while` loop of `DataReceiverThread` (lines 510-669). -/
def DataReceiverTick (env : Env) (net : SendOracle) (clock : Clock) (inbound : Nat → Inbound)
    (s : Server) : Option (Server × Bool) :=
  -- make a copy of client infos to avoid lock
  let igtlClients := s.IgtlClients
  if igtlClients.isEmpty then some (s, false)
  else receiveFromClients env net clock inbound 0 igtlClients s

/-! ## Concrete inputs used to exercise the theorems -/

/-- A client entry with the given id and socket and an empty subscription. -/
def mkClient (id : Int) (sock : Option Socket) : PlusIgtlClientInfo :=
  ⟨id, sock, [], [], [], []⟩

/-- Collaborators for the examples: the factory packs one IMAGE message per
requested message type, names are split at the text `Cmd_`. -/
def exampleEnv : Env where
  EncodeString := fun str => str
  PackImageMessage := fun img _ _ => (PlusStatus.PLUS_SUCCESS, [img])
  PackImageMetaMessage := fun items => (PlusStatus.PLUS_SUCCESS, [items.length])
  PackString := fun str => [str.length]
  PackMessages := fun types frame _ _ _ _ _ =>
    (PlusStatus.PLUS_SUCCESS, types.map (fun ty => some ⟨ty, "PlusServerImage", [frame.Content]⟩))
  SetTransforms := fun repo _ => (PlusStatus.PLUS_SUCCESS, repo)
  GetUniversalTimeFromSystemTime := fun t => t + 1000
  GetPrefixFromCommandDeviceName := fun name => if name = "Cmd_42" then "Cmd" else name
  GetUidFromCommandDeviceName := fun name => if name = "Cmd_42" then "42" else ""
  ClientEquals := fun a b => a.ClientId == b.ClientId
  ShallowCopy := fun dst src =>
    { dst with IgtlMessageTypes := src.IgtlMessageTypes, TransformNames := src.TransformNames,
               ImageStreams := src.ImageStreams, StringNames := src.StringNames }
  RoundToDouble := fun q => q

/-- A network on which every send returns the byte count it was given,
except on socket 13, where every send returns 0. -/
def exampleNet : SendOracle := fun _ sock _ length => if sock = 13 then 0 else length

/-- A clock that advances by one second at every reading. -/
def exampleClock : Clock := fun k => k

/-- A server as the constructor leaves it, with the given client list and
default message type IMAGE. -/
def mkServer (clients : List PlusIgtlClientInfo) : Server where
  IgtlClients := clients
  LastSentTrackedFrameTimestamp := 0
  NumberOfRetryAttempts := 10
  MaxNumberOfIgtlMessagesToSend := 100
  MaxTimeSpentWithProcessingMs := 50
  LastProcessingTimePerFrameMs := -1
  DefaultClientInfo := ⟨0, none, ["IMAGE"], [], [], []⟩
  SendValidTransformsOnly := true
  TransformRepository := none
  BroadcastChannel := true
  GracePeriodLogLevel := LogLevel.LOG_LEVEL_DEBUG
  MissingInputGracePeriodSec := 0
  BroadcastStartTime := 0
  LastCommandTimestamp := fun _ => 0
  PreviousCommands := fun _ => []
  CommandQueue := []
  ConnectionActive := (true, true)
  DataSenderActive := (true, true)
  DataReceiverActive := (true, true)
  elapsedTimeSinceLastPacketSentSec := 0
  Sent := []
  TimeReads := 0

/-- A channel with video data whose oldest timestamp is 20 s and which has no
frame newer than the timestamp asked for. -/
def exampleChannel : ChannelView where
  HasVideoSource := true
  GetVideoDataAvailable := true
  GetTrackingDataAvailable := false
  GetOldestTimestamp := (PlusStatus.PLUS_SUCCESS, 20)
  GetTrackedFrameList := fun ts _ => (PlusStatus.PLUS_SUCCESS, ts, [])

/-- The state before and after differ at most in the history of the world
(sends, clock readings) and in the log level. -/
def SameMembers (s t : Server) : Prop :=
  t.IgtlClients = s.IgtlClients ∧
  t.LastSentTrackedFrameTimestamp = s.LastSentTrackedFrameTimestamp ∧
  t.NumberOfRetryAttempts = s.NumberOfRetryAttempts ∧
  t.MaxNumberOfIgtlMessagesToSend = s.MaxNumberOfIgtlMessagesToSend ∧
  t.MaxTimeSpentWithProcessingMs = s.MaxTimeSpentWithProcessingMs ∧
  t.LastProcessingTimePerFrameMs = s.LastProcessingTimePerFrameMs ∧
  t.BroadcastChannel = s.BroadcastChannel ∧
  t.elapsedTimeSinceLastPacketSentSec = s.elapsedTimeSinceLastPacketSentSec

/-- The batch size of a tick as a function of the three members it is
computed from: the quotient truncates as in C++. -/
def batchSize (maxTimeMs lastTimePerFrameMs maxMessages : Int) : Int :=
  min (max (Int.tdiv maxTimeMs (if lastTimePerFrameMs < 1 then 1 else lastTimePerFrameMs)) 1)
    maxMessages

/-- What a send event says about the call made: socket, message, byte count. -/
def SendEvent.call (e : SendEvent) : Socket × IgtlMessage × Nat := (e.socket, e.msg, e.length)

/-- One send of the whole packed message `m` on the socket of every client
of the list that has one, in the order of the list. -/
def callsToAll (m : IgtlMessage) (clients : List PlusIgtlClientInfo) :
    List (Socket × IgtlMessage × Nat) :=
  clients.filterMap (fun c => c.ClientSocket.map (fun sock => (sock, m, m.GetPackSize)))

/-- The record of `k` consecutive attempts to send `m` on `sock` that all
returned 0. -/
def failedAttempts (sock : Socket) (m : IgtlMessage) (length k : Nat) : List SendEvent :=
  List.replicate k ⟨sock, m, length, 0⟩

/-- The network answers 0 to each of the first `n` attempts to send `m` on
`sock`, made one after the other after the history `sent`. -/
def AllAttemptsFail (net : SendOracle) (sent : List SendEvent) (sock : Socket) (m : IgtlMessage)
    (length n : Nat) : Prop :=
  ∀ k, k < n → net (sent ++ failedAttempts sock m length k) sock m length = 0

/-- The server with a longer history of sends and nothing else changed. -/
def Server.withSent (s : Server) (evs : List SendEvent) : Server :=
  { s with Sent := s.Sent ++ evs }

/-- The members the packing and the retry loop read are the same in both states. -/
def SameSettings (s t : Server) : Prop :=
  t.DefaultClientInfo = s.DefaultClientInfo ∧
  t.SendValidTransformsOnly = s.SendValidTransformsOnly ∧
  t.TransformRepository = s.TransformRepository ∧
  t.NumberOfRetryAttempts = s.NumberOfRetryAttempts

/-- The send of some message to the visited client ended with return value 0. -/
def ClientVisit.someSendEndedWithZero (v : ClientVisit) : Prop :=
  ∃ rec ∈ v.records, rec.2 = 0

/-- The state `SendTrackedFrame` is in when it enters the client loop: the
transform repository has been updated with the frame. -/
def afterSetTransforms (env : Env) (trackedFrame : TrackedFrame) (s : Server) : Server :=
  match s.TransformRepository with
  | none => s
  | some repo => { s with TransformRepository := some (env.SetTransforms repo trackedFrame).2 }

/-- The status `SendTrackedFrame` returns: failure exactly when a repository
is set and its `SetTransforms` on the frame does not succeed. -/
def setTransformsStatus (env : Env) (trackedFrame : TrackedFrame) (s : Server) : PlusStatus :=
  match s.TransformRepository with
  | none => PlusStatus.PLUS_SUCCESS
  | some repo =>
    if (env.SetTransforms repo trackedFrame).1 ≠ PlusStatus.PLUS_SUCCESS then PlusStatus.PLUS_FAIL
    else PlusStatus.PLUS_SUCCESS

/-- The frame as the Message Factory sees it: with the universal timestamp. -/
def universalFrame (env : Env) (trackedFrame : TrackedFrame) : TrackedFrame :=
  { trackedFrame with Timestamp := env.GetUniversalTimeFromSystemTime trackedFrame.Timestamp }

/-- Server defaults for the examples: IMAGE messages, one transform, one
image stream, one string. -/
def exampleDefaults : PlusIgtlClientInfo :=
  ⟨0, none, ["IMAGE"], [⟨"Probe", "Reference"⟩], [⟨"Image", "Reference"⟩], ["DepthMm"]⟩

/-- A client that subscribed to TRANSFORM messages and set nothing else. -/
def exampleSubscriber : PlusIgtlClientInfo :=
  ⟨1, some 7, ["TRANSFORM"], [], [], []⟩

/-- At least one of the four subscription lists of the client is not empty. -/
def PlusIgtlClientInfo.hasSubscription (c : PlusIgtlClientInfo) : Prop :=
  c.IgtlMessageTypes ≠ [] ∨ c.TransformNames ≠ [] ∨ c.ImageStreams ≠ [] ∨ c.StringNames ≠ []

/-- The device name a STRING command is parsed from: the header's device name,
`UNKNOWN` when the pointer is NULL (lines 596-604). -/
def InboundMessage.commandDeviceName (msg : InboundMessage) : String :=
  match msg.DeviceName with
  | some name => name
  | none => "UNKNOWN"

/-- The socket delivered a complete header of a STRING message whose body was
unpacked. -/
def Inbound.isStringCommand (inb : Inbound) : Prop :=
  inb.bytesReceived = (IGTL_HEADER_SIZE : Int) ∧ inb.message.DeviceType = "STRING" ∧
    inb.message.unpackBody = true

/-- The clock reading an iteration started in state `s` takes right after a
complete header was received (line 543): the time the header was received. -/
def headerTime (env : Env) (clock : Clock) (client : PlusIgtlClientInfo) (s : Server) : ℚ :=
  clock (clearPreviousCommands env clock client s).TimeReads

/-- The state of an iteration started in `s` once a complete header was
received: the timeout check is done and the time of the client's last command
is the header time (lines 530-543). -/
def afterHeader (env : Env) (clock : Clock) (client : PlusIgtlClientInfo) (s : Server) : Server :=
  { clearPreviousCommands env clock client s with
    TimeReads := (clearPreviousCommands env clock client s).TimeReads + 1
    LastCommandTimestamp :=
      Function.update (clearPreviousCommands env clock client s).LastCommandTimestamp
        client.ClientId (headerTime env clock client s) }

/-- A complete header from the client with id 1: a STRING command named
`Cmd_42`, whose uid is 42. -/
def exampleCommand : Inbound :=
  ⟨58, ⟨"STRING", some "Cmd_42", 10, true, mkClient 0 none, "<Command Name=\"Ping\" />"⟩⟩

/-- No exact result that is at most `c` is rounded to a `double` above `c`.
Rounding to the nearest `double` never passes a value that is itself a
`double`, so this holds of the machine for every `double` `c`, such as the
timeout of 30 s and the threshold of 250 ms. -/
def Env.RoundsNotAbove (env : Env) (c : ℚ) : Prop :=
  ∀ q : ℚ, q ≤ c → env.RoundToDouble q ≤ c

/-- No exact result that is at least `c` is rounded to a `double` below `c`;
this holds of the machine for every `double` `c`, such as 0. -/
def Env.RoundsNotBelow (env : Env) (c : ℚ) : Prop :=
  ∀ q : ℚ, c ≤ q → c ≤ env.RoundToDouble q

/-- Rounding changes an exact result of magnitude at most `B` by at most `ε`.
For the `double` type of the machine, which keeps 53 significant bits, this
holds with `ε = B / 2 ^ 53`. -/
def Env.RoundsWithin (env : Env) (B ε : ℚ) : Prop :=
  ∀ q : ℚ, |q| ≤ B → |env.RoundToDouble q - q| ≤ ε

/-- The arithmetic of the machine is exact on the values met: no rounding
takes place. This is so for the sums, differences and products of values on a
binary grid that stay well inside the 53 bits of a `double`. -/
def Env.ExactArithmetic (env : Env) : Prop :=
  ∀ q : ℚ, env.RoundToDouble q = q

/-- The invariant behind the 30 s window of a uid `u` of client `c` accepted
with header time `clock kt`: the reading `kt` is in the past, and either `u`
is still in the client's list and the client's last command is not older than
`clock kt`, or some past reading of the clock is already more than 30 s
after `clock kt`. -/
def DedupeInv (clock : Clock) (c : Int) (u : String) (kt : Nat) (st : Server) : Prop :=
  kt < st.TimeReads ∧
  ((u ∈ st.PreviousCommands c ∧ clock kt ≤ st.LastCommandTimestamp c) ∨
    ∃ k, k < st.TimeReads ∧ clock kt + CLEAR_PREVIOUS_COMMANDS_TIMEOUT_SEC < clock k)

/-- The iteration in which client 1 delivers the command `Cmd_42`. -/
def exampleStep : ReceiverStep := ⟨mkClient 1 (some 7), 7, exampleCommand⟩

/-- The iterations one receiver tick makes over its copy of the client list,
`inbound i` being what the socket of the client at position `i` delivers. -/
def tickSteps (inbound : Nat → Inbound) : Nat → List PlusIgtlClientInfo → List ReceiverStep
  | _, [] => []
  | i, client :: rest =>
    match client.ClientSocket with
    | none => []
    | some sock => ⟨client, sock, inbound i⟩ :: tickSteps inbound (i + 1) rest

/-- The state `t` differs from `s` at most in the client list, the history of
sends and the state of the transform repository: what sending messages to
the clients can change. -/
def ChangedBySending (s t : Server) : Prop :=
  ∃ clients sent repo,
    t = { s with IgtlClients := clients, Sent := sent, TransformRepository := repo }


/-- The members of the sender loop that sending messages does not touch are
the same in both states. -/
def SenderMembersKept (s t : Server) : Prop :=
  t.LastSentTrackedFrameTimestamp = s.LastSentTrackedFrameTimestamp ∧
  t.NumberOfRetryAttempts = s.NumberOfRetryAttempts ∧
  t.MaxNumberOfIgtlMessagesToSend = s.MaxNumberOfIgtlMessagesToSend ∧
  t.MaxTimeSpentWithProcessingMs = s.MaxTimeSpentWithProcessingMs ∧
  t.LastProcessingTimePerFrameMs = s.LastProcessingTimePerFrameMs ∧
  t.BroadcastChannel = s.BroadcastChannel ∧
  t.TimeReads = s.TimeReads

/-- The frames the channel handed to the tick (the content of
`trackedFrameList` after lines 436-460). -/
def tickFrames (env : Env) (net : SendOracle) (clock : Clock) (inp : SenderTickInput)
    (s : Server) : List TrackedFrame :=
  (acquireTrackedFrames inp.channel (tickPrologue env net clock inp s).2).2.2

/-- The duration of a tick as the loop measures it: the `double` difference
of the clock reading taken after the frame list was filled (line 466,
line 486) and `startTimeSec`. -/
def tickDuration (env : Env) (net : SendOracle) (clock : Clock) (inp : SenderTickInput)
    (s : Server) : ℚ :=
  let start := tickPrologue env net clock inp s
  let acq := acquireTrackedFrames inp.channel start.2
  env.RoundToDouble ((GetSystemTime clock acq.1).1 - start.1)

/-- The accumulator `elapsedTimeSinceLastPacketSentSec` of a tick without
frames after line 466: the `double` sum of its value at the start of the
tick and the duration of the tick. -/
def tickAccumulator (env : Env) (net : SendOracle) (clock : Clock) (inp : SenderTickInput)
    (s : Server) : ℚ :=
  env.RoundToDouble (s.elapsedTimeSinceLastPacketSentSec + tickDuration env net clock inp s)



/-- Modelled from the spec: the contract of the batched range query of the
channel (`vtkPlusChannel::GetTrackedFrameList`, whose code is not among the
sources). The spec: `getTrackedFrameList(afterTs = lastSentTimestamp, max)`
returns the frames after `afterTs`, and the last sent timestamp becomes the
timestamp of the last frame. Here: the frames returned have timestamps after
the one passed, in strictly increasing order, and the timestamp passed by
reference is left at that of the last frame returned, unchanged when no
frame is returned. -/
def ChannelView.AnswersInOrder (channel : ChannelView) : Prop :=
  ∀ ts n,
    (channel.GetTrackedFrameList ts n).2.2.Pairwise (fun a b => a.Timestamp < b.Timestamp) ∧
    (∀ f ∈ (channel.GetTrackedFrameList ts n).2.2, ts < f.Timestamp) ∧
    (channel.GetTrackedFrameList ts n).2.1
      = ((channel.GetTrackedFrameList ts n).2.2.getLast?.map (·.Timestamp)).getD ts

/-- Six frames with the timestamps 20 s to 25 s. -/
def historyFrames : List TrackedFrame :=
  [⟨20, 0⟩, ⟨21, 1⟩, ⟨22, 2⟩, ⟨23, 3⟩, ⟨24, 4⟩, ⟨25, 5⟩]

/-- A channel with video data that holds `historyFrames` (oldest timestamp
20 s, most recent 25 s) and answers a range query with the frames newer than
the timestamp asked, oldest first, at most the number asked. -/
def historyChannel : ChannelView where
  HasVideoSource := true
  GetVideoDataAvailable := true
  GetTrackingDataAvailable := false
  GetOldestTimestamp := (PlusStatus.PLUS_SUCCESS, 20)
  GetTrackedFrameList := fun ts n =>
    (PlusStatus.PLUS_SUCCESS,
      ((((historyFrames.filter (fun f => ts < f.Timestamp)).take n.toNat).getLast?).map
        (·.Timestamp)).getD ts,
      (historyFrames.filter (fun f => ts < f.Timestamp)).take n.toNat)


/-- What happens between two sender ticks and in the next one: the clients
the acceptor appended to the list in the meantime (`push_back`, line 265),
and what the environment hands to the tick. -/
structure SenderStep where
  joined : List PlusIgtlClientInfo
  input : SenderTickInput

/-- The record of one tick of a run: the server when the tick started, what
the environment handed to the tick, the report, the frames the channel handed over, the duration the loop measured,
and the server when the tick ended. -/
structure TickTrace where
  before : Server
  input : SenderTickInput
  report : TickReport
  frames : List TrackedFrame
  duration : ℚ
  after : Server

/-- Consecutive iterations of the `while` loop of `DataSenderThread`, with the
clients that joined before each of them. Returns the record of the ticks and
the final server, `none` when a null socket was dereferenced. -/
def senderRun (env : Env) (net : SendOracle) (clock : Clock) :
    List SenderStep → Server → Option (List TickTrace × Server)
  | [], s => some ([], s)
  | step :: rest, s =>
    let before := { s with IgtlClients := s.IgtlClients ++ step.joined }
    let tick := DataSenderTick env net clock step.input before
    match tick.2 with
    | none => none
    | some after =>
      match senderRun env net clock rest after with
      | none => none
      | some (traces, final) =>
        some (⟨before, step.input, tick.1,
          if before.IgtlClients.isEmpty then [] else tickFrames env net clock step.input before,
          tickDuration env net clock step.input before, after⟩ :: traces, final)


/-- Number of ticks of a run in which `KeepAlive` was called. -/
def keepAliveCount (traces : List TickTrace) : Nat :=
  (traces.filter (fun tr => tr.report.keepAliveCalled)).length

/-- Sum of the durations of the ticks of a run, in seconds. -/
def totalDuration (traces : List TickTrace) : ℚ :=
  (traces.map (fun tr => tr.duration)).sum

/-- The send of one keep-alive on `sock` after the history `sent`: the whole
packed status message, with the value the network returns. -/
def keepAliveEvent (net : SendOracle) (sent : List SendEvent) (sock : Socket) : SendEvent :=
  ⟨sock, statusOkMessage, statusOkMessage.GetPackSize,
    net sent sock statusOkMessage statusOkMessage.GetPackSize⟩


/-- A complete header from the client with id 1: a GET_STATUS message without
body. -/
def exampleGetStatus : Inbound :=
  ⟨58, ⟨"GET_STATUS", some "", 0, true, mkClient 0 none, ""⟩⟩

/-! ## The connection acceptor (ConnectionReceiverThread, lines 232-295) -/

/-- What `WaitForConnection` returned in one iteration of the acceptor loop:
the new client socket, null when the wait timed out, and the entry the
default constructor of `PlusIgtlClientInfo` makes for it. -/
structure ConnectionEvent where
  newClientSocket : Option Socket
  client : PlusIgtlClientInfo

/-- One iteration of the acceptor loop (lines 251-269): a new client is
appended to the list and the time of its last command set to the current
time. -/
def acceptConnection (clock : Clock) (ev : ConnectionEvent) (s : Server) : Server :=
  match ev.newClientSocket with
  | none => s
  | some newClientSocket =>
    let client := { ev.client with ClientSocket := some newClientSocket }
    let s1 := { s with IgtlClients := s.IgtlClients ++ [client] }
    let now := GetSystemTime clock s1
    { now.2 with
      LastCommandTimestamp := Function.update now.2.LastCommandTimestamp client.ClientId now.1 }

/-- A call of `CloseSocket`, on the socket of a client or on the server socket. -/
inductive SocketClose where
  | client (sock : Socket)
  | server
deriving DecidableEq, Repr

/-- The loop closing the client sockets (lines 273-280): `CloseSocket` on every
socket pointer that is not null, in the order of the list. -/
def closeClientSockets : List PlusIgtlClientInfo → List SocketClose
  | [] => []
  | client :: rest =>
    match client.ClientSocket with
    | some sock => SocketClose.client sock :: closeClientSockets rest
    | none => closeClientSockets rest

/-- The code of `ConnectionReceiverThread` after its loop (lines 271-294).
Returns the server and the calls of `CloseSocket` in the order they are made. -/
def ConnectionReceiverExit (serverSocketNotNull : Bool) (s : Server) :
    Server × List SocketClose :=
  -- Close client sockets
  let closes := closeClientSockets s.IgtlClients
  let s1 := { s with IgtlClients := [] }
  -- Close server socket
  let closes := if serverSocketNotNull then closes ++ [SocketClose.server] else closes
  -- Close thread
  ({ s1 with ConnectionActive := (s1.ConnectionActive.1, false) }, closes)

/-- Embeds `ConnectionReceiverThread`: `createServer` is the value returned by
`CreateServer`, `events` what `WaitForConnection` returned in the iterations
made until `ConnectionActive.first` was found false. -/
def ConnectionReceiverThread (clock : Clock) (createServer : Int) (serverSocketNotNull : Bool)
    (events : List ConnectionEvent) (s : Server) : Server × List SocketClose :=
  if createServer < 0 then (s, [])
  else
    let s0 := { s with ConnectionActive := (s.ConnectionActive.1, true) }
    -- Wait for connections until we want to stop the thread
    let s1 := events.foldl (fun st ev => acceptConnection clock ev st) s0
    ConnectionReceiverExit serverSocketNotNull s1


/-! ## Start and end of the worker threads (lines 298-347, 494-498, 501-504, 673-677) -/

/-- An output channel as the start of the sender thread sees it: the value
`GetMostRecentTimestamp` leaves in the timestamp passed by reference, given
the value before. -/
structure OutputChannel where
  GetMostRecentTimestamp : ℚ → ℚ

/-- A device of the data collector as the start of the sender thread sees it:
the status of `GetOutputChannelByName` for the configured output channel id
with the pointer it leaves in `aChannel` (given the pointer before), and the
output channels of the device. -/
structure DeviceView where
  GetOutputChannelByName : Option OutputChannel → PlusStatus × Option OutputChannel
  OutputChannels : List OutputChannel

/-- Lines 314-322: find the requested channel ID in all the devices. -/
def findRequestedChannel : List DeviceView → Option OutputChannel → Option OutputChannel
  | [], aChannel => aChannel
  | aDevice :: rest, aChannel =>
    let r := aDevice.GetOutputChannelByName aChannel
    if r.1 = PlusStatus.PLUS_SUCCESS then r.2 else findRequestedChannel rest r.2

/-- Lines 326-335: the first output channel of the first device that has one. -/
def findAnyChannel : List DeviceView → Option OutputChannel
  | [] => none
  | aDevice :: rest =>
    match aDevice.OutputChannels with
    | aChannel :: _ => some aChannel
    | [] => findAnyChannel rest

/-- Embeds `DataSenderThread`: `devices` is the status of `GetDevices` with the
collection it fills, `steps` the iterations of the loop made until one of the
requested flags was found false. The result is `none` when a null socket was
dereferenced. -/
def DataSenderThread (env : Env) (net : SendOracle) (clock : Clock)
    (devices : PlusStatus × List DeviceView) (steps : List SenderStep) (s : Server) :
    Option Server :=
  let s0 := { s with DataSenderActive := (s.DataSenderActive.1, true) }
  if devices.1 ≠ PlusStatus.PLUS_SUCCESS ∨ devices.2.length = 0 then
    -- Unable to retrieve devices
    some s0
  else
    -- Find the requested channel ID in all the devices
    let aChannel := findRequestedChannel devices.2 none
    -- The requested channel ID is not found, try to find any channel in any device
    let aChannel := if aChannel.isNone then findAnyChannel devices.2 else aChannel
    let s1 := { s0 with BroadcastChannel := aChannel.isSome }
    let s2 :=
      match aChannel with
      | some channel =>
        { s1 with LastSentTrackedFrameTimestamp :=
            channel.GetMostRecentTimestamp s1.LastSentTrackedFrameTimestamp }
      | none => s1
    let s3 := { s2 with elapsedTimeSinceLastPacketSentSec := 0 }
    match senderRun env net clock steps s3 with
    | none => none
    | some (_, s4) =>
      -- Close thread
      some { s4 with DataSenderActive := (s4.DataSenderActive.1, false) }

/-- Consecutive iterations of the `while` loop of `DataReceiverThread`; the
second component tells whether the thread function returned from inside. -/
def receiverTicks (env : Env) (net : SendOracle) (clock : Clock) :
    List (Nat → Inbound) → Server → Option (Server × Bool)
  | [], s => some (s, false)
  | inbound :: rest, s =>
    match DataReceiverTick env net clock inbound s with
    | none => none
    | some (s1, returned) =>
      if returned then some (s1, true) else receiverTicks env net clock rest s1

/-- Embeds `DataReceiverThread`: `ticks` holds what the sockets deliver in the
iterations of the loop made until one of the requested flags was found
false. The result is `none` when a null socket was dereferenced. -/
def DataReceiverThread (env : Env) (net : SendOracle) (clock : Clock)
    (ticks : List (Nat → Inbound)) (s : Server) : Option Server :=
  let s0 := { s with DataReceiverActive := (s.DataReceiverActive.1, true) }
  match receiverTicks env net clock ticks s0 with
  | none => none
  | some (s1, returned) =>
    if returned then some s1
    else
      -- Close thread
      some { s1 with DataReceiverActive := (s1.DataReceiverActive.1, false) }

/-- The wait loop of `StopOpenIGTLinkService` (lines 194-198, 205-209,
216-220) on a running flag that no thread writes any more: whether the loop
has ended after at most `polls` tests of the flag. -/
def stopWaitEnds (running : Bool) : Nat → Bool
  | 0 => false
  | polls + 1 => if running then stopWaitEnds running polls else true

/-- A complete header from the client with id 1: a GET_IMAGE message whose
device name pointer is NULL. -/
def exampleGetImage : Inbound :=
  ⟨58, ⟨"GET_IMAGE", none, 0, true, mkClient 0 none, ""⟩⟩

/-- A device with one output channel, which is the requested one. -/
def exampleDevice : DeviceView :=
  ⟨fun _ => (PlusStatus.PLUS_SUCCESS, some ⟨fun _ => 25⟩), [⟨fun _ => 25⟩]⟩


/-- The invariant behind the re-acceptance of the uids of client `c` after a
header of the client received at time `t`: the time recorded for the
client's last command is still `t`, or the client's uid list is empty. -/
def ReacceptInv (c : Int) (t : ℚ) (st : Server) : Prop :=
  st.LastCommandTimestamp c = t ∨ st.PreviousCommands c = []

/-- A clock that reads 1 s twice and 100 s from then on. -/
def jumpClock : Clock := fun k => if k ≤ 1 then 1 else 100

/-- A clock that reads 1 s twice, then 30.8 s, then 31.2 s. -/
def lateClock : Clock := fun k => if k ≤ 1 then 1 else if k = 2 then 154 / 5 else 156 / 5

/-- A clock that reads 1 s twice, 20 s twice, then 40 s. -/
def pingClock : Clock := fun k => if k ≤ 1 then 1 else if k ≤ 3 then 20 else 40

/-- The iteration in which client 1 delivers a GET_STATUS message. -/
def exampleStatusStep : ReceiverStep := ⟨mkClient 1 (some 7), 7, exampleGetStatus⟩


/-- The text `<CommandReply Status="S" Message="M" />` of a command reply. -/
def commandReplyText (status : String) (message : String) : String :=
  "<CommandReply Status=\"" ++ status ++ "\" Message=\"" ++ message ++ "\" />"


/-- The sends one retry loop makes for the message `m` on `sock`: `k` attempts
that returned 0, followed, when the loop left the non-zero value `r`, by the
attempt that returned `r`. -/
def attemptsOf (sock : Socket) (m : IgtlMessage) (length : Nat) (r : Int) (k : Nat) :
    List SendEvent :=
  failedAttempts sock m length k ++ (if r = 0 then [] else [⟨sock, m, length, r⟩])

/-- The sends made for the messages of one client, record by record: for each
record the attempts of its retry loop, `ks` giving the number of attempts
that returned 0. -/
def messageBlocks (sock : Socket) (recs : List MessageRecord) (ks : List Nat) :
    List SendEvent :=
  (recs.zip ks).flatMap (fun p => attemptsOf sock p.1.1 p.1.1.GetPackSize p.1.2 p.2)


/-- The sends made in the visit of one client, in order: the blocks of its
records. -/
def ClientVisit.events (v : ClientVisit) (ks : List Nat) : List SendEvent :=
  messageBlocks (v.client.ClientSocket.getD 0) v.records ks

/-- The sends made in the visits of the clients, visit by visit. -/
def visitsEvents (visits : List ClientVisit) (kss : List (List Nat)) : List SendEvent :=
  (visits.zip kss).flatMap (fun p => p.1.events p.2)

/-- Every record is backed by sends on `sock` among `evs`: a record with a
return value other than 0 by the send that returned it, and a record with
return value 0 by a send that returned 0, when at least one attempt is
allowed (`1 ≤ N`, the number of retry attempts). -/
def RecordsBacked (sock : Socket) (N : Int) (recs : List MessageRecord)
    (evs : List SendEvent) : Prop :=
  ∀ rec ∈ recs, (rec.2 ≠ 0 → ⟨sock, rec.1, rec.1.GetPackSize, rec.2⟩ ∈ evs) ∧
    (rec.2 = 0 → 1 ≤ N → ⟨sock, rec.1, rec.1.GetPackSize, 0⟩ ∈ evs)


/-- The sends of one `KeepAlive` call read off its records: client by client
in the order of the records, the attempts to send the STATUS_OK message on
that client's socket (`ks` holds the number of attempts that returned 0). -/
def keepAliveEvents (recs : List (PlusIgtlClientInfo × Int)) (ks : List Nat) :
    List SendEvent :=
  (recs.zip ks).flatMap (fun p => attemptsOf (p.1.1.ClientSocket.getD 0) statusOkMessage
    statusOkMessage.GetPackSize p.1.2 p.2)

/-- The clients of the records of a `KeepAlive` call whose `retValue` was not 0. -/
def keptClients (recs : List (PlusIgtlClientInfo × Int)) : List PlusIgtlClientInfo :=
  (recs.filter (fun r => decide (r.2 ≠ 0))).map Prod.fst


/-- What `SendTrackedFrame` did for one frame: the visits `p.1` of the client
loop with, for every visit, the numbers of attempts that returned 0 (`p.2`).
The clients visited are among `clients`, in their order; each was offered
what the Message Factory packed for it from the frame with the universal
timestamp, and its records are the first of the non-null messages offered,
in the order of the factory. -/
def FrameSends (env : Env) (clients : List PlusIgtlClientInfo) (frame : TrackedFrame)
    (p : List ClientVisit × List (List Nat)) : Prop :=
  p.2.length = p.1.length ∧ (p.1.map (·.client)).Sublist clients ∧
  ∀ v ∈ p.1, (∃ st, v.offered = packForClient env st (universalFrame env frame) v.client) ∧
    v.records.map Prod.fst <+: v.offered.filterMap id

/-- The sends of a frame loop read off the visits made for each frame: frame
by frame, client by client, record by record. -/
def framesEvents (rs : List (List ClientVisit × List (List Nat))) : List SendEvent :=
  rs.flatMap (fun p => visitsEvents p.1 p.2)


/-- A complete header of a CLIENTINFO message whose body was unpacked,
delivered by the socket of client 2: it subscribes to TRANSFORM messages. -/
def exampleClientInfo : Inbound :=
  ⟨58, ⟨"CLIENTINFO", none, 40, true, exampleSubscriber, ""⟩⟩


/-- The socket delivered a complete header of a CLIENTINFO message whose body
was unpacked. -/
def Inbound.isClientInfo (inb : Inbound) : Prop :=
  inb.bytesReceived = (IGTL_HEADER_SIZE : Int) ∧ inb.message.DeviceType = "CLIENTINFO" ∧
    inb.message.unpackBody = true

/-- The entry `c` with the four subscription lists of `info`. -/
def PlusIgtlClientInfo.withSubscription (c info : PlusIgtlClientInfo) : PlusIgtlClientInfo :=
  { c with IgtlMessageTypes := info.IgtlMessageTypes, TransformNames := info.TransformNames,
           ImageStreams := info.ImageStreams, StringNames := info.StringNames }

/-- Modelled from the spec: the client registry is keyed by the client id and a
CLIENTINFO message updates the subscription of the client. `operator==` and
`ShallowCopy` of `PlusIgtlClientInfo` are not among the sources: two entries
are taken to be equal when their ids are, and `ShallowCopy` to put the four
subscription lists of the source into the entry, whose id and socket stay. -/
def Env.RegistryContract (env : Env) : Prop :=
  (∀ a b, env.ClientEquals a b = true ↔ a.ClientId = b.ClientId) ∧
  ∀ dst src, env.ShallowCopy dst src = dst.withSubscription src

/-- Modelled from the spec: the operation `applySubscription(id, subscription)`
of the registry, on the client list: the entry with the id gets the
subscription, every other entry and the order stay. -/
def applySubscription (id : Int) (info : PlusIgtlClientInfo)
    (clients : List PlusIgtlClientInfo) : List PlusIgtlClientInfo :=
  clients.map (fun c => if c.ClientId = id then c.withSubscription info else c)


/-- A second CLIENTINFO message of client 2, carrying the lists of
`exampleDefaults`. -/
def exampleClientInfo2 : Inbound :=
  ⟨58, ⟨"CLIENTINFO", none, 120, true, exampleDefaults, ""⟩⟩


/-- The contract assumed of `vtkPlusDevice::GetOutputChannelByName`, which is
not among the sources: `requested` is the output channel of the device that
has the configured id, if there is one; the call succeeds and leaves that
channel in the pointer when there is one, and fails and leaves the pointer
as it was otherwise. -/
def DeviceView.LooksUp (d : DeviceView) (requested : Option OutputChannel) : Prop :=
  ∀ p, d.GetOutputChannelByName p
    = match requested with
      | some channel => (PlusStatus.PLUS_SUCCESS, some channel)
      | none => (PlusStatus.PLUS_FAIL, p)

/-- The state in which `DataSenderThread` enters its loop when `chosen` is the
broadcast channel (lines 300, 343-350). -/
def senderStart (s : Server) (chosen : Option OutputChannel) : Server :=
  { s with
    DataSenderActive := (s.DataSenderActive.1, true)
    BroadcastChannel := chosen.isSome
    LastSentTrackedFrameTimestamp :=
      match chosen with
      | some channel => channel.GetMostRecentTimestamp s.LastSentTrackedFrameTimestamp
      | none => s.LastSentTrackedFrameTimestamp
    elapsedTimeSinceLastPacketSentSec := 0 }

/-- A device with one output channel, which has not the requested id. -/
def otherDevice : DeviceView :=
  ⟨fun p => (PlusStatus.PLUS_FAIL, p), [⟨fun _ => 12⟩]⟩


/-! ## The timestamped buffer (vtkPlusBuffer.h)

The header declares `AddItem` and `AddTimeStampedItem` and documents them; their
bodies are not among the sources. The buffer below follows the add policy of
the specification and the comments of the header. -/

/-- Modelled from the spec: the format of the frames of a buffer, the arguments
of `CheckFrameFormat` (frame size, pixel type, image type, number of scalar
components). -/
structure FrameFormat where
  FrameSize : Nat × Nat × Nat
  PixelType : Nat
  ImageType : Nat
  NumberOfScalarComponents : Nat
deriving DecidableEq, Repr

/-- Modelled from the spec: an item of the circular buffer, with its uid, the
index of the producer, the two timestamps and an identifier of its payload. -/
structure StreamBufferItem where
  Uid : Nat
  Index : Nat
  UnfilteredTimestamp : ℚ
  FilteredTimestamp : ℚ
  Payload : Nat
deriving DecidableEq

/-- Modelled from the spec: the buffer, with its capacity (`SetBufferSize`), the
frame format, the live items oldest first and the uid of the latest item
added. -/
structure vtkPlusBuffer where
  BufferSize : Nat
  Format : FrameFormat
  Items : List StreamBufferItem
  LatestUid : Nat
deriving DecidableEq

/-- Modelled from the spec: `GetNumberOfItems`, the number of live items. -/
def vtkPlusBuffer.GetNumberOfItems (b : vtkPlusBuffer) : Nat := b.Items.length

/-- Modelled from the spec: `GetLatestItemUidInBuffer`. -/
def vtkPlusBuffer.GetLatestItemUidInBuffer (b : vtkPlusBuffer) : Nat := b.LatestUid

/-- Modelled from the spec: `GetOldestItemUidInBuffer`; the uids of the live
items are contiguous and end with the latest uid. -/
def vtkPlusBuffer.GetOldestItemUidInBuffer (b : vtkPlusBuffer) : Nat :=
  b.LatestUid + 1 - b.Items.length

/-- Modelled from the spec: the unfiltered timestamp of the item added last
(`latestUnfilteredTs`), none in an empty buffer. -/
def vtkPlusBuffer.latestUnfilteredTimestamp (b : vtkPlusBuffer) : Option ℚ :=
  b.Items.getLast?.map (·.UnfilteredTimestamp)

/-- Modelled from the spec: the item an add stores, with the next uid; its
filtered timestamp is the one of the caller if given and the unfiltered one
otherwise (the estimator is left out). -/
def vtkPlusBuffer.newItem (b : vtkPlusBuffer) (payload frameNumber : Nat)
    (unfilteredTimestamp : ℚ) (filteredTimestamp : Option ℚ) : StreamBufferItem :=
  ⟨b.LatestUid + 1, frameNumber, unfilteredTimestamp,
    filteredTimestamp.getD unfilteredTimestamp, payload⟩

/-- Modelled from the spec: the add policy. A buffer of capacity zero takes
nothing; an unfiltered timestamp that is not greater than the latest one is
rejected; otherwise the item is appended with the next uid, and the oldest
item leaves once the ring is full. -/
def vtkPlusBuffer.add (b : vtkPlusBuffer) (payload frameNumber : Nat) (unfilteredTimestamp : ℚ)
    (filteredTimestamp : Option ℚ) : PlusStatus × vtkPlusBuffer :=
  if b.BufferSize = 0 then (PlusStatus.PLUS_FAIL, b)
  else if (match b.latestUnfilteredTimestamp with
      | some latest => decide (unfilteredTimestamp ≤ latest)
      | none => false) then (PlusStatus.PLUS_FAIL, b)
  else
    let items := b.Items ++ [b.newItem payload frameNumber unfilteredTimestamp filteredTimestamp]
    (PlusStatus.PLUS_SUCCESS,
      { b with Items := items.drop (items.length - b.BufferSize), LatestUid := b.LatestUid + 1 })

/-- Modelled from the spec: `AddItem` for a frame; a frame whose format is not
the one of the buffer is not added. -/
def vtkPlusBuffer.AddItem (b : vtkPlusBuffer) (format : FrameFormat) (frame frameNumber : Nat)
    (unfilteredTimestamp : ℚ) (filteredTimestamp : Option ℚ) : PlusStatus × vtkPlusBuffer :=
  if format ≠ b.Format then (PlusStatus.PLUS_FAIL, b)
  else b.add frame frameNumber unfilteredTimestamp filteredTimestamp

/-- Modelled from the spec: `AddTimeStampedItem` for a matrix with its status. -/
def vtkPlusBuffer.AddTimeStampedItem (b : vtkPlusBuffer) (matrix frameNumber : Nat)
    (unfilteredTimestamp : ℚ) (filteredTimestamp : Option ℚ) : PlusStatus × vtkPlusBuffer :=
  b.add matrix frameNumber unfilteredTimestamp filteredTimestamp

/-- A call of one of the two add functions with its arguments. -/
inductive BufferOp where
  | addItem (format : FrameFormat) (frame frameNumber : Nat) (unfilteredTimestamp : ℚ)
      (filteredTimestamp : Option ℚ)
  | addTimeStampedItem (matrix frameNumber : Nat) (unfilteredTimestamp : ℚ)
      (filteredTimestamp : Option ℚ)

/-- The buffer after a call. -/
def vtkPlusBuffer.step (b : vtkPlusBuffer) : BufferOp → vtkPlusBuffer
  | .addItem format frame frameNumber uts fts => (b.AddItem format frame frameNumber uts fts).2
  | .addTimeStampedItem matrix frameNumber uts fts =>
    (b.AddTimeStampedItem matrix frameNumber uts fts).2

/-- The buffer after a sequence of calls. -/
def vtkPlusBuffer.run (b : vtkPlusBuffer) (ops : List BufferOp) : vtkPlusBuffer :=
  ops.foldl vtkPlusBuffer.step b

/-- The unfiltered timestamps and the uids of the live items increase
strictly, no uid is above the latest one, and the items fit the capacity. -/
def vtkPlusBuffer.Ordered (b : vtkPlusBuffer) : Prop :=
  b.Items.Pairwise (fun x y => x.UnfilteredTimestamp < y.UnfilteredTimestamp ∧ x.Uid < y.Uid) ∧
  (∀ x ∈ b.Items, x.Uid ≤ b.LatestUid) ∧
  b.Items.length ≤ b.BufferSize

/-- A buffer of 30 frames of 640 by 480 that holds one item, added at 5 s. -/
def exampleBuffer : vtkPlusBuffer :=
  ⟨30, ⟨(640, 480, 1), 3, 1, 1⟩, [⟨1, 0, 5, 5, 100⟩], 1⟩

/-! ## Theorems -/

theorem sameMembers_refl (s : Server) : SameMembers s s := by
  simp [SameMembers]

theorem sameMembers_trans {s t u : Server} (h1 : SameMembers s t) (h2 : SameMembers t u) :
    SameMembers s u := by
  obtain ⟨a1, a2, a3, a4, a5, a6, a7, a8⟩ := h1
  obtain ⟨b1, b2, b3, b4, b5, b6, b7, b8⟩ := h2
  exact ⟨b1.trans a1, b2.trans a2, b3.trans a3, b4.trans a4, b5.trans a5, b6.trans a6,
    b7.trans a7, b8.trans a8⟩

theorem sameMembers_GetSystemTime (clock : Clock) (s : Server) :
    SameMembers s (GetSystemTime clock s).2 := by
  simp [SameMembers, GetSystemTime]

theorem sameMembers_socketSend (net : SendOracle) (s : Server) (sock : Socket)
    (m : IgtlMessage) (n : Nat) : SameMembers s (socketSend net s sock m n).2 := by
  simp [SameMembers, socketSend]

theorem sameMembers_Create (env : Env) (clock : Clock) (s : Server) (r : CommandResponse) :
    SameMembers s (CreateIgtlMessageFromCommandResponse env clock s r).2 := by
  cases r with
  | stringResponse c st msg dn => exact sameMembers_refl s
  | imageResponse c name data tr =>
    cases data with
    | none => exact sameMembers_refl s
    | some d =>
      simp only [CreateIgtlMessageFromCommandResponse]
      split <;> exact sameMembers_GetSystemTime clock s
  | imageMetaDataResponse c items =>
    simp only [CreateIgtlMessageFromCommandResponse]
    split <;> exact sameMembers_refl s
  | other c => exact sameMembers_refl s

theorem sameMembers_broadcast (net : SendOracle) (m : IgtlMessage)
    (cs : List PlusIgtlClientInfo) (s : Server) :
    SameMembers s (broadcastResponse net m cs s) := by
  induction cs generalizing s with
  | nil => exact sameMembers_refl s
  | cons c rest ih =>
    cases hc : c.ClientSocket with
    | none => simpa [broadcastResponse, hc] using ih s
    | some sock =>
      simp only [broadcastResponse, hc]
      exact sameMembers_trans (sameMembers_socketSend net s sock m _) (ih _)

theorem sameMembers_sendCommandResponse (env : Env) (net : SendOracle) (clock : Clock)
    (r : CommandResponse) (s : Server) :
    SameMembers s (sendCommandResponse env net clock r s) := by
  have hc := sameMembers_Create env clock s r
  unfold sendCommandResponse
  simp only
  split
  · exact hc
  · split
    · exact sameMembers_trans hc (sameMembers_broadcast net _ _ _)
    · split
      · exact hc
      · exact sameMembers_trans hc (sameMembers_socketSend net _ _ _ _)

theorem sameMembers_sendCommandResponses (env : Env) (net : SendOracle) (clock : Clock)
    (rs : List CommandResponse) (s : Server) :
    SameMembers s (sendCommandResponses env net clock rs s) := by
  induction rs generalizing s with
  | nil => exact sameMembers_refl s
  | cons r rest ih =>
    simp only [sendCommandResponses]
    exact sameMembers_trans (sameMembers_sendCommandResponse env net clock r s) (ih _)

theorem sameMembers_tickPrologue (env : Env) (net : SendOracle) (clock : Clock)
    (inp : SenderTickInput) (s : Server) :
    SameMembers s (tickPrologue env net clock inp s).2 := by
  unfold tickPrologue
  simp only
  refine sameMembers_trans ?_ (sameMembers_GetSystemTime clock _)
  refine sameMembers_trans ?_ (sameMembers_sendCommandResponses env net clock _ _)
  split
  · simp [SameMembers, GetSystemTime]
  · exact sameMembers_GetSystemTime clock s

/-- The report of a tick with clients is that of the acquisition step run on
the state the prologue leaves. -/
theorem tick_acquire (env : Env) (net : SendOracle) (clock : Clock) (inp : SenderTickInput)
    (s : Server) (h : s.IgtlClients ≠ []) :
    (DataSenderTick env net clock inp s).1.acquire
      = some (acquireTrackedFrames inp.channel (tickPrologue env net clock inp s).2).2.1 := by
  have hne : s.IgtlClients.isEmpty = false := by
    cases hcs : s.IgtlClients with
    | nil => exact absurd hcs h
    | cons c cs => rfl
  simp [DataSenderTick, hne]

theorem acquire_numberOfFramesToGet (channel : ChannelView) (s : Server) :
    (acquireTrackedFrames channel s).2.1.numberOfFramesToGet
      = batchSize s.MaxTimeSpentWithProcessingMs s.LastProcessingTimePerFrameMs
          s.MaxNumberOfIgtlMessagesToSend := by
  unfold acquireTrackedFrames batchSize
  by_cases hL : s.LastProcessingTimePerFrameMs < 1 <;> simp only [hL, if_true, if_false] <;>
    (repeat' split) <;> rfl

theorem acquire_channelQuery (channel : ChannelView) (s : Server) :
    (acquireTrackedFrames channel s).2.1.channelQuery
      = if s.BroadcastChannel = true ∧ channel.noDataAvailable = false
            ∧ channel.GetOldestTimestamp.1 = PlusStatus.PLUS_SUCCESS then
          some (if s.LastSentTrackedFrameTimestamp < channel.GetOldestTimestamp.2 then
                  channel.GetOldestTimestamp.2 + SAMPLING_SKIPPING_MARGIN_SEC
                else s.LastSentTrackedFrameTimestamp,
                batchSize s.MaxTimeSpentWithProcessingMs s.LastProcessingTimePerFrameMs
                  s.MaxNumberOfIgtlMessagesToSend)
        else none := by
  by_cases hL : s.LastProcessingTimePerFrameMs < 1 <;>
  by_cases hB : s.BroadcastChannel = true <;>
  by_cases hD : channel.noDataAvailable = true <;>
  by_cases hO : channel.GetOldestTimestamp.1 = PlusStatus.PLUS_SUCCESS <;>
  by_cases hT : s.LastSentTrackedFrameTimestamp < channel.GetOldestTimestamp.2 <;>
  simp [acquireTrackedFrames, batchSize, hL, hB, hO, hT, hD]

theorem max_tdiv_eq_max_div (a b : Int) (hb : 1 ≤ b) :
    max (Int.tdiv a b) 1 = max (a / b) 1 := by
  rcases le_or_lt 0 a with ha | ha
  · rw [Int.tdiv_eq_ediv ha (by omega)]
  · have h1 : Int.tdiv a b ≤ 0 := by
      have h := Int.tdiv_nonneg (a := -a) (b := b) (by omega) (by omega)
      rw [Int.neg_tdiv] at h
      omega
    have h2 : a / b < 0 := Int.ediv_neg' ha (by omega)
    rw [max_eq_right (by omega), max_eq_right (by omega)]

theorem tick_numberOfFramesToGet (env : Env) (net : SendOracle) (clock : Clock)
    (inp : SenderTickInput) (s : Server) (h : s.IgtlClients ≠ []) :
    (DataSenderTick env net clock inp s).1.acquire.map (·.numberOfFramesToGet)
      = some (batchSize s.MaxTimeSpentWithProcessingMs s.LastProcessingTimePerFrameMs
          s.MaxNumberOfIgtlMessagesToSend) := by
  obtain ⟨_, _, _, h4, h5, h6, _, _⟩ := sameMembers_tickPrologue env net clock inp s
  rw [tick_acquire env net clock inp s h, Option.map_some', acquire_numberOfFramesToGet,
    h4, h5, h6]

theorem tick_channelQuery (env : Env) (net : SendOracle) (clock : Clock)
    (inp : SenderTickInput) (s : Server) (h : s.IgtlClients ≠ []) :
    (DataSenderTick env net clock inp s).1.acquire.bind (·.channelQuery)
      = if s.BroadcastChannel = true ∧ inp.channel.noDataAvailable = false
            ∧ inp.channel.GetOldestTimestamp.1 = PlusStatus.PLUS_SUCCESS then
          some (if s.LastSentTrackedFrameTimestamp < inp.channel.GetOldestTimestamp.2 then
                  inp.channel.GetOldestTimestamp.2 + SAMPLING_SKIPPING_MARGIN_SEC
                else s.LastSentTrackedFrameTimestamp,
                batchSize s.MaxTimeSpentWithProcessingMs s.LastProcessingTimePerFrameMs
                  s.MaxNumberOfIgtlMessagesToSend)
        else none := by
  obtain ⟨_, h2, _, h4, h5, h6, h7, _⟩ := sameMembers_tickPrologue env net clock inp s
  rw [tick_acquire env net clock inp s h, Option.some_bind, acquire_channelQuery,
    h2, h4, h5, h6, h7]

/-- C1: in a sender tick with at least one client, `numberOfFramesToGet`, which
is also the number passed to `GetTrackedFrameList` when the channel is
queried, is `min (max (MaxTimeSpentWithProcessingMs / L) 1)
MaxNumberOfIgtlMessagesToSend`, where `L` is `LastProcessingTimePerFrameMs`
replaced by 1 when below 1. The divisor is at least 1, so never zero, and the
value is the same for the truncating quotient of C++ and for the floor
quotient. -/
theorem C1_numberOfFramesToGet_formula (env : Env) (net : SendOracle) (clock : Clock)
    (inp : SenderTickInput) (s : Server) (h : s.IgtlClients ≠ []) :
    let L : Int := if s.LastProcessingTimePerFrameMs < 1 then 1
      else s.LastProcessingTimePerFrameMs
    let n : Int := min (max (s.MaxTimeSpentWithProcessingMs / L) 1)
      s.MaxNumberOfIgtlMessagesToSend
    1 ≤ L ∧ L ≠ 0 ∧
    n = min (max (Int.tdiv s.MaxTimeSpentWithProcessingMs L) 1) s.MaxNumberOfIgtlMessagesToSend ∧
    (DataSenderTick env net clock inp s).1.acquire.map (·.numberOfFramesToGet) = some n ∧
    ∀ ts k, (DataSenderTick env net clock inp s).1.acquire.bind (·.channelQuery) = some (ts, k) →
      k = n := by
  intro L n
  have hL : 1 ≤ L := by
    show 1 ≤ (if s.LastProcessingTimePerFrameMs < 1 then (1 : Int)
      else s.LastProcessingTimePerFrameMs)
    split <;> omega
  have hn : n = batchSize s.MaxTimeSpentWithProcessingMs s.LastProcessingTimePerFrameMs
      s.MaxNumberOfIgtlMessagesToSend := by
    show min (max (s.MaxTimeSpentWithProcessingMs / L) 1) _ = min (max (Int.tdiv _ L) 1) _
    rw [max_tdiv_eq_max_div _ _ hL]
  refine ⟨hL, by omega, hn, ?_, ?_⟩
  · rw [hn]
    exact tick_numberOfFramesToGet env net clock inp s h
  · intro ts k hq
    rw [tick_channelQuery env net clock inp s h] at hq
    split at hq
    · simp only [Option.some.injEq, Prod.mk.injEq] at hq
      rw [hn]
      exact hq.2.symm
    · exact absurd hq (by simp)

/-- Witness of C1: one client, the constructor's configuration (50 ms budget,
no frame processed yet, cap 100): 50 frames are requested. -/
theorem C1_numberOfFramesToGet_formula_witness :
    (mkServer [mkClient 1 (some 7)]).IgtlClients ≠ [] ∧
    (DataSenderTick exampleEnv exampleNet exampleClock ⟨[], exampleChannel⟩
      (mkServer [mkClient 1 (some 7)])).1.acquire.map (·.numberOfFramesToGet) = some 50 :=
  ⟨by simp [mkServer],
    by
      have h := (C1_numberOfFramesToGet_formula exampleEnv exampleNet exampleClock
        ⟨[], exampleChannel⟩ (mkServer [mkClient 1 (some 7)]) (by simp [mkServer])).2.2.2.1
      simpa [mkServer] using h⟩

/-- C2 does not hold for every configuration: with
`MaxNumberOfIgtlMessagesToSend = 0` the tick computes 0 frames, which is not
at least 1. -/
theorem C2_counterexample :
    ¬ (∀ n, (DataSenderTick exampleEnv exampleNet exampleClock ⟨[], exampleChannel⟩
          { mkServer [mkClient 1 (some 7)] with MaxNumberOfIgtlMessagesToSend := 0 }
        ).1.acquire.map (·.numberOfFramesToGet) = some n →
        1 ≤ n ∧ n ≤ (0 : Int)) := by
  intro hall
  have h := tick_numberOfFramesToGet exampleEnv exampleNet exampleClock ⟨[], exampleChannel⟩
    { mkServer [mkClient 1 (some 7)] with MaxNumberOfIgtlMessagesToSend := 0 }
    (by simp [mkServer])
  have h2 := hall _ h
  simp [batchSize, mkServer] at h2

/-- C2 (amended): in a sender tick with at least one client the number of
frames requested is at most `MaxNumberOfIgtlMessagesToSend` for every
configuration, and it is at least 1 whenever `MaxNumberOfIgtlMessagesToSend`
is at least 1, for every value of `MaxTimeSpentWithProcessingMs` and of
`LastProcessingTimePerFrameMs`. -/
theorem C2_batch_bounds (env : Env) (net : SendOracle) (clock : Clock)
    (inp : SenderTickInput) (s : Server) (h : s.IgtlClients ≠ [])
    (hmax : 1 ≤ s.MaxNumberOfIgtlMessagesToSend) :
    ∃ n, (DataSenderTick env net clock inp s).1.acquire.map (·.numberOfFramesToGet) = some n ∧
      (∀ ts k, (DataSenderTick env net clock inp s).1.acquire.bind (·.channelQuery)
        = some (ts, k) → k = n) ∧
      1 ≤ n ∧ n ≤ s.MaxNumberOfIgtlMessagesToSend := by
  refine ⟨_, tick_numberOfFramesToGet env net clock inp s h, ?_, ?_, ?_⟩
  · intro ts k hq
    rw [tick_channelQuery env net clock inp s h] at hq
    split at hq
    · simp only [Option.some.injEq, Prod.mk.injEq] at hq
      exact hq.2.symm
    · exact absurd hq (by simp)
  · unfold batchSize
    exact le_min (le_max_right _ _) hmax
  · unfold batchSize
    exact min_le_right _ _

/-- Witness of C2 (amended): the constructor's configuration has cap 100. -/
theorem C2_batch_bounds_witness :
    ∃ n, (DataSenderTick exampleEnv exampleNet exampleClock ⟨[], exampleChannel⟩
        (mkServer [mkClient 1 (some 7)])).1.acquire.map (·.numberOfFramesToGet) = some n ∧
      1 ≤ n ∧ n ≤ 100 := by
  obtain ⟨n, h1, _, h3, h4⟩ := C2_batch_bounds exampleEnv exampleNet exampleClock
    ⟨[], exampleChannel⟩ (mkServer [mkClient 1 (some 7)]) (by simp [mkServer])
    (by simp [mkServer])
  exact ⟨n, h1, h3, by simpa [mkServer] using h4⟩

theorem broadcast_sent (net : SendOracle) (m : IgtlMessage) (cs : List PlusIgtlClientInfo)
    (s : Server) :
    ∃ evs, (broadcastResponse net m cs s).Sent = s.Sent ++ evs ∧
      evs.map SendEvent.call = callsToAll m cs := by
  induction cs generalizing s with
  | nil => exact ⟨[], by simp [broadcastResponse], rfl⟩
  | cons c rest ih =>
    cases hc : c.ClientSocket with
    | none =>
      obtain ⟨evs, h1, h2⟩ := ih s
      exact ⟨evs, by simpa [broadcastResponse, hc] using h1,
        by simpa [callsToAll, hc] using h2⟩
    | some sock =>
      obtain ⟨evs, h1, h2⟩ := ih (socketSend net s sock m m.GetPackSize).2
      refine ⟨⟨sock, m, m.GetPackSize, net s.Sent sock m m.GetPackSize⟩ :: evs, ?_, ?_⟩
      · simp only [broadcastResponse, hc]
        rw [h1]
        simp [socketSend]
      · simp only [List.map_cons, callsToAll, List.filterMap_cons, hc, Option.map_some']
        exact congrArg _ h2

theorem count_calls (m : IgtlMessage) (cs : List PlusIgtlClientInfo) (evs : List SendEvent)
    (h : evs.map SendEvent.call = callsToAll m cs) (sock : Socket) :
    evs.countP (fun e => e.socket = sock)
      = cs.countP (fun c => c.ClientSocket = some sock) := by
  induction cs generalizing evs with
  | nil =>
    have : evs = [] := by simpa [callsToAll] using h
    simp [this]
  | cons c rest ih =>
    cases hc : c.ClientSocket with
    | none =>
      have h2 : evs.map SendEvent.call = callsToAll m rest := by
        simpa [callsToAll, hc] using h
      rw [ih evs h2]
      simp [List.countP_cons, hc]
    | some k =>
      cases evs with
      | nil => simp [callsToAll, hc] at h
      | cons e evs2 =>
        simp only [List.map_cons, callsToAll, List.filterMap_cons, hc, Option.map_some',
          List.cons.injEq] at h
        have he : e.socket = k := by
          have := congrArg Prod.fst h.1
          simpa [SendEvent.call] using this
        rw [List.countP_cons, List.countP_cons, ih evs2 h.2, hc, he]
        simp

theorem sendCommandResponses_append (env : Env) (net : SendOracle) (clock : Clock)
    (before after : List CommandResponse) (s : Server) :
    sendCommandResponses env net clock (before ++ after) s
      = sendCommandResponses env net clock after
          (sendCommandResponses env net clock before s) := by
  induction before generalizing s with
  | nil => rfl
  | cons r rest ih =>
    show sendCommandResponses env net clock (rest ++ after) _ = _
    rw [ih]
    rfl

theorem create_sent (env : Env) (clock : Clock) (s : Server) (r : CommandResponse) :
    (CreateIgtlMessageFromCommandResponse env clock s r).2.Sent = s.Sent := by
  cases r with
  | stringResponse c st msg dn => rfl
  | imageResponse c name data tr =>
    cases data with
    | none => rfl
    | some d =>
      simp only [CreateIgtlMessageFromCommandResponse]
      split <;> rfl
  | imageMetaDataResponse c items =>
    simp only [CreateIgtlMessageFromCommandResponse]
    split <;> rfl
  | other c => rfl

/-- C4: for a response of the drained batch that is an image response and for
which a message `m` was created, whatever its client id, the sends made for
it are exactly one send of the whole packed message (`GetPackSize` bytes)
per client of the list with a non-null socket, in list order; so on every
socket the number of sends equals the number of list entries holding that
socket. The client list is unchanged and the rest of the batch follows. -/
theorem C4_image_response_broadcast (env : Env) (net : SendOracle) (clock : Clock)
    (before after : List CommandResponse) (r : CommandResponse) (s : Server) (m : IgtlMessage)
    (himage : r.isImageResponse = true)
    (hcreated : (CreateIgtlMessageFromCommandResponse env clock
      (sendCommandResponses env net clock before s) r).1 = some m) :
    let s0 := sendCommandResponses env net clock before s
    let s1 := sendCommandResponse env net clock r s0
    sendCommandResponses env net clock (before ++ r :: after) s
      = sendCommandResponses env net clock after s1 ∧
    s0.IgtlClients = s.IgtlClients ∧ s1.IgtlClients = s.IgtlClients ∧
    ∃ evs, s1.Sent = s0.Sent ++ evs ∧
      evs.map SendEvent.call = callsToAll m s.IgtlClients ∧
      ∀ sock, evs.countP (fun e => e.socket = sock)
        = s.IgtlClients.countP (fun c => c.ClientSocket = some sock) := by
  intro s0 s1
  have h0 : SameMembers s s0 := sameMembers_sendCommandResponses env net clock before s
  have h1 : SameMembers s0 s1 := sameMembers_sendCommandResponse env net clock r s0
  have hc : SameMembers s0 (CreateIgtlMessageFromCommandResponse env clock s0 r).2 :=
    sameMembers_Create env clock s0 r
  refine ⟨?_, h0.1, h1.1.trans h0.1, ?_⟩
  · rw [sendCommandResponses_append]
    rfl
  · obtain ⟨evs, he1, he2⟩ := broadcast_sent net m
      (CreateIgtlMessageFromCommandResponse env clock s0 r).2.IgtlClients
      (CreateIgtlMessageFromCommandResponse env clock s0 r).2
    rw [hc.1, h0.1, create_sent] at he1
    rw [hc.1, h0.1] at he2
    refine ⟨evs, ?_, he2, count_calls m _ evs he2⟩
    show (sendCommandResponse env net clock r s0).Sent = _
    unfold sendCommandResponse
    simp only [hcreated, himage, if_true]
    rw [hc.1, h0.1]
    exact he1

/-- Witness of C4: three clients, the second without socket; an image
response of client 5 (not in the list) is sent once on sockets 7 and 9. -/
theorem C4_image_response_broadcast_witness :
    ∃ evs : List SendEvent,
      (sendCommandResponse exampleEnv exampleNet exampleClock
        (CommandResponse.imageResponse 5 "" (some 3) none)
        (mkServer [mkClient 1 (some 7), mkClient 2 none, mkClient 3 (some 9)])).Sent = evs ∧
      evs.map SendEvent.call
        = [(7, ⟨"IMAGE", "PlusServerImage", [3]⟩, 59), (9, ⟨"IMAGE", "PlusServerImage", [3]⟩, 59)] := by
  obtain ⟨evs, h1, h2, _⟩ := (C4_image_response_broadcast exampleEnv exampleNet exampleClock
    [] [] (CommandResponse.imageResponse 5 "" (some 3) none)
    (mkServer [mkClient 1 (some 7), mkClient 2 none, mkClient 3 (some 9)])
    ⟨"IMAGE", "PlusServerImage", [3]⟩ rfl rfl).2.2.2
  refine ⟨evs, ?_, ?_⟩
  · simpa [sendCommandResponses, mkServer] using h1
  · rw [h2]
    rfl

theorem GetClientSocket_absent (cs : List PlusIgtlClientInfo) (id : Int)
    (h : ∀ c ∈ cs, c.ClientId ≠ id) : GetClientSocket cs id = none := by
  induction cs with
  | nil => rfl
  | cons c rest ih =>
    have hc : c.ClientId ≠ id := h c (List.mem_cons_self _ _)
    simp only [GetClientSocket, hc, if_false]
    exact ih (fun x hx => h x (List.mem_cons_of_mem _ hx))

theorem GetClientSocket_first (pre post : List PlusIgtlClientInfo) (c : PlusIgtlClientInfo)
    (id : Int) (hpre : ∀ x ∈ pre, x.ClientId ≠ id) (hc : c.ClientId = id) :
    GetClientSocket (pre ++ c :: post) id = c.ClientSocket := by
  induction pre with
  | nil => simp [GetClientSocket, hc]
  | cons x rest ih =>
    have hx : x.ClientId ≠ id := hpre x (List.mem_cons_self _ _)
    simp only [List.cons_append, GetClientSocket, hx, if_false]
    exact ih (fun y hy => hpre y (List.mem_cons_of_mem _ hy))

theorem create_state_of_not_image (env : Env) (clock : Clock) (s : Server)
    (r : CommandResponse) (hnot : r.isImageResponse = false) :
    (CreateIgtlMessageFromCommandResponse env clock s r).2 = s := by
  cases r with
  | stringResponse c st msg dn => rfl
  | imageResponse c name data tr => simp [CommandResponse.isImageResponse] at hnot
  | imageMetaDataResponse c items =>
    simp only [CreateIgtlMessageFromCommandResponse]
    split <;> rfl
  | other c => rfl

/-- C5: for a response of the drained batch that is not an image response and
for which a message `m` was created (always the case for a string response):
when the first client of the list with the response's client id has socket
`sock`, the sends made for the response are exactly one send of the whole
packed message on `sock` and nothing else; when no client of the list has
that id nothing is sent; in both cases the client list is unchanged and the
rest of the batch is processed. -/
theorem C5_other_response_unicast (env : Env) (net : SendOracle) (clock : Clock)
    (before after : List CommandResponse) (r : CommandResponse) (s : Server)
    (hnot : r.isImageResponse = false) :
    let s0 := sendCommandResponses env net clock before s
    let s1 := sendCommandResponse env net clock r s0
    let created := (CreateIgtlMessageFromCommandResponse env clock s0 r).1
    sendCommandResponses env net clock (before ++ r :: after) s
      = sendCommandResponses env net clock after s1 ∧
    s1.IgtlClients = s.IgtlClients ∧
    (∀ c st msg dn, r = CommandResponse.stringResponse c st msg dn → created ≠ none) ∧
    (∀ m pre c post sock, created = some m →
      s.IgtlClients = pre ++ c :: post → (∀ x ∈ pre, x.ClientId ≠ r.GetClientId) →
      c.ClientId = r.GetClientId → c.ClientSocket = some sock →
      s1.Sent = s0.Sent ++ [⟨sock, m, m.GetPackSize, net s0.Sent sock m m.GetPackSize⟩]) ∧
    ((∀ c ∈ s.IgtlClients, c.ClientId ≠ r.GetClientId) → s1.Sent = s0.Sent) := by
  intro s0 s1 created
  have h0 : SameMembers s s0 := sameMembers_sendCommandResponses env net clock before s
  have h1 : SameMembers s0 s1 := sameMembers_sendCommandResponse env net clock r s0
  have hst := create_state_of_not_image env clock s0 r hnot
  refine ⟨?_, h1.1.trans h0.1, ?_, ?_, ?_⟩
  · rw [sendCommandResponses_append]
    rfl
  · intro c st msg dn hr
    subst hr
    simp [created, CreateIgtlMessageFromCommandResponse]
  · intro m pre c post sock hm hlist hpre hc hsock
    have hget : GetClientSocket s0.IgtlClients r.GetClientId = some sock := by
      rw [h0.1, hlist, GetClientSocket_first pre post c _ hpre hc, hsock]
    show (sendCommandResponse env net clock r s0).Sent = _
    unfold sendCommandResponse
    have hm2 : (CreateIgtlMessageFromCommandResponse env clock s0 r).1 = some m := hm
    simp only [hm2, hnot, hst, hget, Bool.false_eq_true, if_false]
    rfl
  · intro habsent
    have hget : GetClientSocket s0.IgtlClients r.GetClientId = none := by
      rw [h0.1]
      exact GetClientSocket_absent _ _ habsent
    show (sendCommandResponse env net clock r s0).Sent = _
    unfold sendCommandResponse
    simp only [hnot, hst, hget, Bool.false_eq_true, if_false]
    split <;> rfl

/-- Witness of C5: a string response of client 3 is sent once, on socket 9, the
socket of client 3. -/
theorem C5_other_response_unicast_witness :
    ∃ m ret, (sendCommandResponse exampleEnv exampleNet exampleClock
        (CommandResponse.stringResponse 3 PlusStatus.PLUS_SUCCESS "ok" "Cmd_42")
        (mkServer [mkClient 1 (some 7), mkClient 2 none, mkClient 3 (some 9)])).Sent
      = [⟨9, m, m.GetPackSize, ret⟩] := by
  have h := (C5_other_response_unicast exampleEnv exampleNet exampleClock [] []
    (CommandResponse.stringResponse 3 PlusStatus.PLUS_SUCCESS "ok" "Cmd_42")
    (mkServer [mkClient 1 (some 7), mkClient 2 none, mkClient 3 (some 9)]) rfl).2.2.2.1
    _ [mkClient 1 (some 7), mkClient 2 none] (mkClient 3 (some 9)) [] 9 rfl rfl
    (by simp [mkClient, CommandResponse.GetClientId]) rfl rfl
  exact ⟨_, _, h⟩

theorem withSent_nil (s : Server) : s.withSent [] = s := by
  simp [Server.withSent]

theorem withSent_withSent (s : Server) (a b : List SendEvent) :
    (s.withSent a).withSent b = s.withSent (a ++ b) := by
  simp [Server.withSent, List.append_assoc]

theorem socketSend_eq (net : SendOracle) (s : Server) (sock : Socket) (m : IgtlMessage)
    (n : Nat) :
    socketSend net s sock m n
      = (net s.Sent sock m n, s.withSent [⟨sock, m, n, net s.Sent sock m n⟩]) := rfl

theorem failedAttempts_succ (sock : Socket) (m : IgtlMessage) (length k : Nat) :
    failedAttempts sock m length (k + 1)
      = ⟨sock, m, length, 0⟩ :: failedAttempts sock m length k := rfl

/-- When every attempt returns 0 the loop makes all `n` attempts and leaves 0. -/
theorem retrySend_allFail (net : SendOracle) (client : PlusIgtlClientInfo) (sock : Socket)
    (m : IgtlMessage) (length : Nat) (hs : client.ClientSocket = some sock) (n : Nat)
    (s : Server) (hfail : AllAttemptsFail net s.Sent sock m length n) :
    retrySend net client m length n 0 s
      = some (0, s.withSent (failedAttempts sock m length n)) := by
  induction n generalizing s with
  | zero => simp [retrySend, failedAttempts, withSent_nil]
  | succ n ih =>
    have h0 : net s.Sent sock m length = 0 := by
      simpa [failedAttempts] using hfail 0 (Nat.succ_pos n)
    have hrest : AllAttemptsFail net (s.withSent [⟨sock, m, length, 0⟩]).Sent sock m length n := by
      intro k hk
      have := hfail (k + 1) (Nat.succ_lt_succ hk)
      simpa [Server.withSent, failedAttempts_succ, List.append_assoc] using this
    simp only [retrySend, hs, socketSend_eq, h0, ne_eq, not_true_eq_false, if_false]
    rw [ih _ hrest, withSent_withSent]
    rfl

/-- When the attempts before the `k`-th return 0 and the `k`-th returns a
non-zero value `v`, the loop stops there and leaves `v`. -/
theorem retrySend_success (net : SendOracle) (client : PlusIgtlClientInfo) (sock : Socket)
    (m : IgtlMessage) (length : Nat) (hs : client.ClientSocket = some sock) (n : Nat)
    (s : Server) (k : Nat) (v : Int) (hk : k < n)
    (hfail : AllAttemptsFail net s.Sent sock m length k)
    (hv : net (s.Sent ++ failedAttempts sock m length k) sock m length = v) (hv0 : v ≠ 0) :
    retrySend net client m length n 0 s
      = some (v, s.withSent (failedAttempts sock m length k ++ [⟨sock, m, length, v⟩])) := by
  induction n generalizing s k with
  | zero => exact absurd hk (Nat.not_lt_zero k)
  | succ n ih =>
    cases k with
    | zero =>
      have h0 : net s.Sent sock m length = v := by simpa [failedAttempts] using hv
      simp only [retrySend, hs, socketSend_eq, h0, ne_eq, hv0, not_false_eq_true, if_true]
      rfl
    | succ k =>
      have h0 : net s.Sent sock m length = 0 := by
        simpa [failedAttempts] using hfail 0 (Nat.succ_pos k)
      have hrest : AllAttemptsFail net (s.withSent [⟨sock, m, length, 0⟩]).Sent sock m length k := by
        intro j hj
        have := hfail (j + 1) (Nat.succ_lt_succ hj)
        simpa [Server.withSent, failedAttempts_succ, List.append_assoc] using this
      have hv2 : net ((s.withSent [⟨sock, m, length, 0⟩]).Sent ++ failedAttempts sock m length k)
          sock m length = v := by
        simpa [Server.withSent, failedAttempts_succ, List.append_assoc] using hv
      simp only [retrySend, hs, socketSend_eq, h0, ne_eq, not_true_eq_false, if_false]
      rw [ih _ k (Nat.lt_of_succ_lt_succ hk) hrest hv2, withSent_withSent]
      rfl

/-- Either every one of the `n` attempts returns 0, or there is a first
attempt that returns a non-zero value. -/
theorem attempts_dichotomy (net : SendOracle) (sent : List SendEvent) (sock : Socket)
    (m : IgtlMessage) (length n : Nat) :
    AllAttemptsFail net sent sock m length n ∨
    ∃ k, k < n ∧ AllAttemptsFail net sent sock m length k ∧
      net (sent ++ failedAttempts sock m length k) sock m length ≠ 0 := by
  induction n with
  | zero => exact Or.inl (fun k hk => absurd hk (Nat.not_lt_zero k))
  | succ n ih =>
    rcases ih with hall | ⟨k, hk, hfail, hv⟩
    · by_cases h : net (sent ++ failedAttempts sock m length n) sock m length = 0
      · left
        intro k hk
        rcases Nat.lt_succ_iff_lt_or_eq.mp hk with hlt | heq
        · exact hall k hlt
        · rw [heq]; exact h
      · exact Or.inr ⟨n, Nat.lt_succ_self n, hall, h⟩
    · exact Or.inr ⟨k, Nat.lt_succ_of_lt hk, hfail, hv⟩

/-- C7: for a message `m` sent to a client with socket `sock` in the message
loop of `SendTrackedFrame`, with `n = NumberOfRetryAttempts` (10 as
constructed). If each of the `n` attempts returns 0, exactly `n` attempts
are made, the loop stops with `clientDisconnected` set and the client loop
erases the client. If the attempts before the `k`-th (`k < n`) return 0 and
the `k`-th returns any non-zero value `v`, smaller than the pack size or not,
exactly `k + 1` attempts are made, the flag is left alone, the loop goes on
with the next message, and a client whose only message it was is kept.
One of the two cases always applies. -/
theorem C7_send_retry (env : Env) (net : SendOracle) (client : PlusIgtlClientInfo)
    (sock : Socket) (m : IgtlMessage) (rest : List (Option IgtlMessage)) (d : Bool)
    (s : Server) (hs : client.ClientSocket = some sock) :
    let n := s.NumberOfRetryAttempts.toNat
    let len := m.GetPackSize
    (AllAttemptsFail net s.Sent sock m len n →
      sendMessagesToClient net client (some m :: rest) d s
        = some (true, s.withSent (failedAttempts sock m len n), [(m, 0)]) ∧
      ∀ frame before, packForClient env s frame client = some m :: rest →
        sendFrameToClients env net frame before [client] d s
          = some ({ s.withSent (failedAttempts sock m len n) with IgtlClients := before },
              [⟨client, some m :: rest, [(m, 0)], true⟩])) ∧
    (∀ k v, k < n → AllAttemptsFail net s.Sent sock m len k →
      net (s.Sent ++ failedAttempts sock m len k) sock m len = v → v ≠ 0 →
      sendMessagesToClient net client (some m :: rest) d s
        = (sendMessagesToClient net client rest d
            (s.withSent (failedAttempts sock m len k ++ [⟨sock, m, len, v⟩]))).map
            (fun x => (x.1, x.2.1, (m, v) :: x.2.2)) ∧
      ∀ frame before, packForClient env s frame client = [some m] →
        sendFrameToClients env net frame before [client] false s
          = some (s.withSent (failedAttempts sock m len k ++ [⟨sock, m, len, v⟩]),
              [⟨client, [some m], [(m, v)], false⟩])) ∧
    (AllAttemptsFail net s.Sent sock m len n ∨
      ∃ k, k < n ∧ AllAttemptsFail net s.Sent sock m len k ∧
        net (s.Sent ++ failedAttempts sock m len k) sock m len ≠ 0) := by
  intro n len
  refine ⟨?_, ?_, attempts_dichotomy net s.Sent sock m len n⟩
  · intro hfail
    have hloop : sendMessagesToClient net client (some m :: rest) d s
        = some (true, s.withSent (failedAttempts sock m len n), [(m, 0)]) := by
      simp only [sendMessagesToClient]
      rw [retrySend_allFail net client sock m len hs n s hfail]
      simp
    refine ⟨hloop, ?_⟩
    intro frame before hpack
    simp only [sendFrameToClients, hpack, hloop, if_true, List.append_nil]
  · intro k v hk hfail hv hv0
    have hloop : sendMessagesToClient net client (some m :: rest) d s
        = (sendMessagesToClient net client rest d
            (s.withSent (failedAttempts sock m len k ++ [⟨sock, m, len, v⟩]))).map
            (fun x => (x.1, x.2.1, (m, v) :: x.2.2)) := by
      simp only [sendMessagesToClient]
      rw [retrySend_success net client sock m len hs n s k v hk hfail hv hv0]
      simp only [hv0, if_false]
      cases sendMessagesToClient net client rest d
          (s.withSent (failedAttempts sock m len k ++ [⟨sock, m, len, v⟩])) with
      | none => rfl
      | some x => rfl
    refine ⟨hloop, ?_⟩
    intro frame before hpack
    have hloop1 : sendMessagesToClient net client [some m] false s
        = some (false, s.withSent (failedAttempts sock m len k ++ [⟨sock, m, len, v⟩]),
            [(m, v)]) := by
      simp only [sendMessagesToClient]
      rw [retrySend_success net client sock m len hs n s k v hk hfail hv hv0]
      simp [hv0]
    simp only [sendFrameToClients, hpack, hloop1, Bool.false_eq_true, if_false]

/-- Witness of C7: on socket 13 every send returns 0; with the constructor's 10
attempts the only client is erased after exactly 10 sends. -/
theorem C7_send_retry_witness :
    sendFrameToClients exampleEnv exampleNet ⟨1000, 4⟩ [] [mkClient 1 (some 13)] false
        (mkServer [mkClient 1 (some 13)])
      = some ({ (mkServer [mkClient 1 (some 13)]).withSent
            (failedAttempts 13 ⟨"IMAGE", "PlusServerImage", [4]⟩ 59 10) with IgtlClients := [] },
          [⟨mkClient 1 (some 13), [some ⟨"IMAGE", "PlusServerImage", [4]⟩],
            [(⟨"IMAGE", "PlusServerImage", [4]⟩, 0)], true⟩]) :=
  ((C7_send_retry exampleEnv exampleNet (mkClient 1 (some 13)) 13
      ⟨"IMAGE", "PlusServerImage", [4]⟩ [] false (mkServer [mkClient 1 (some 13)]) rfl).1
    (fun _ _ => rfl)).2 ⟨1000, 4⟩ [] rfl

theorem sameSettings_refl (s : Server) : SameSettings s s := ⟨rfl, rfl, rfl, rfl⟩

theorem sameSettings_trans {s t u : Server} (h1 : SameSettings s t) (h2 : SameSettings t u) :
    SameSettings s u :=
  ⟨h2.1.trans h1.1, h2.2.1.trans h1.2.1, h2.2.2.1.trans h1.2.2.1, h2.2.2.2.trans h1.2.2.2⟩

theorem sameSettings_withSent (s : Server) (evs : List SendEvent) :
    SameSettings s (s.withSent evs) := ⟨rfl, rfl, rfl, rfl⟩

theorem packForClient_congr (env : Env) (s t : Server) (h : SameSettings s t)
    (frame : TrackedFrame) (c : PlusIgtlClientInfo) :
    packForClient env t frame c = packForClient env s frame c := by
  unfold packForClient
  rw [h.1, h.2.1, h.2.2.1]

theorem retrySend_exists (net : SendOracle) (client : PlusIgtlClientInfo) (sock : Socket)
    (m : IgtlMessage) (length : Nat) (hs : client.ClientSocket = some sock) (n : Nat)
    (s : Server) :
    ∃ r evs, retrySend net client m length n 0 s = some (r, s.withSent evs) ∧
      (r ≠ 0 → ⟨sock, m, length, r⟩ ∈ evs) := by
  rcases attempts_dichotomy net s.Sent sock m length n with hall | ⟨k, hk, hfail, hv⟩
  · exact ⟨_, _, retrySend_allFail net client sock m length hs n s hall, fun h => absurd rfl h⟩
  · exact ⟨_, _, retrySend_success net client sock m length hs n s k _ hk hfail rfl hv,
      fun _ => List.mem_append_right _ (List.mem_singleton_self _)⟩

/-- The message loop for a client with a socket: it returns, only the history
of sends changes, the flag is set exactly when it was set before or some
message ended with 0, the messages handled are a prefix of the non-null
messages offered, and all of them when none ended with 0; a message that
ended with a non-zero value was passed whole to a `Send` on the client's
socket that returned this value. -/
theorem sendMessagesToClient_spec (net : SendOracle) (client : PlusIgtlClientInfo)
    (sock : Socket) (hs : client.ClientSocket = some sock)
    (msgs : List (Option IgtlMessage)) (d : Bool) (s : Server) :
    ∃ d2 evs recs, sendMessagesToClient net client msgs d s = some (d2, s.withSent evs, recs) ∧
      (d2 = true ↔ (d = true ∨ ∃ rec ∈ recs, rec.2 = 0)) ∧
      ((∀ rec ∈ recs, rec.2 ≠ 0) → recs.map Prod.fst = msgs.filterMap id) ∧
      recs.map Prod.fst <+: msgs.filterMap id ∧
      ∀ rec ∈ recs, rec.2 ≠ 0 → ⟨sock, rec.1, rec.1.GetPackSize, rec.2⟩ ∈ evs := by
  induction msgs generalizing s with
  | nil =>
    exact ⟨d, [], [], by simp [sendMessagesToClient, withSent_nil], by simp, by simp, by simp,
      by simp⟩
  | cons x rest ih =>
    cases x with
    | none =>
      obtain ⟨d2, evs, recs, h1, h2, h3, h4, h5⟩ := ih s
      exact ⟨d2, evs, recs, by simpa [sendMessagesToClient] using h1, h2,
        by simpa using h3, by simpa using h4, h5⟩
    | some m =>
      obtain ⟨r, evs, hr, hev⟩ := retrySend_exists net client sock m m.GetPackSize hs
        s.NumberOfRetryAttempts.toNat s
      by_cases hr0 : r = 0
      · refine ⟨true, evs, [(m, r)], ?_, ?_, ?_, ?_, ?_⟩
        · simp [sendMessagesToClient, hr, hr0]
        · simp [hr0]
        · intro hall
          exact absurd hr0 (hall (m, r) (List.mem_singleton_self _))
        · simp only [List.map_cons, List.map_nil, List.filterMap_cons, id]
          exact List.cons_prefix_cons.mpr ⟨rfl, List.nil_prefix⟩
        · intro rec hrec hne
          rw [List.mem_singleton.mp hrec] at hne
          exact absurd hr0 hne
      · obtain ⟨d2, evs2, recs, h1, h2, h3, h4, h5⟩ := ih (s.withSent evs)
        refine ⟨d2, evs ++ evs2, (m, r) :: recs, ?_, ?_, ?_, ?_, ?_⟩
        · simp only [sendMessagesToClient, hr, hr0, if_false, h1, withSent_withSent]
        · rw [h2]
          simp [hr0]
        · intro hall
          simp only [List.map_cons, List.filterMap_cons, id]
          rw [h3 (fun rec hrec => hall rec (List.mem_cons_of_mem _ hrec))]
        · simp only [List.map_cons, List.filterMap_cons, id]
          exact List.cons_prefix_cons.mpr ⟨rfl, h4⟩
        · intro rec hrec hne
          rcases List.mem_cons.mp hrec with rfl | hrec
          · exact List.mem_append_left _ (hev hr0)
          · exact List.mem_append_right _ (h5 rec hrec hne)

/-- The client loop of `SendTrackedFrame` on clients that all have a socket:
it returns, every client from the iterator on is visited once and in order,
the list afterwards is the clients passed before followed by the visited
clients that were not erased, and the records of the visits are backed by the
sends added to the history. -/
theorem sendFrameToClients_spec (env : Env) (net : SendOracle) (frame : TrackedFrame)
    (remaining : List PlusIgtlClientInfo)
    (hsock : ∀ c ∈ remaining, ∃ sock, c.ClientSocket = some sock)
    (before : List PlusIgtlClientInfo) (s : Server)
    (hinv : s.IgtlClients = before ++ remaining) :
    ∃ s2 visits evs, sendFrameToClients env net frame before remaining false s
        = some (s2, visits) ∧
      SameSettings s s2 ∧
      visits.map (·.client) = remaining ∧
      s2.IgtlClients = before ++ (visits.filter (fun v => !v.erased)).map (·.client) ∧
      s2.Sent = s.Sent ++ evs ∧
      ∀ v ∈ visits, v.offered = packForClient env s frame v.client ∧
        (v.erased = true ↔ v.someSendEndedWithZero) ∧
        (v.erased = false → v.records.map Prod.fst = v.offered.filterMap id) ∧
        v.records.map Prod.fst <+: v.offered.filterMap id ∧
        ∀ rec ∈ v.records, rec.2 ≠ 0 → ∀ sock, v.client.ClientSocket = some sock →
          ⟨sock, rec.1, rec.1.GetPackSize, rec.2⟩ ∈ evs := by
  induction remaining generalizing before s with
  | nil =>
    exact ⟨s, [], [], by simp [sendFrameToClients], sameSettings_refl s, rfl,
      by simpa using hinv, by simp, by simp⟩
  | cons client rest ih =>
    obtain ⟨sock, hs⟩ := hsock client (List.mem_cons_self _ _)
    have hrest : ∀ c ∈ rest, ∃ sock, c.ClientSocket = some sock :=
      fun c hc => hsock c (List.mem_cons_of_mem _ hc)
    obtain ⟨d2, evs, recs, h1, h2, h3, h4, h5⟩ := sendMessagesToClient_spec net client sock hs
      (packForClient env s frame client) false s
    have hd : d2 = true ↔ ∃ rec ∈ recs, rec.2 = 0 := by simpa using h2
    have hhead : ∀ rec ∈ recs, rec.2 ≠ 0 → ∀ k, client.ClientSocket = some k →
        ∀ more : List SendEvent, ⟨k, rec.1, rec.1.GetPackSize, rec.2⟩ ∈ evs ++ more := by
      intro rec hrec hne k hk more
      have hk2 : k = sock := Option.some.inj (hk.symm.trans hs)
      rw [hk2]
      exact List.mem_append_left _ (h5 rec hrec hne)
    cases hd2 : d2 with
    | true =>
      obtain ⟨s2, visits, evs2, g1, g2, g3, g4, g5, g6⟩ := ih hrest before
        { s.withSent evs with IgtlClients := before ++ rest } rfl
      refine ⟨s2, ⟨client, packForClient env s frame client, recs, true⟩ :: visits,
        evs ++ evs2, ?_, ?_, ?_, ?_, ?_, ?_⟩
      · simp only [sendFrameToClients, h1, hd2, if_true, g1]
      · exact sameSettings_trans ⟨rfl, rfl, rfl, rfl⟩ g2
      · simp [g3]
      · simpa using g4
      · rw [g5]
        simp [Server.withSent, List.append_assoc]
      · intro v hv
        rcases List.mem_cons.mp hv with rfl | hv
        · refine ⟨rfl, ?_, by simp, h4, fun rec hrec hne k hk => hhead rec hrec hne k hk evs2⟩
          simp only [ClientVisit.someSendEndedWithZero, true_iff]
          exact hd.mp hd2
        · have hset : SameSettings s { s.withSent evs with IgtlClients := before ++ rest } :=
            ⟨rfl, rfl, rfl, rfl⟩
          obtain ⟨a, b, c, d, e⟩ := g6 v hv
          exact ⟨a.trans (packForClient_congr env _ _ hset frame v.client), b, c, d,
            fun rec hrec hne k hk => List.mem_append_right _ (e rec hrec hne k hk)⟩
    | false =>
      obtain ⟨s2, visits, evs2, g1, g2, g3, g4, g5, g6⟩ := ih hrest (before ++ [client])
        (s.withSent evs) (by simp [Server.withSent, hinv])
      refine ⟨s2, ⟨client, packForClient env s frame client, recs, false⟩ :: visits,
        evs ++ evs2, ?_, ?_, ?_, ?_, ?_, ?_⟩
      · simp only [sendFrameToClients, h1, hd2, Bool.false_eq_true, if_false, g1]
      · exact sameSettings_trans (sameSettings_withSent s evs) g2
      · simp [g3]
      · simpa using g4
      · rw [g5]
        simp [Server.withSent, List.append_assoc]
      · intro v hv
        rcases List.mem_cons.mp hv with rfl | hv
        · have hnone : ¬ ∃ rec ∈ recs, rec.2 = 0 := by
            intro hex
            have := hd.mpr hex
            rw [hd2] at this
            exact Bool.noConfusion this
          refine ⟨rfl, ?_, ?_, h4, fun rec hrec hne k hk => hhead rec hrec hne k hk evs2⟩
          · simp only [ClientVisit.someSendEndedWithZero, Bool.false_eq_true, false_iff]
            exact hnone
          · intro _
            exact h3 (fun rec hrec h0 => hnone ⟨rec, hrec, h0⟩)
        · obtain ⟨a, b, c, d, e⟩ := g6 v hv
          exact ⟨a.trans (packForClient_congr env _ _ (sameSettings_withSent s evs) frame
            v.client), b, c, d,
            fun rec hrec hne k hk => List.mem_append_right _ (e rec hrec hne k hk)⟩

theorem afterSetTransforms_clients (env : Env) (frame : TrackedFrame) (s : Server) :
    (afterSetTransforms env frame s).IgtlClients = s.IgtlClients := by
  unfold afterSetTransforms
  split <;> rfl

theorem SendTrackedFrame_eq (env : Env) (net : SendOracle) (frame : TrackedFrame) (s : Server) :
    SendTrackedFrame env net frame s
      = (sendFrameToClients env net (universalFrame env frame) []
          (afterSetTransforms env frame s).IgtlClients false (afterSetTransforms env frame s)).map
        (fun x => ⟨setTransformsStatus env frame s, frame, x.1, x.2⟩) := by
  unfold SendTrackedFrame afterSetTransforms universalFrame setTransformsStatus
  cases hrepo : s.TransformRepository with
  | none =>
    simp only
    split <;> simp_all
  | some repo =>
    simp only
    by_cases hst : (env.SetTransforms repo frame).1 = PlusStatus.PLUS_SUCCESS
    · split <;> simp_all
    · split <;> simp_all

theorem afterSetTransforms_sent (env : Env) (frame : TrackedFrame) (s : Server) :
    (afterSetTransforms env frame s).Sent = s.Sent := by
  unfold afterSetTransforms
  split <;> rfl

/-- C6: on a client list in which every client has a socket, `SendTrackedFrame`
returns; every client is visited once, in list order; the list afterwards is
the original list without exactly the clients for which the send of some
message ended with return value 0, the others in their original order; every
client kept was sent every non-null message the factory returned for it, each
in a `Send` of the whole message on its socket that returned a non-zero
value; and the number of connected clients went down by the number of clients
erased. -/
theorem C6_SendTrackedFrame_clients (env : Env) (net : SendOracle) (frame : TrackedFrame)
    (s : Server) (hsock : ∀ c ∈ s.IgtlClients, ∃ sock, c.ClientSocket = some sock) :
    ∃ r evs, SendTrackedFrame env net frame s = some r ∧
      r.visits.map (·.client) = s.IgtlClients ∧
      r.server.Sent = s.Sent ++ evs ∧
      (∀ v ∈ r.visits, (v.erased = true ↔ v.someSendEndedWithZero) ∧
        v.offered = packForClient env (afterSetTransforms env frame s)
          (universalFrame env frame) v.client ∧
        (v.erased = false → v.records.map Prod.fst = v.offered.filterMap id ∧
          ∀ rec ∈ v.records, ∀ sock, v.client.ClientSocket = some sock →
            rec.2 ≠ 0 ∧ ⟨sock, rec.1, rec.1.GetPackSize, rec.2⟩ ∈ evs)) ∧
      r.server.IgtlClients = (r.visits.filter (fun v => !v.erased)).map (·.client) ∧
      r.server.IgtlClients.Sublist s.IgtlClients ∧
      GetNumberOfConnectedClients r.server
        = GetNumberOfConnectedClients s - (r.visits.filter (fun v => v.erased)).length := by
  have hcl := afterSetTransforms_clients env frame s
  obtain ⟨s2, visits, evs, g1, _, g3, g4, g5, g6⟩ := sendFrameToClients_spec env net
    (universalFrame env frame) (afterSetTransforms env frame s).IgtlClients
    (by rw [hcl]; exact hsock) [] (afterSetTransforms env frame s) rfl
  rw [hcl] at g3
  rw [afterSetTransforms_sent] at g5
  simp only [List.nil_append] at g4
  have heq := SendTrackedFrame_eq env net frame s
  rw [g1, Option.map_some'] at heq
  refine ⟨_, evs, heq, g3, g5, ?_, g4, ?_, ?_⟩
  · intro v hv
    obtain ⟨a, b, c, _, e⟩ := g6 v hv
    refine ⟨b, a, fun hkeep => ⟨c hkeep, fun rec hrec sock hk => ?_⟩⟩
    have hne : rec.2 ≠ 0 := by
      intro h0
      have : v.erased = true := b.mpr ⟨rec, hrec, h0⟩
      rw [hkeep] at this
      exact Bool.noConfusion this
    exact ⟨hne, e rec hrec hne sock hk⟩
  · show s2.IgtlClients.Sublist s.IgtlClients
    rw [g4, ← g3]
    exact (List.filter_sublist visits).map _
  · show ((s2.IgtlClients.length : Nat) : Int)
      = (s.IgtlClients.length : Int) - ((visits.filter (fun v => v.erased)).length : Int)
    have hlen := List.length_eq_length_filter_add (l := visits) (fun v => v.erased)
    have h1 : s.IgtlClients.length = visits.length := by rw [← g3, List.length_map]
    have h2 : s2.IgtlClients.length = (visits.filter (fun v => !v.erased)).length := by
      rw [g4, List.length_map]
    rw [h1, h2]
    omega

/-- Witness of C6 (scenario S3 of the specification): of three clients the
second, on socket 13, only ever gets 0 from `Send`; it is erased, the first
and the third stay, in that order, and two clients remain connected. -/
theorem C6_SendTrackedFrame_clients_witness :
    ∃ r, SendTrackedFrame exampleEnv exampleNet ⟨1000, 4⟩
        (mkServer [mkClient 1 (some 7), mkClient 2 (some 13), mkClient 3 (some 9)]) = some r ∧
      r.server.IgtlClients = [mkClient 1 (some 7), mkClient 3 (some 9)] ∧
      GetNumberOfConnectedClients r.server = 2 := by
  obtain ⟨r, _, hr, _⟩ := C6_SendTrackedFrame_clients exampleEnv exampleNet ⟨1000, 4⟩
    (mkServer [mkClient 1 (some 7), mkClient 2 (some 13), mkClient 3 (some 9)])
    (by simp [mkServer, mkClient])
  have h0 : (SendTrackedFrame exampleEnv exampleNet ⟨1000, 4⟩
      (mkServer [mkClient 1 (some 7), mkClient 2 (some 13), mkClient 3 (some 9)])).map
        (fun x => x.server.IgtlClients) = some [mkClient 1 (some 7), mkClient 3 (some 9)] := rfl
  rw [hr] at h0
  have h1 : r.server.IgtlClients = [mkClient 1 (some 7), mkClient 3 (some 9)] := by
    simpa using h0
  exact ⟨r, hr, h1, by simp [GetNumberOfConnectedClients, h1]⟩

theorem not_isEmpty_ite {α : Type} [DecidableEq α] (own dflt : List α) :
    (if (!own.isEmpty) = true then own else dflt) = if own ≠ [] then own else dflt := by
  cases own <;> simp

/-- C8 does not hold as stated: a client that set only its message types has a
non-empty subscription, yet the transform names handed to the factory are the
server's defaults and not the client's own (empty) list. -/
theorem C8_counterexample :
    ¬ (exampleSubscriber.hasSubscription →
        effectiveSubscription exampleDefaults exampleSubscriber
          = exampleSubscriber.subscription) := by
  intro h
  have h2 := h (Or.inl (by simp [exampleSubscriber]))
  have h3 := congrArg Subscription.transformNames h2
  simp [effectiveSubscription, PlusIgtlClientInfo.subscription, exampleSubscriber,
    exampleDefaults] at h3

/-- C8 (amended): the lists `SendTrackedFrame` hands to the Message Factory for
a client are, list by list, the client's own list when that list is not empty
and the server's default list otherwise. So the subscription passed is the
client's own when all four of its lists are non-empty, and it is the server's
default subscription when the client's subscription is entirely empty. -/
theorem C8_effective_subscription (env : Env) (s : Server) (frame : TrackedFrame)
    (client : PlusIgtlClientInfo) :
    let sub := effectiveSubscription s.DefaultClientInfo client
    packForClient env s frame client
      = (env.PackMessages sub.messageTypes frame sub.transformNames sub.imageStreams
          sub.stringNames s.SendValidTransformsOnly s.TransformRepository).2 ∧
    sub.messageTypes = (if client.IgtlMessageTypes ≠ [] then client.IgtlMessageTypes
      else s.DefaultClientInfo.IgtlMessageTypes) ∧
    sub.transformNames = (if client.TransformNames ≠ [] then client.TransformNames
      else s.DefaultClientInfo.TransformNames) ∧
    sub.imageStreams = (if client.ImageStreams ≠ [] then client.ImageStreams
      else s.DefaultClientInfo.ImageStreams) ∧
    sub.stringNames = (if client.StringNames ≠ [] then client.StringNames
      else s.DefaultClientInfo.StringNames) ∧
    (client.IgtlMessageTypes ≠ [] ∧ client.TransformNames ≠ [] ∧ client.ImageStreams ≠ [] ∧
      client.StringNames ≠ [] → sub = client.subscription) ∧
    (¬ client.hasSubscription → sub = s.DefaultClientInfo.subscription) := by
  intro sub
  have h1 : sub.messageTypes = (if client.IgtlMessageTypes ≠ [] then client.IgtlMessageTypes
      else s.DefaultClientInfo.IgtlMessageTypes) := not_isEmpty_ite _ _
  have h2 : sub.transformNames = (if client.TransformNames ≠ [] then client.TransformNames
      else s.DefaultClientInfo.TransformNames) := not_isEmpty_ite _ _
  have h3 : sub.imageStreams = (if client.ImageStreams ≠ [] then client.ImageStreams
      else s.DefaultClientInfo.ImageStreams) := not_isEmpty_ite _ _
  have h4 : sub.stringNames = (if client.StringNames ≠ [] then client.StringNames
      else s.DefaultClientInfo.StringNames) := not_isEmpty_ite _ _
  refine ⟨rfl, h1, h2, h3, h4, ?_, ?_⟩
  · rintro ⟨a, b, c, d⟩
    rw [if_pos a] at h1
    rw [if_pos b] at h2
    rw [if_pos c] at h3
    rw [if_pos d] at h4
    cases hsub : sub with
    | mk mt tn im sn =>
      rw [hsub] at h1 h2 h3 h4
      simp only at h1 h2 h3 h4
      simp [PlusIgtlClientInfo.subscription, h1, h2, h3, h4]
  · intro hnone
    simp only [PlusIgtlClientInfo.hasSubscription, not_or, not_not] at hnone
    obtain ⟨a, b, c, d⟩ := hnone
    rw [a] at h1
    rw [b] at h2
    rw [c] at h3
    rw [d] at h4
    cases hsub : sub with
    | mk mt tn im sn =>
      rw [hsub] at h1 h2 h3 h4
      simp only [ne_eq, not_true_eq_false, if_false] at h1 h2 h3 h4
      simp [PlusIgtlClientInfo.subscription, h1, h2, h3, h4]

/-- Witness of C8 (amended): a client with an entirely empty subscription is
served with the server defaults. -/
theorem C8_effective_subscription_witness :
    ¬ (mkClient 1 (some 7)).hasSubscription ∧
    effectiveSubscription (mkServer []).DefaultClientInfo (mkClient 1 (some 7))
      = ⟨["IMAGE"], [], [], []⟩ :=
  ⟨by simp [PlusIgtlClientInfo.hasSubscription, mkClient],
    (C8_effective_subscription exampleEnv (mkServer []) ⟨0, 0⟩ (mkClient 1 (some 7))).2.2.2.2.2.2
      (by simp [PlusIgtlClientInfo.hasSubscription, mkClient])⟩

theorem exact_gt_of_round_gt (env : Env) (c : ℚ) (hround : env.RoundsNotAbove c) (q : ℚ)
    (h : env.RoundToDouble q > c) : q > c :=
  lt_of_not_le (fun hq => absurd (hround q hq) (not_le.mpr h))

theorem exampleEnv_roundsNotAbove (c : ℚ) : exampleEnv.RoundsNotAbove c := fun _ h => h

theorem exampleEnv_exactArithmetic : exampleEnv.ExactArithmetic := fun _ => rfl

theorem clearPreviousCommands_cases (env : Env) (clock : Clock) (client : PlusIgtlClientInfo) (s : Server) :
    (clearPreviousCommands env clock client s
        = { s with TimeReads := s.TimeReads + 1 } ∧
      ¬ (env.RoundToDouble (clock s.TimeReads - s.LastCommandTimestamp client.ClientId)
            > CLEAR_PREVIOUS_COMMANDS_TIMEOUT_SEC
          ∧ s.PreviousCommands client.ClientId ≠ [])) ∨
    (clearPreviousCommands env clock client s
        = { s with
            TimeReads := s.TimeReads + 2
            LastCommandTimestamp :=
              Function.update s.LastCommandTimestamp client.ClientId (clock (s.TimeReads + 1))
            PreviousCommands := Function.update s.PreviousCommands client.ClientId [] } ∧
      env.RoundToDouble (clock s.TimeReads - s.LastCommandTimestamp client.ClientId)
          > CLEAR_PREVIOUS_COMMANDS_TIMEOUT_SEC ∧
      s.PreviousCommands client.ClientId ≠ []) := by
  by_cases h : env.RoundToDouble (clock s.TimeReads - s.LastCommandTimestamp client.ClientId)
        > CLEAR_PREVIOUS_COMMANDS_TIMEOUT_SEC
      ∧ s.PreviousCommands client.ClientId ≠ []
  · right
    refine ⟨?_, h.1, h.2⟩
    simp only [clearPreviousCommands, GetSystemTime]
    rw [if_pos h]
  · left
    refine ⟨?_, h⟩
    simp only [clearPreviousCommands, GetSystemTime]
    rw [if_neg h]

theorem receiveFromClient_string (env : Env) (net : SendOracle) (clock : Clock)
    (client : PlusIgtlClientInfo) (sock : Socket) (inb : Inbound) (s : Server)
    (hcmd : inb.isStringCommand) :
    receiveFromClient env net clock client sock inb s
      = (receiveStringCommand env client inb.message
          { clearPreviousCommands env clock client s with
            TimeReads := (clearPreviousCommands env clock client s).TimeReads + 1
            LastCommandTimestamp :=
              Function.update (clearPreviousCommands env clock client s).LastCommandTimestamp
                client.ClientId (headerTime env clock client s) }, false) := by
  obtain ⟨h1, h2, _⟩ := hcmd
  have hne : ¬ (inb.bytesReceived = IGTL_EMPTY_DATA_SIZE
      ∨ inb.bytesReceived ≠ (IGTL_HEADER_SIZE : Int)) := by
    rw [h1]
    simp [IGTL_EMPTY_DATA_SIZE, IGTL_HEADER_SIZE]
  simp only [receiveFromClient, if_neg hne, dispatchMessage, h2, GetSystemTime, headerTime]
  simp

theorem clearPreviousCommands_queue (env : Env) (clock : Clock) (client : PlusIgtlClientInfo) (s : Server) :
    (clearPreviousCommands env clock client s).CommandQueue = s.CommandQueue := by
  rcases clearPreviousCommands_cases env clock client s with ⟨h, _⟩ | ⟨h, _⟩ <;> rw [h]

theorem clearPreviousCommands_known (env : Env) (clock : Clock) (client : PlusIgtlClientInfo) (s : Server)
    (u : String) (h : u ∈ (clearPreviousCommands env clock client s).PreviousCommands client.ClientId) :
    (clearPreviousCommands env clock client s).PreviousCommands = s.PreviousCommands := by
  rcases clearPreviousCommands_cases env clock client s with ⟨h1, _⟩ | ⟨h1, _⟩
  · rw [h1]
  · rw [h1] at h
    simp at h

/-- C9: for a successfully unpacked STRING command of a client, with `uid` the
uid of its device name and `known` the client's `PreviousCommands` at that
moment (after the timeout check of the iteration): the command is appended to
the processor's queue if and only if `uid` is empty or not in `known`; when
it is not, neither the queue nor any uid list changes; an accepted non-empty
uid is appended to the client's list; a command with an empty uid is queued
and no uid list changes. -/
theorem C9_command_dedupe (env : Env) (net : SendOracle) (clock : Clock)
    (client : PlusIgtlClientInfo) (sock : Socket) (inb : Inbound) (s : Server)
    (hcmd : inb.isStringCommand) :
    let s0 := clearPreviousCommands env clock client s
    let uid := env.GetUidFromCommandDeviceName inb.message.commandDeviceName
    let cmd := QueuedCommand.command client.ClientId inb.message.Text
      (env.GetPrefixFromCommandDeviceName inb.message.commandDeviceName) uid
    let known := s0.PreviousCommands client.ClientId
    let s1 := (receiveFromClient env net clock client sock inb s).1
    (s1.CommandQueue = s.CommandQueue ++ [cmd] ↔ (uid = "" ∨ uid ∉ known)) ∧
    (¬ (uid = "" ∨ uid ∉ known) →
      s1.CommandQueue = s.CommandQueue ∧ s1.PreviousCommands = s0.PreviousCommands ∧
      s1.PreviousCommands = s.PreviousCommands) ∧
    (uid ≠ "" → uid ∉ known →
      s1.PreviousCommands = Function.update s0.PreviousCommands client.ClientId (known ++ [uid])) ∧
    (uid = "" → s1.CommandQueue = s.CommandQueue ++ [cmd] ∧
      s1.PreviousCommands = s0.PreviousCommands) := by
  intro s0 uid cmd known s1
  have hq : s0.CommandQueue = s.CommandQueue := clearPreviousCommands_queue env clock client s
  have hs1 : s1 = receiveStringCommand env client inb.message
      { s0 with
        TimeReads := s0.TimeReads + 1
        LastCommandTimestamp :=
          Function.update s0.LastCommandTimestamp client.ClientId (headerTime env clock client s) } := by
    show (receiveFromClient env net clock client sock inb s).1 = _
    rw [receiveFromClient_string env net clock client sock inb s hcmd]
  have hunpack : inb.message.unpackBody = true := hcmd.2.2
  have hdev : (match inb.message.DeviceName with
      | some name => name
      | none => "UNKNOWN") = inb.message.commandDeviceName := rfl
  by_cases hu : uid = ""
  · have hu2 : env.GetUidFromCommandDeviceName inb.message.commandDeviceName = "" := hu
    have hres : s1.CommandQueue = s.CommandQueue ++ [cmd] ∧
        s1.PreviousCommands = s0.PreviousCommands := by
      rw [hs1]
      simp only [receiveStringCommand, hunpack, if_true, hdev, hu2, ne_eq, not_true_eq_false,
        if_false]
      exact ⟨by rw [hq]; simp [cmd, uid, hu2], trivial⟩
    exact ⟨⟨fun _ => Or.inl hu, fun _ => hres.1⟩, fun h => absurd (Or.inl hu) h,
      fun h => absurd hu h, fun _ => hres⟩
  · have hu2 : env.GetUidFromCommandDeviceName inb.message.commandDeviceName ≠ "" := hu
    by_cases hk : uid ∈ known
    · have hk2 : env.GetUidFromCommandDeviceName inb.message.commandDeviceName
          ∈ s0.PreviousCommands client.ClientId := hk
      have hres : s1.CommandQueue = s.CommandQueue ∧ s1.PreviousCommands = s0.PreviousCommands := by
        rw [hs1]
        simp only [receiveStringCommand, hunpack, if_true, hdev, ne_eq, hu2, not_false_eq_true,
          hk2]
        exact ⟨hq, trivial⟩
      refine ⟨⟨fun h => ?_, fun h => ?_⟩, fun _ => ⟨hres.1, hres.2, ?_⟩,
        fun _ h => absurd hk h, fun h => absurd h hu⟩
      · rw [hres.1] at h
        have := congrArg List.length h
        simp at this
      · rcases h with h | h
        · exact absurd h hu
        · exact absurd hk h
      · rw [hres.2]
        exact clearPreviousCommands_known env clock client s uid hk
    · have hk2 : env.GetUidFromCommandDeviceName inb.message.commandDeviceName
          ∉ s0.PreviousCommands client.ClientId := hk
      have hres : s1.CommandQueue = s.CommandQueue ++ [cmd] ∧
          s1.PreviousCommands
            = Function.update s0.PreviousCommands client.ClientId (known ++ [uid]) := by
        rw [hs1]
        simp only [receiveStringCommand, hunpack, if_true, hdev, ne_eq, hu2, not_false_eq_true,
          hk2, if_false]
        exact ⟨by rw [hq], trivial⟩
      exact ⟨⟨fun _ => Or.inr hk, fun _ => hres.1⟩, fun h => absurd (Or.inr hk) h,
        fun _ _ => hres.2, fun h => absurd h hu⟩

/-- Witness of C9 (scenario S5 of the specification, first command): the
command named `Cmd_42` arrives at a server that knows no uid of client 1 and
is queued with prefix `Cmd` and uid `42`. -/
theorem C9_command_dedupe_witness :
    exampleCommand.isStringCommand ∧
    (receiveFromClient exampleEnv exampleNet exampleClock (mkClient 1 (some 7)) 7 exampleCommand
        (mkServer [mkClient 1 (some 7)])).1.CommandQueue
      = [QueuedCommand.command 1 "<Command Name=\"Ping\" />" "Cmd" "42"] := by
  have hcmd : exampleCommand.isStringCommand := ⟨rfl, rfl, rfl⟩
  refine ⟨hcmd, ?_⟩
  have h := (C9_command_dedupe exampleEnv exampleNet exampleClock (mkClient 1 (some 7)) 7
    exampleCommand (mkServer [mkClient 1 (some 7)]) hcmd).1.mpr (Or.inr (by
      rcases clearPreviousCommands_cases exampleEnv exampleClock (mkClient 1 (some 7))
        (mkServer [mkClient 1 (some 7)]) with ⟨h, _⟩ | ⟨h, _⟩ <;> rw [h] <;>
        simp [mkServer, mkClient]))
  exact h

theorem receiveStringCommand_dropped (env : Env) (client : PlusIgtlClientInfo)
    (msg : InboundMessage) (s : Server)
    (hu : env.GetUidFromCommandDeviceName msg.commandDeviceName ≠ "")
    (hk : env.GetUidFromCommandDeviceName msg.commandDeviceName
      ∈ s.PreviousCommands client.ClientId) :
    receiveStringCommand env client msg s = s := by
  have hdev : (match msg.DeviceName with
      | some name => name
      | none => "UNKNOWN") = msg.commandDeviceName := rfl
  unfold receiveStringCommand
  split
  · simp only [hdev, ne_eq, hu, not_false_eq_true, if_true, hk]
  · rfl

theorem receiveStringCommand_accepted (env : Env) (client : PlusIgtlClientInfo)
    (msg : InboundMessage) (s : Server) (hunpack : msg.unpackBody = true)
    (hu : env.GetUidFromCommandDeviceName msg.commandDeviceName ≠ "")
    (hk : env.GetUidFromCommandDeviceName msg.commandDeviceName
      ∉ s.PreviousCommands client.ClientId) :
    receiveStringCommand env client msg s
      = { s with
          PreviousCommands := Function.update s.PreviousCommands client.ClientId
            (s.PreviousCommands client.ClientId
              ++ [env.GetUidFromCommandDeviceName msg.commandDeviceName])
          CommandQueue := s.CommandQueue ++ [QueuedCommand.command client.ClientId msg.Text
            (env.GetPrefixFromCommandDeviceName msg.commandDeviceName)
            (env.GetUidFromCommandDeviceName msg.commandDeviceName)] } := by
  have hdev : (match msg.DeviceName with
      | some name => name
      | none => "UNKNOWN") = msg.commandDeviceName := rfl
  unfold receiveStringCommand
  simp only [hunpack, if_true, hdev, ne_eq, hu, not_false_eq_true, hk, if_false]

theorem receiveStringCommand_frame (env : Env) (client : PlusIgtlClientInfo)
    (msg : InboundMessage) (s : Server) :
    (receiveStringCommand env client msg s).TimeReads = s.TimeReads ∧
    (receiveStringCommand env client msg s).LastCommandTimestamp = s.LastCommandTimestamp ∧
    ∀ c u, u ∈ s.PreviousCommands c → u ∈ (receiveStringCommand env client msg s).PreviousCommands c := by
  unfold receiveStringCommand
  split
  · simp only
    split
    · split
      · exact ⟨rfl, rfl, fun _ _ h => h⟩
      · refine ⟨rfl, rfl, fun c u h => ?_⟩
        show u ∈ Function.update s.PreviousCommands client.ClientId _ c
        by_cases hc : c = client.ClientId
        · subst hc
          rw [Function.update_same]
          exact List.mem_append_left _ h
        · rw [Function.update_noteq hc]
          exact h
    · exact ⟨rfl, rfl, fun _ _ h => h⟩
  · exact ⟨rfl, rfl, fun _ _ h => h⟩

theorem dispatchMessage_frame (env : Env) (net : SendOracle) (client : PlusIgtlClientInfo)
    (sock : Socket) (msg : InboundMessage) (s : Server) :
    (dispatchMessage env net client sock msg s).1.TimeReads = s.TimeReads ∧
    (dispatchMessage env net client sock msg s).1.LastCommandTimestamp = s.LastCommandTimestamp ∧
    ∀ c u, u ∈ s.PreviousCommands c →
      u ∈ (dispatchMessage env net client sock msg s).1.PreviousCommands c := by
  unfold dispatchMessage
  split
  · split <;> exact ⟨rfl, rfl, fun _ _ h => h⟩
  · split
    · exact ⟨rfl, rfl, fun _ _ h => h⟩
    · split
      · exact receiveStringCommand_frame env client msg s
      · split
        · exact ⟨rfl, rfl, fun _ _ h => h⟩
        · split
          · split <;> exact ⟨rfl, rfl, fun _ _ h => h⟩
          · exact ⟨rfl, rfl, fun _ _ h => h⟩

theorem dedupeInv_clear (env : Env) (clock : Clock)
    (hround : env.RoundsNotAbove CLEAR_PREVIOUS_COMMANDS_TIMEOUT_SEC) (c : Int) (u : String)
    (kt : Nat) (client : PlusIgtlClientInfo) (st : Server) (h : DedupeInv clock c u kt st) :
    DedupeInv clock c u kt (clearPreviousCommands env clock client st) := by
  obtain ⟨hkt, hor⟩ := h
  rcases clearPreviousCommands_cases env clock client st with ⟨heq, _⟩ | ⟨heq, hgt, _⟩
  · rw [heq]
    refine ⟨Nat.lt_succ_of_lt hkt, ?_⟩
    rcases hor with hl | ⟨k, hk, hlt⟩
    · exact Or.inl hl
    · exact Or.inr ⟨k, Nat.lt_succ_of_lt hk, hlt⟩
  · rw [heq]
    refine ⟨by show kt < st.TimeReads + 2; omega, ?_⟩
    rcases hor with ⟨hmem, hle⟩ | ⟨k, hk, hlt⟩
    · by_cases hc : c = client.ClientId
      · right
        refine ⟨st.TimeReads, by show st.TimeReads < st.TimeReads + 2; omega, ?_⟩
        rw [← hc] at hgt
        have hgt2 := exact_gt_of_round_gt env _ hround _ hgt
        linarith
      · left
        show u ∈ Function.update st.PreviousCommands client.ClientId [] c
          ∧ clock kt ≤ Function.update st.LastCommandTimestamp client.ClientId _ c
        rw [Function.update_noteq hc, Function.update_noteq hc]
        exact ⟨hmem, hle⟩
    · exact Or.inr ⟨k, by show k < st.TimeReads + 2; omega, hlt⟩

theorem dedupeInv_step (env : Env) (net : SendOracle) (clock : Clock) (hmono : Monotone clock)
    (hround : env.RoundsNotAbove CLEAR_PREVIOUS_COMMANDS_TIMEOUT_SEC) (c : Int) (u : String) (kt : Nat) (client : PlusIgtlClientInfo) (sock : Socket)
    (inb : Inbound) (st : Server) (h : DedupeInv clock c u kt st) :
    DedupeInv clock c u kt (receiveFromClient env net clock client sock inb st).1 := by
  have h0 := dedupeInv_clear env clock hround c u kt client st h
  unfold receiveFromClient
  simp only
  split
  · exact h0
  · obtain ⟨hkt, hor⟩ := h0
    obtain ⟨f1, f2, f3⟩ := dispatchMessage_frame env net client sock inb.message
      { (GetSystemTime clock (clearPreviousCommands env clock client st)).2 with
        LastCommandTimestamp := Function.update
          (GetSystemTime clock (clearPreviousCommands env clock client st)).2.LastCommandTimestamp
          client.ClientId (GetSystemTime clock (clearPreviousCommands env clock client st)).1 }
    refine ⟨?_, ?_⟩
    · rw [f1]
      exact Nat.lt_succ_of_lt hkt
    · rcases hor with ⟨hmem, hle⟩ | ⟨k, hk, hlt⟩
      · left
        refine ⟨f3 c u hmem, ?_⟩
        rw [f2]
        show clock kt ≤ Function.update
          (clearPreviousCommands env clock client st).LastCommandTimestamp client.ClientId
          (clock (clearPreviousCommands env clock client st).TimeReads) c
        by_cases hc : c = client.ClientId
        · subst hc
          rw [Function.update_same]
          exact hmono (Nat.le_of_lt hkt)
        · rw [Function.update_noteq hc]
          exact hle
      · right
        refine ⟨k, ?_, hlt⟩
        rw [f1]
        exact Nat.lt_succ_of_lt hk

theorem dedupeInv_run (env : Env) (net : SendOracle) (clock : Clock) (hmono : Monotone clock)
    (hround : env.RoundsNotAbove CLEAR_PREVIOUS_COMMANDS_TIMEOUT_SEC) (c : Int) (u : String) (kt : Nat) (steps : List ReceiverStep) (st : Server)
    (h : DedupeInv clock c u kt st) :
    DedupeInv clock c u kt (receiverRun env net clock steps st).1 := by
  induction steps generalizing st with
  | nil => exact h
  | cons e rest ih =>
    have hstep := dedupeInv_step env net clock hmono hround c u kt e.client e.sock e.inbound st h
    simp only [receiverRun]
    split
    · exact hstep
    · exact ih _ hstep

theorem receiverRun_append (env : Env) (net : SendOracle) (clock : Clock)
    (a b : List ReceiverStep) (s : Server) :
    receiverRun env net clock (a ++ b) s
      = if (receiverRun env net clock a s).2 = true then receiverRun env net clock a s
        else receiverRun env net clock b (receiverRun env net clock a s).1 := by
  induction a generalizing s with
  | nil => simp [receiverRun]
  | cons e rest ih =>
    simp only [List.cons_append, receiverRun]
    split
    · rename_i h
      simp [h]
    · exact ih _

theorem receiverRun_single (env : Env) (net : SendOracle) (clock : Clock) (e : ReceiverStep)
    (s : Server) :
    (receiverRun env net clock [e] s).1
      = (receiveFromClient env net clock e.client e.sock e.inbound s).1 := by
  simp only [receiverRun]
  split <;> rfl

theorem receiveFromClient_string_afterHeader (env : Env) (net : SendOracle) (clock : Clock)
    (client : PlusIgtlClientInfo) (sock : Socket) (inb : Inbound) (s : Server)
    (hcmd : inb.isStringCommand) :
    receiveFromClient env net clock client sock inb s
      = (receiveStringCommand env client inb.message (afterHeader env clock client s), false) :=
  receiveFromClient_string env net clock client sock inb s hcmd

theorem accepted_establishes_inv (env : Env) (net : SendOracle) (clock : Clock)
    (client : PlusIgtlClientInfo) (sock : Socket) (inb : Inbound) (u : String) (st : Server)
    (hcmd : inb.isStringCommand)
    (huid : env.GetUidFromCommandDeviceName inb.message.commandDeviceName = u) (hu : u ≠ "")
    (henq : (receiveFromClient env net clock client sock inb st).1.CommandQueue
      ≠ st.CommandQueue) :
    DedupeInv clock client.ClientId u (clearPreviousCommands env clock client st).TimeReads
      (receiveFromClient env net clock client sock inb st).1 := by
  rw [receiveFromClient_string_afterHeader env net clock client sock inb st hcmd] at henq ⊢
  have hu2 : env.GetUidFromCommandDeviceName inb.message.commandDeviceName ≠ "" := by
    rw [huid]; exact hu
  by_cases hk : env.GetUidFromCommandDeviceName inb.message.commandDeviceName
      ∈ (clearPreviousCommands env clock client st).PreviousCommands client.ClientId
  · exfalso
    apply henq
    show (receiveStringCommand env client inb.message (afterHeader env clock client st)).CommandQueue
      = _
    rw [receiveStringCommand_dropped env client inb.message (afterHeader env clock client st) hu2 hk]
    exact clearPreviousCommands_queue env clock client st
  · show DedupeInv clock client.ClientId u _
      (receiveStringCommand env client inb.message (afterHeader env clock client st))
    rw [receiveStringCommand_accepted env client inb.message (afterHeader env clock client st)
      hcmd.2.2 hu2 hk]
    refine ⟨Nat.lt_succ_self _, Or.inl ⟨?_, ?_⟩⟩
    · simp only [Function.update_same, huid]
      exact List.mem_append_right _ (List.mem_singleton_self u)
    · simp only [afterHeader, Function.update_same, headerTime]
      exact le_refl _

theorem clearPreviousCommands_reads (env : Env) (clock : Clock) (client : PlusIgtlClientInfo) (s : Server) :
    s.TimeReads < (clearPreviousCommands env clock client s).TimeReads := by
  rcases clearPreviousCommands_cases env clock client s with ⟨h, _⟩ | ⟨h, _⟩ <;> rw [h]
  · exact Nat.lt_succ_self _
  · show s.TimeReads < s.TimeReads + 2
    omega

theorem duplicate_dropped (env : Env) (net : SendOracle) (clock : Clock) (hmono : Monotone clock)
    (hround : env.RoundsNotAbove CLEAR_PREVIOUS_COMMANDS_TIMEOUT_SEC) (client : PlusIgtlClientInfo) (sock : Socket) (inb : Inbound) (u : String) (kt : Nat)
    (st : Server) (hcmd : inb.isStringCommand)
    (huid : env.GetUidFromCommandDeviceName inb.message.commandDeviceName = u) (hu : u ≠ "")
    (hinv : DedupeInv clock client.ClientId u kt st)
    (hwin : headerTime env clock client st < clock kt + CLEAR_PREVIOUS_COMMANDS_TIMEOUT_SEC) :
    (receiveFromClient env net clock client sock inb st).1.CommandQueue = st.CommandQueue := by
  have hu2 : env.GetUidFromCommandDeviceName inb.message.commandDeviceName ≠ "" := by
    rw [huid]; exact hu
  have hreads := clearPreviousCommands_reads env clock client st
  have hknown : u ∈ (clearPreviousCommands env clock client st).PreviousCommands client.ClientId := by
    obtain ⟨_, hor⟩ := hinv
    rcases hor with ⟨hmem, hle⟩ | ⟨k, hk, hlt⟩
    · rcases clearPreviousCommands_cases env clock client st with ⟨heq, _⟩ | ⟨heq, hgt, _⟩
      · rw [heq]
        exact hmem
      · exfalso
        have h1 : clock st.TimeReads ≤ headerTime env clock client st :=
          hmono (Nat.le_of_lt hreads)
        have hgt2 := exact_gt_of_round_gt env _ hround _ hgt
        linarith
    · exfalso
      have h1 : clock k ≤ headerTime env clock client st :=
        hmono (Nat.le_of_lt (Nat.lt_trans hk hreads))
      linarith
  rw [receiveFromClient_string_afterHeader env net clock client sock inb st hcmd]
  show (receiveStringCommand env client inb.message (afterHeader env clock client st)).CommandQueue = _
  rw [receiveStringCommand_dropped env client inb.message (afterHeader env clock client st) hu2
    (by rw [huid]; exact hknown)]
  exact clearPreviousCommands_queue env clock client st

theorem receiverRun_string_flag (env : Env) (net : SendOracle) (clock : Clock)
    (e : ReceiverStep) (s : Server) (hcmd : e.inbound.isStringCommand) :
    (receiverRun env net clock [e] s).2 = false := by
  simp only [receiverRun]
  rw [receiveFromClient_string env net clock e.client e.sock e.inbound s hcmd]
  simp

/-- A receiver tick over clients that all have a socket is the sequence of
its iterations: what holds for every sequence of iterations holds for every
sequence of ticks. -/
theorem receiveFromClients_eq_receiverRun (env : Env) (net : SendOracle) (clock : Clock)
    (inbound : Nat → Inbound) (i : Nat) (clients : List PlusIgtlClientInfo) (s : Server)
    (hsock : ∀ c ∈ clients, ∃ sock, c.ClientSocket = some sock) :
    receiveFromClients env net clock inbound i clients s
      = some (receiverRun env net clock (tickSteps inbound i clients) s) := by
  induction clients generalizing i s with
  | nil => rfl
  | cons client rest ih =>
    obtain ⟨sock, hs⟩ := hsock client (List.mem_cons_self _ _)
    simp only [receiveFromClients, tickSteps, hs, receiverRun]
    split
    · rfl
    · exact ih _ _ (fun c hc => hsock c (List.mem_cons_of_mem _ hc))

/-- C10: in any sequence of iterations of the receiver loop read off a
non-decreasing clock, let a STRING command of a client with non-empty uid `u`
be enqueued by the iteration `e1`, its header received at time `t`. Then a
later iteration `e2` with a STRING command of the same client and the same
uid, whose header is received at a time `t2 < t + 30` (`t ≤ t2` holds by
the clock), enqueues nothing, whatever the iterations `mid` between the two
received. The difference of line 530 is the `double` difference; all that is
used of the rounding is that it does not take an exact difference of at most
30 s above 30 s (`hround`). -/
theorem C10_no_duplicate_within_timeout (env : Env) (net : SendOracle) (clock : Clock)
    (hmono : Monotone clock) (hround : env.RoundsNotAbove CLEAR_PREVIOUS_COMMANDS_TIMEOUT_SEC)
    (s : Server) (pre mid : List ReceiverStep) (e1 e2 : ReceiverStep)
    (u : String) (hu : u ≠ "")
    (h1 : e1.inbound.isStringCommand) (h2 : e2.inbound.isStringCommand)
    (hsame : e2.client.ClientId = e1.client.ClientId)
    (hu1 : env.GetUidFromCommandDeviceName e1.inbound.message.commandDeviceName = u)
    (hu2 : env.GetUidFromCommandDeviceName e2.inbound.message.commandDeviceName = u) :
    let sA := (receiverRun env net clock pre s).1
    let sB := (receiverRun env net clock (pre ++ [e1]) s).1
    let sC := (receiverRun env net clock (pre ++ [e1] ++ mid) s).1
    let sD := (receiverRun env net clock (pre ++ [e1] ++ mid ++ [e2]) s).1
    sB.CommandQueue ≠ sA.CommandQueue →
    headerTime env clock e2.client sC
      < headerTime env clock e1.client sA + CLEAR_PREVIOUS_COMMANDS_TIMEOUT_SEC →
    headerTime env clock e1.client sA ≤ headerTime env clock e2.client sC ∧
    sD.CommandQueue = sC.CommandQueue := by
  intro sA sB sC sD henq hwin
  have hB := receiverRun_append env net clock pre [e1] s
  by_cases hA : (receiverRun env net clock pre s).2 = true
  · exfalso
    apply henq
    show (receiverRun env net clock (pre ++ [e1]) s).1.CommandQueue = _
    rw [hB, if_pos hA]
  · rw [if_neg hA] at hB
    have hsB : sB = (receiveFromClient env net clock e1.client e1.sock e1.inbound sA).1 := by
      show (receiverRun env net clock (pre ++ [e1]) s).1 = _
      rw [hB, receiverRun_single]
    have hflagB : (receiverRun env net clock (pre ++ [e1]) s).2 = false := by
      rw [hB]
      exact receiverRun_string_flag env net clock e1 _ h1
    rw [hsB] at henq
    have hinvB := accepted_establishes_inv env net clock e1.client e1.sock e1.inbound u sA h1
      hu1 hu henq
    rw [← hsB] at hinvB
    have hC := receiverRun_append env net clock (pre ++ [e1]) mid s
    rw [hflagB] at hC
    simp only [Bool.false_eq_true, if_false] at hC
    have hsC : sC = (receiverRun env net clock mid sB).1 := by
      show (receiverRun env net clock (pre ++ [e1] ++ mid) s).1 = _
      rw [hC]
    have hinvC : DedupeInv clock e1.client.ClientId u
        (clearPreviousCommands env clock e1.client sA).TimeReads sC := by
      rw [hsC]
      exact dedupeInv_run env net clock hmono hround _ u _ mid sB hinvB
    have hle : headerTime env clock e1.client sA ≤ headerTime env clock e2.client sC :=
      hmono (Nat.le_of_lt (Nat.lt_trans hinvC.1 (clearPreviousCommands_reads env clock e2.client sC)))
    refine ⟨hle, ?_⟩
    have hD := receiverRun_append env net clock (pre ++ [e1] ++ mid) [e2] s
    by_cases hCflag : (receiverRun env net clock (pre ++ [e1] ++ mid) s).2 = true
    · show (receiverRun env net clock (pre ++ [e1] ++ mid ++ [e2]) s).1.CommandQueue = _
      rw [hD, if_pos hCflag]
    · show (receiverRun env net clock (pre ++ [e1] ++ mid ++ [e2]) s).1.CommandQueue = _
      rw [hD, if_neg hCflag, receiverRun_single]
      rw [← hsame] at hinvC
      exact duplicate_dropped env net clock hmono hround e2.client e2.sock e2.inbound u _ sC h2
        hu2 hu hinvC hwin

theorem clearPreviousCommands_no_timeout (env : Env) (clock : Clock) (client : PlusIgtlClientInfo)
    (s : Server)
    (h : ¬ (env.RoundToDouble (clock s.TimeReads - s.LastCommandTimestamp client.ClientId)
          > CLEAR_PREVIOUS_COMMANDS_TIMEOUT_SEC
        ∧ s.PreviousCommands client.ClientId ≠ [])) :
    clearPreviousCommands env clock client s = { s with TimeReads := s.TimeReads + 1 } := by
  rcases clearPreviousCommands_cases env clock client s with ⟨heq, _⟩ | ⟨_, h1, h2⟩
  · exact heq
  · exact absurd ⟨h1, h2⟩ h

theorem exampleClock_monotone : Monotone exampleClock := by
  intro a b h
  simp only [exampleClock]
  exact_mod_cast h

/-- The example server after a first iteration in which client 1 delivered the
command `Cmd_42`: two clock readings were taken, the header arrived at 1 s,
the uid 42 is known and the command is queued. -/
theorem exampleStep_first :
    (receiveFromClient exampleEnv exampleNet exampleClock exampleStep.client exampleStep.sock
        exampleStep.inbound (mkServer [mkClient 1 (some 7)])).1
      = { mkServer [mkClient 1 (some 7)] with
          TimeReads := 2
          LastCommandTimestamp := Function.update (fun _ => 0) 1 (exampleClock 1)
          PreviousCommands := Function.update (fun _ => []) 1 ["42"]
          CommandQueue := [QueuedCommand.command 1 "<Command Name=\"Ping\" />" "Cmd" "42"] } := by
  have hA : clearPreviousCommands exampleEnv exampleClock exampleStep.client (mkServer [mkClient 1 (some 7)])
      = { mkServer [mkClient 1 (some 7)] with TimeReads := 1 } :=
    clearPreviousCommands_no_timeout _ _ _ _ (fun h => h.2 rfl)
  rw [receiveFromClient_string_afterHeader _ _ _ _ _ _ _ ⟨rfl, rfl, rfl⟩]
  have hH : afterHeader exampleEnv exampleClock exampleStep.client (mkServer [mkClient 1 (some 7)])
      = { mkServer [mkClient 1 (some 7)] with
          TimeReads := 2
          LastCommandTimestamp := Function.update (fun _ => 0) 1 (exampleClock 1) } := by
    unfold afterHeader headerTime
    rw [hA]
    rfl
  rw [hH]
  rw [receiveStringCommand_accepted _ _ _ _ rfl (by decide) (by
    show ¬ ("42" ∈ ([] : List String))
    simp)]
  rfl

/-- Witness of C10 (scenario S5 of the specification): client 1 sends the
command `Cmd_42` in two consecutive iterations, the headers arriving at 1 s
and 3 s; the first is queued, the second is not. -/
theorem C10_no_duplicate_within_timeout_witness :
    (receiverRun exampleEnv exampleNet exampleClock [exampleStep]
        (mkServer [mkClient 1 (some 7)])).1.CommandQueue
      = [QueuedCommand.command 1 "<Command Name=\"Ping\" />" "Cmd" "42"] ∧
    (receiverRun exampleEnv exampleNet exampleClock [exampleStep, exampleStep]
        (mkServer [mkClient 1 (some 7)])).1.CommandQueue
      = (receiverRun exampleEnv exampleNet exampleClock [exampleStep]
        (mkServer [mkClient 1 (some 7)])).1.CommandQueue := by
  have hB : (receiverRun exampleEnv exampleNet exampleClock [exampleStep]
      (mkServer [mkClient 1 (some 7)])).1
      = { mkServer [mkClient 1 (some 7)] with
          TimeReads := 2
          LastCommandTimestamp := Function.update (fun _ => 0) 1 (exampleClock 1)
          PreviousCommands := Function.update (fun _ => []) 1 ["42"]
          CommandQueue := [QueuedCommand.command 1 "<Command Name=\"Ping\" />" "Cmd" "42"] } := by
    rw [receiverRun_single, exampleStep_first]
  have hA : headerTime exampleEnv exampleClock exampleStep.client (mkServer [mkClient 1 (some 7)])
      = exampleClock 1 := by
    unfold headerTime
    rw [clearPreviousCommands_no_timeout _ _ _ _ (fun h => h.2 rfl)]
    rfl
  have hC : headerTime exampleEnv exampleClock exampleStep.client
      (receiverRun exampleEnv exampleNet exampleClock [exampleStep]
        (mkServer [mkClient 1 (some 7)])).1 = exampleClock 3 := by
    rw [hB]
    unfold headerTime
    rw [clearPreviousCommands_no_timeout _ _ _ _ (fun h => by
      have h1 : exampleClock 2 - Function.update (fun _ => (0 : ℚ)) (1 : Int) (exampleClock 1) 1
          > CLEAR_PREVIOUS_COMMANDS_TIMEOUT_SEC := h.1
      rw [Function.update_same] at h1
      norm_num [exampleClock, CLEAR_PREVIOUS_COMMANDS_TIMEOUT_SEC] at h1)]
  refine ⟨by rw [hB], ?_⟩
  exact (C10_no_duplicate_within_timeout exampleEnv exampleNet exampleClock exampleClock_monotone
    (exampleEnv_roundsNotAbove _) (mkServer [mkClient 1 (some 7)]) [] [] exampleStep exampleStep "42" (by decide)
    ⟨rfl, rfl, rfl⟩ ⟨rfl, rfl, rfl⟩ rfl rfl rfl
    (by
      show (receiverRun exampleEnv exampleNet exampleClock [exampleStep]
        (mkServer [mkClient 1 (some 7)])).1.CommandQueue ≠ []
      rw [hB]
      simp)
    (by
      show headerTime exampleEnv exampleClock exampleStep.client
          (receiverRun exampleEnv exampleNet exampleClock [exampleStep]
            (mkServer [mkClient 1 (some 7)])).1
        < headerTime exampleEnv exampleClock exampleStep.client (mkServer [mkClient 1 (some 7)])
          + CLEAR_PREVIOUS_COMMANDS_TIMEOUT_SEC
      rw [hA, hC]
      norm_num [exampleClock, CLEAR_PREVIOUS_COMMANDS_TIMEOUT_SEC])).2

theorem changedBySending_refl (s : Server) : ChangedBySending s s :=
  ⟨s.IgtlClients, s.Sent, s.TransformRepository, rfl⟩

theorem changedBySending_trans {s t u : Server} (h1 : ChangedBySending s t)
    (h2 : ChangedBySending t u) : ChangedBySending s u := by
  obtain ⟨c1, e1, r1, rfl⟩ := h1
  obtain ⟨c2, e2, r2, rfl⟩ := h2
  exact ⟨c2, e2, r2, rfl⟩

theorem changedBySending_socketSend (net : SendOracle) (s : Server) (sock : Socket)
    (m : IgtlMessage) (n : Nat) : ChangedBySending s (socketSend net s sock m n).2 :=
  ⟨s.IgtlClients, _, s.TransformRepository, rfl⟩

theorem retrySend_changed (net : SendOracle) (client : PlusIgtlClientInfo) (m : IgtlMessage)
    (length n : Nat) (r0 : Int) (s : Server) (r : Int) (s1 : Server)
    (h : retrySend net client m length n r0 s = some (r, s1)) : ChangedBySending s s1 := by
  induction n generalizing s r0 with
  | zero =>
    simp only [retrySend, Option.some.injEq, Prod.mk.injEq] at h
    rw [← h.2]
    exact changedBySending_refl s
  | succ n ih =>
    cases hs : client.ClientSocket with
    | none => simp [retrySend, hs] at h
    | some sock =>
      simp only [retrySend, hs] at h
      split at h
      · simp only [Option.some.injEq] at h
        have h2 := congrArg Prod.snd h
        simp only at h2
        rw [← h2]
        exact changedBySending_socketSend net s sock m length
      · exact changedBySending_trans (changedBySending_socketSend net s sock m length)
          (ih _ _ h)

theorem sendMessagesToClient_changed (net : SendOracle) (client : PlusIgtlClientInfo)
    (msgs : List (Option IgtlMessage)) (d : Bool) (s : Server) (d2 : Bool) (s2 : Server)
    (recs : List MessageRecord)
    (h : sendMessagesToClient net client msgs d s = some (d2, s2, recs)) :
    ChangedBySending s s2 := by
  induction msgs generalizing s d2 s2 recs with
  | nil =>
    simp only [sendMessagesToClient, Option.some.injEq, Prod.mk.injEq] at h
    rw [← h.2.1]
    exact changedBySending_refl s
  | cons x rest ih =>
    cases x with
    | none => exact ih s d2 s2 recs (by simpa [sendMessagesToClient] using h)
    | some m =>
      simp only [sendMessagesToClient] at h
      cases hr : retrySend net client m m.GetPackSize s.NumberOfRetryAttempts.toNat 0 s with
      | none => simp [hr] at h
      | some x =>
        obtain ⟨r, s1⟩ := x
        have h1 := retrySend_changed net client m _ _ 0 s r s1 hr
        simp only [hr] at h
        split at h
        · simp only [Option.some.injEq, Prod.mk.injEq] at h
          rw [← h.2.1]
          exact h1
        · cases hrec : sendMessagesToClient net client rest d s1 with
          | none => simp [hrec] at h
          | some y =>
            obtain ⟨d3, s3, recs3⟩ := y
            simp only [hrec, Option.some.injEq, Prod.mk.injEq] at h
            rw [← h.2.1]
            exact changedBySending_trans h1 (ih s1 d3 s3 recs3 hrec)

theorem sendFrameToClients_changed (env : Env) (net : SendOracle) (frame : TrackedFrame)
    (remaining before : List PlusIgtlClientInfo) (d : Bool) (s s2 : Server)
    (visits : List ClientVisit)
    (h : sendFrameToClients env net frame before remaining d s = some (s2, visits)) :
    ChangedBySending s s2 := by
  induction remaining generalizing before d s s2 visits with
  | nil =>
    simp only [sendFrameToClients, Option.some.injEq, Prod.mk.injEq] at h
    rw [← h.1]
    exact changedBySending_refl s
  | cons client rest ih =>
    simp only [sendFrameToClients] at h
    cases hm : sendMessagesToClient net client (packForClient env s frame client) d s with
    | none => simp [hm] at h
    | some x =>
      obtain ⟨d1, s1, recs⟩ := x
      have h1 := sendMessagesToClient_changed net client _ d s d1 s1 recs hm
      simp only [hm] at h
      split at h
      · cases hrec : sendFrameToClients env net frame before rest false
            { s1 with IgtlClients := before ++ rest } with
        | none => simp [hrec] at h
        | some y =>
          obtain ⟨s3, vs⟩ := y
          simp only [hrec, Option.some.injEq, Prod.mk.injEq] at h
          rw [← h.1]
          have h2 : ChangedBySending s1 { s1 with IgtlClients := before ++ rest } :=
            ⟨_, s1.Sent, s1.TransformRepository, rfl⟩
          exact changedBySending_trans h1 (changedBySending_trans h2 (ih _ _ _ _ _ hrec))
      · cases hrec : sendFrameToClients env net frame (before ++ [client]) rest d1 s1 with
        | none => simp [hrec] at h
        | some y =>
          obtain ⟨s3, vs⟩ := y
          simp only [hrec, Option.some.injEq, Prod.mk.injEq] at h
          rw [← h.1]
          exact changedBySending_trans h1 (ih _ _ _ _ _ hrec)

theorem afterSetTransforms_changed (env : Env) (frame : TrackedFrame) (s : Server) :
    ChangedBySending s (afterSetTransforms env frame s) := by
  unfold afterSetTransforms
  split
  · exact changedBySending_refl s
  · exact ⟨s.IgtlClients, s.Sent, _, rfl⟩

/-- What `SendTrackedFrame` leaves when it returns: the frame it was given,
the status of the repository update, and a server changed only by sending. -/
theorem SendTrackedFrame_returns (env : Env) (net : SendOracle) (frame : TrackedFrame)
    (s : Server) (r : SendTrackedFrameResult) (h : SendTrackedFrame env net frame s = some r) :
    r.trackedFrame = frame ∧ r.status = setTransformsStatus env frame s ∧
      ChangedBySending s r.server := by
  rw [SendTrackedFrame_eq] at h
  cases hloop : sendFrameToClients env net (universalFrame env frame) []
      (afterSetTransforms env frame s).IgtlClients false (afterSetTransforms env frame s) with
  | none => simp [hloop] at h
  | some x =>
    obtain ⟨s2, visits⟩ := x
    simp only [hloop, Option.map_some', Option.some.injEq] at h
    rw [← h]
    exact ⟨rfl, rfl, changedBySending_trans (afterSetTransforms_changed env frame s)
      (sendFrameToClients_changed env net _ _ _ _ _ _ _ hloop)⟩


/-- On a client list in which every client has a socket `SendTrackedFrame`
returns; the clients afterwards are among the clients before, and each client
was offered what the factory packed from the frame with the universal
timestamp. -/
theorem SendTrackedFrame_total (env : Env) (net : SendOracle) (frame : TrackedFrame)
    (s : Server) (hsock : ∀ c ∈ s.IgtlClients, ∃ sock, c.ClientSocket = some sock) :
    ∃ r, SendTrackedFrame env net frame s = some r ∧
      r.server.IgtlClients.Sublist s.IgtlClients ∧
      ∀ v ∈ r.visits, v.offered = packForClient env (afterSetTransforms env frame s)
        (universalFrame env frame) v.client := by
  have hcl := afterSetTransforms_clients env frame s
  obtain ⟨s2, visits, evs, g1, _, g3, g4, _, g6⟩ := sendFrameToClients_spec env net
    (universalFrame env frame) (afterSetTransforms env frame s).IgtlClients
    (by rw [hcl]; exact hsock) [] (afterSetTransforms env frame s) rfl
  rw [hcl] at g3
  simp only [List.nil_append] at g4
  have heq := SendTrackedFrame_eq env net frame s
  rw [g1, Option.map_some'] at heq
  refine ⟨_, heq, ?_, fun v hv => (g6 v hv).1⟩
  show s2.IgtlClients.Sublist s.IgtlClients
  rw [g4, ← g3]
  exact (List.filter_sublist visits).map _

/-- C12: whenever `SendTrackedFrame` returns, whatever the repository, the
factory and the network did, the frame the caller holds afterwards is the
frame it passed, so its timestamp is the one before the call; on a client list
in which every client has a socket the function does return, and what was
packed for each client was packed from the frame carrying the universal
time computed from that timestamp. -/
theorem C12_timestamp_restored (env : Env) (net : SendOracle) (frame : TrackedFrame)
    (s : Server) (hsock : ∀ c ∈ s.IgtlClients, ∃ sock, c.ClientSocket = some sock) :
    (∀ r, SendTrackedFrame env net frame s = some r →
      r.trackedFrame.Timestamp = frame.Timestamp ∧ r.trackedFrame = frame) ∧
    ∃ r, SendTrackedFrame env net frame s = some r ∧
      r.trackedFrame.Timestamp = frame.Timestamp ∧
      (universalFrame env frame).Timestamp
        = env.GetUniversalTimeFromSystemTime frame.Timestamp ∧
      ∀ v ∈ r.visits, v.offered = packForClient env (afterSetTransforms env frame s)
        (universalFrame env frame) v.client := by
  have hall : ∀ r, SendTrackedFrame env net frame s = some r → r.trackedFrame = frame :=
    fun r hr => (SendTrackedFrame_returns env net frame s r hr).1
  obtain ⟨r, hr, _, hv⟩ := SendTrackedFrame_total env net frame s hsock
  exact ⟨fun r hr => ⟨by rw [hall r hr], hall r hr⟩, r, hr, by rw [hall r hr], rfl, hv⟩

/-- Witness of C12: three clients, the second of which is evicted; the frame
of timestamp 1000 s comes back with timestamp 1000 s. -/
theorem C12_timestamp_restored_witness :
    (∀ c ∈ (mkServer [mkClient 1 (some 7), mkClient 2 (some 13),
        mkClient 3 (some 9)]).IgtlClients, ∃ sock, c.ClientSocket = some sock) ∧
    ∃ r, SendTrackedFrame exampleEnv exampleNet ⟨1000, 4⟩
        (mkServer [mkClient 1 (some 7), mkClient 2 (some 13), mkClient 3 (some 9)]) = some r ∧
      r.trackedFrame.Timestamp = 1000 := by
  have hsock : ∀ c ∈ (mkServer [mkClient 1 (some 7), mkClient 2 (some 13),
      mkClient 3 (some 9)]).IgtlClients, ∃ sock, c.ClientSocket = some sock := by
    simp [mkServer, mkClient]
  obtain ⟨_, r, hr, ht, _⟩ := C12_timestamp_restored exampleEnv exampleNet ⟨1000, 4⟩
    (mkServer [mkClient 1 (some 7), mkClient 2 (some 13), mkClient 3 (some 9)]) hsock
  exact ⟨hsock, r, hr, ht⟩

/-- C14: a sender tick that starts with an empty client list returns the
server with `LastSentTrackedFrameTimestamp` set to 0 and no other member
changed: the command responses are not popped, the channel is not asked
anything, `KeepAlive` is not called, nothing is added to the history of
sends, the clock is not read, and the members the batch size is computed from
are as before. -/
theorem C14_empty_client_tick (env : Env) (net : SendOracle) (clock : Clock)
    (inp : SenderTickInput) (s : Server) (hempty : s.IgtlClients = []) :
    DataSenderTick env net clock inp s
        = (⟨false, none, false⟩, some { s with LastSentTrackedFrameTimestamp := 0 }) ∧
    ∃ t, (DataSenderTick env net clock inp s).2 = some t ∧
      t.LastSentTrackedFrameTimestamp = 0 ∧
      (DataSenderTick env net clock inp s).1.drained = false ∧
      (DataSenderTick env net clock inp s).1.acquire = none ∧
      (DataSenderTick env net clock inp s).1.keepAliveCalled = false ∧
      t.Sent = s.Sent ∧ t.TimeReads = s.TimeReads ∧ t.IgtlClients = s.IgtlClients ∧
      t.LastProcessingTimePerFrameMs = s.LastProcessingTimePerFrameMs ∧
      t.MaxTimeSpentWithProcessingMs = s.MaxTimeSpentWithProcessingMs ∧
      t.MaxNumberOfIgtlMessagesToSend = s.MaxNumberOfIgtlMessagesToSend ∧
      t.elapsedTimeSinceLastPacketSentSec = s.elapsedTimeSinceLastPacketSentSec ∧
      t.CommandQueue = s.CommandQueue := by
  have h : DataSenderTick env net clock inp s
      = (⟨false, none, false⟩, some { s with LastSentTrackedFrameTimestamp := 0 }) := by
    simp [DataSenderTick, hempty]
  refine ⟨h, { s with LastSentTrackedFrameTimestamp := 0 }, ?_⟩
  rw [h]
  exact ⟨rfl, rfl, rfl, rfl, rfl, rfl, rfl, rfl, rfl, rfl, rfl, rfl, rfl⟩

/-- Witness of C14: a server without clients whose last sent timestamp is 12 s. -/
theorem C14_empty_client_tick_witness :
    ({ mkServer [] with LastSentTrackedFrameTimestamp := 12 } : Server).IgtlClients = [] ∧
    (DataSenderTick exampleEnv exampleNet exampleClock ⟨[], exampleChannel⟩
        { mkServer [] with LastSentTrackedFrameTimestamp := 12 }).2.map
      (fun t => t.LastSentTrackedFrameTimestamp) = some 0 := by
  have h := (C14_empty_client_tick exampleEnv exampleNet exampleClock ⟨[], exampleChannel⟩
    { mkServer [] with LastSentTrackedFrameTimestamp := 12 } rfl).1
  exact ⟨rfl, by rw [h]; rfl⟩


theorem senderMembersKept_refl (s : Server) : SenderMembersKept s s :=
  ⟨rfl, rfl, rfl, rfl, rfl, rfl, rfl⟩

theorem senderMembersKept_trans {s t u : Server} (h1 : SenderMembersKept s t)
    (h2 : SenderMembersKept t u) : SenderMembersKept s u := by
  obtain ⟨a1, a2, a3, a4, a5, a6, a7⟩ := h1
  obtain ⟨b1, b2, b3, b4, b5, b6, b7⟩ := h2
  exact ⟨b1.trans a1, b2.trans a2, b3.trans a3, b4.trans a4, b5.trans a5, b6.trans a6,
    b7.trans a7⟩

theorem changedBySending_kept {s t : Server} (h : ChangedBySending s t) :
    SenderMembersKept s t ∧
      t.elapsedTimeSinceLastPacketSentSec = s.elapsedTimeSinceLastPacketSentSec := by
  obtain ⟨c, e, r, rfl⟩ := h
  exact ⟨⟨rfl, rfl, rfl, rfl, rfl, rfl, rfl⟩, rfl⟩

theorem changedBySending_withSent (s : Server) (evs : List SendEvent) :
    ChangedBySending s (s.withSent evs) :=
  ⟨s.IgtlClients, _, s.TransformRepository, rfl⟩

/-- The client loop of `KeepAlive` on clients that all have a socket: it
returns, only sending changed the state, and no client was added. -/
theorem keepAliveClients_total (net : SendOracle) (remaining : List PlusIgtlClientInfo)
    (hsock : ∀ c ∈ remaining, ∃ sock, c.ClientSocket = some sock)
    (before : List PlusIgtlClientInfo) (s : Server)
    (hinv : s.IgtlClients = before ++ remaining) :
    ∃ s2 recs, keepAliveClients net before remaining s = some (s2, recs) ∧
      ChangedBySending s s2 ∧ s2.IgtlClients.Sublist s.IgtlClients := by
  induction remaining generalizing before s with
  | nil =>
    exact ⟨s, [], by simp [keepAliveClients], changedBySending_refl s, List.Sublist.refl _⟩
  | cons client rest ih =>
    obtain ⟨sock, hs⟩ := hsock client (List.mem_cons_self _ _)
    have hrest : ∀ c ∈ rest, ∃ sock, c.ClientSocket = some sock :=
      fun c hc => hsock c (List.mem_cons_of_mem _ hc)
    obtain ⟨r, evs, hr, _⟩ := retrySend_exists net client sock statusOkMessage
      statusOkMessage.GetPackSize hs s.NumberOfRetryAttempts.toNat s
    by_cases hr0 : r = 0
    · obtain ⟨s2, recs, g1, g2, g3⟩ := ih hrest before
        { s.withSent evs with IgtlClients := before ++ rest } rfl
      refine ⟨s2, (client, r) :: recs, ?_, ?_, ?_⟩
      · simp only [keepAliveClients, hr, hr0, if_true, g1]
      · exact changedBySending_trans ⟨before ++ rest, _, s.TransformRepository, rfl⟩ g2
      · rw [hinv]
        exact g3.trans (List.Sublist.append_left (List.sublist_cons_self _ _) _)
    · obtain ⟨s2, recs, g1, g2, g3⟩ := ih hrest (before ++ [client]) (s.withSent evs)
        (by simp [Server.withSent, hinv])
      refine ⟨s2, (client, r) :: recs, ?_, ?_, g3⟩
      · simp only [keepAliveClients, hr, hr0, if_false, Bool.false_eq_true, g1]
      · exact changedBySending_trans (changedBySending_withSent s evs) g2

theorem KeepAlive_total (net : SendOracle) (s : Server)
    (hsock : ∀ c ∈ s.IgtlClients, ∃ sock, c.ClientSocket = some sock) :
    ∃ s2 recs, KeepAlive net s = some (PlusStatus.PLUS_SUCCESS, s2, recs) ∧
      ChangedBySending s s2 ∧ s2.IgtlClients.Sublist s.IgtlClients := by
  obtain ⟨s2, recs, g1, g2, g3⟩ := keepAliveClients_total net s.IgtlClients hsock [] s rfl
  exact ⟨s2, recs, by simp [KeepAlive, g1], g2, g3⟩

/-- The frame loop on a client list in which every client has a socket: it
returns, no client was added, the members of the sender loop are kept, and
the accumulator is 0 when at least one frame was sent. -/
theorem sendTrackedFrames_total (env : Env) (net : SendOracle) (frames : List TrackedFrame)
    (s : Server) (hsock : ∀ c ∈ s.IgtlClients, ∃ sock, c.ClientSocket = some sock) :
    ∃ t, sendTrackedFrames env net frames s = some t ∧
      t.IgtlClients.Sublist s.IgtlClients ∧ SenderMembersKept s t ∧
      t.elapsedTimeSinceLastPacketSentSec
        = if frames = [] then s.elapsedTimeSinceLastPacketSentSec else 0 := by
  induction frames generalizing s with
  | nil => exact ⟨s, rfl, List.Sublist.refl _, senderMembersKept_refl s, by simp⟩
  | cons frame rest ih =>
    obtain ⟨r, hr, hsub, _⟩ := SendTrackedFrame_total env net frame s hsock
    have hch := (changedBySending_kept (SendTrackedFrame_returns env net frame s r hr).2.2).1
    have hsock2 : ∀ c ∈ ({ r.server with elapsedTimeSinceLastPacketSentSec := 0 }
        : Server).IgtlClients, ∃ sock, c.ClientSocket = some sock :=
      fun c hc => hsock c (hsub.subset hc)
    obtain ⟨t, g1, g2, g3, g4⟩ := ih { r.server with elapsedTimeSinceLastPacketSentSec := 0 }
      hsock2
    refine ⟨t, by simp only [sendTrackedFrames, hr, g1], g2.trans hsub,
      senderMembersKept_trans hch g3, ?_⟩
    rw [g4]
    simp


/-- The acquisition step changes at most the last sent timestamp and the
processing time per frame. -/
theorem acquire_shape (channel : ChannelView) (s : Server) :
    (acquireTrackedFrames channel s).1
      = { s with
          LastSentTrackedFrameTimestamp :=
            (acquireTrackedFrames channel s).1.LastSentTrackedFrameTimestamp,
          LastProcessingTimePerFrameMs :=
            (acquireTrackedFrames channel s).1.LastProcessingTimePerFrameMs } := by
  unfold acquireTrackedFrames
  simp only
  split_ifs <;> rfl

/-- The last sent timestamp and the frame list after the acquisition step:
what `GetTrackedFrameList` left and returned when it was called, otherwise
the timestamp as before and no frame. -/
theorem acquire_result (channel : ChannelView) (s : Server) :
    ((acquireTrackedFrames channel s).1.LastSentTrackedFrameTimestamp,
      (acquireTrackedFrames channel s).2.2)
      = match (acquireTrackedFrames channel s).2.1.channelQuery with
        | none => (s.LastSentTrackedFrameTimestamp, [])
        | some q => ((channel.GetTrackedFrameList q.1 q.2).2.1,
            (channel.GetTrackedFrameList q.1 q.2).2.2) := by
  by_cases hL : s.LastProcessingTimePerFrameMs < 1 <;>
  by_cases hB : s.BroadcastChannel = true <;>
  by_cases hD : channel.noDataAvailable = true <;>
  by_cases hO : channel.GetOldestTimestamp.1 = PlusStatus.PLUS_SUCCESS <;>
  by_cases hT : s.LastSentTrackedFrameTimestamp < channel.GetOldestTimestamp.2 <;>
  simp [acquireTrackedFrames, hL, hB, hO, hT, hD]

theorem tickEpilogue_nil (env : Env) (net : SendOracle) (clock : Clock) (start : ℚ)
    (s : Server) :
    tickEpilogue env net clock start [] s
      = if env.RoundToDouble (1000 * env.RoundToDouble (s.elapsedTimeSinceLastPacketSentSec
          + env.RoundToDouble (clock s.TimeReads - start))) > 250 then
          (true, (KeepAlive net { s with
              TimeReads := s.TimeReads + 1,
              elapsedTimeSinceLastPacketSentSec :=
                env.RoundToDouble (s.elapsedTimeSinceLastPacketSentSec
                  + env.RoundToDouble (clock s.TimeReads - start)) }).map
            (fun x => { x.2.1 with elapsedTimeSinceLastPacketSentSec := 0 }))
        else (false, some { s with
              TimeReads := s.TimeReads + 1,
              elapsedTimeSinceLastPacketSentSec :=
                env.RoundToDouble (s.elapsedTimeSinceLastPacketSentSec
                  + env.RoundToDouble (clock s.TimeReads - start)) }) := by
  have h250 : ((CLIENT_SOCKET_TIMEOUT_MSEC : Int) : ℚ) / 2 = 250 := by
    norm_num [CLIENT_SOCKET_TIMEOUT_MSEC]
  simp only [tickEpilogue, List.length_nil, if_true, GetSystemTime, h250]
  split
  · cases hk : KeepAlive net { s with
        TimeReads := s.TimeReads + 1,
        elapsedTimeSinceLastPacketSentSec :=
          env.RoundToDouble (s.elapsedTimeSinceLastPacketSentSec
                  + env.RoundToDouble (clock s.TimeReads - start)) } with
    | none => rfl
    | some x => rfl
  · rfl

theorem tickEpilogue_cons (env : Env) (net : SendOracle) (clock : Clock) (start : ℚ)
    (frame : TrackedFrame) (rest : List TrackedFrame) (s : Server) :
    tickEpilogue env net clock start (frame :: rest) s
      = (false, (sendTrackedFrames env net (frame :: rest) s).map (fun t =>
          { t with
            TimeReads := t.TimeReads + 1,
            LastProcessingTimePerFrameMs :=
              truncToInt (env.RoundToDouble
                (env.RoundToDouble (env.RoundToDouble (clock t.TimeReads - start) * 1000)
                  / ((frame :: rest).length : Nat))) })) := by
  simp only [tickEpilogue, List.length_cons, Nat.succ_ne_zero, if_false, GetSystemTime]
  cases hk : sendTrackedFrames env net (frame :: rest) s with
  | none => rfl
  | some t => simp


theorem tick_eq (env : Env) (net : SendOracle) (clock : Clock) (inp : SenderTickInput)
    (s : Server) (h : s.IgtlClients ≠ []) :
    DataSenderTick env net clock inp s
      = (⟨true, some (acquireTrackedFrames inp.channel (tickPrologue env net clock inp s).2).2.1,
          (tickEpilogue env net clock (tickPrologue env net clock inp s).1
            (tickFrames env net clock inp s)
            (acquireTrackedFrames inp.channel (tickPrologue env net clock inp s).2).1).1⟩,
        (tickEpilogue env net clock (tickPrologue env net clock inp s).1
            (tickFrames env net clock inp s)
            (acquireTrackedFrames inp.channel (tickPrologue env net clock inp s).2).1).2) := by
  have hne : s.IgtlClients.isEmpty = false := by
    cases hcs : s.IgtlClients with
    | nil => exact absurd hcs h
    | cons c cs => rfl
  simp [DataSenderTick, hne, tickFrames]

/-- A sender tick on a non-empty client list in which every client has a
socket: it returns; `KeepAlive` is called exactly when no frame came and the
accumulator with the duration of the tick added exceeds 250 ms; the
accumulator afterwards; the last sent timestamp is the one the acquisition
step left; no client was added and the settings of the loop are kept. -/
theorem tick_spec (env : Env) (net : SendOracle) (clock : Clock) (inp : SenderTickInput)
    (s : Server) (hne : s.IgtlClients ≠ [])
    (hsock : ∀ c ∈ s.IgtlClients, ∃ sock, c.ClientSocket = some sock) :
    ∃ t, (DataSenderTick env net clock inp s).2 = some t ∧
      ((DataSenderTick env net clock inp s).1.keepAliveCalled = true ↔
        (tickFrames env net clock inp s = [] ∧
          env.RoundToDouble (1000 * tickAccumulator env net clock inp s) > 250)) ∧
      t.elapsedTimeSinceLastPacketSentSec
        = (if tickFrames env net clock inp s = [] then
            if env.RoundToDouble (1000 * tickAccumulator env net clock inp s) > 250 then 0
            else tickAccumulator env net clock inp s
          else 0) ∧
      t.LastSentTrackedFrameTimestamp
        = (acquireTrackedFrames inp.channel
            (tickPrologue env net clock inp s).2).1.LastSentTrackedFrameTimestamp ∧
      t.IgtlClients.Sublist s.IgtlClients ∧
      t.NumberOfRetryAttempts = s.NumberOfRetryAttempts ∧
      t.BroadcastChannel = s.BroadcastChannel := by
  obtain ⟨p1, _, p3, _, _, _, p7, p8⟩ := sameMembers_tickPrologue env net clock inp s
  have hshape := acquire_shape inp.channel (tickPrologue env net clock inp s).2
  have hA1 : (acquireTrackedFrames inp.channel (tickPrologue env net clock inp s).2).1.IgtlClients
      = s.IgtlClients := by rw [hshape]; exact p1
  have hA2 : (acquireTrackedFrames inp.channel
      (tickPrologue env net clock inp s).2).1.elapsedTimeSinceLastPacketSentSec
      = s.elapsedTimeSinceLastPacketSentSec := by rw [hshape]; exact p8
  have hA3 : (acquireTrackedFrames inp.channel
      (tickPrologue env net clock inp s).2).1.NumberOfRetryAttempts
      = s.NumberOfRetryAttempts := by rw [hshape]; exact p3
  have hA4 : (acquireTrackedFrames inp.channel
      (tickPrologue env net clock inp s).2).1.BroadcastChannel
      = s.BroadcastChannel := by rw [hshape]; exact p7
  have hd : tickDuration env net clock inp s
      = env.RoundToDouble
        (clock (acquireTrackedFrames inp.channel (tickPrologue env net clock inp s).2).1.TimeReads
          - (tickPrologue env net clock inp s).1) := rfl
  rw [tick_eq env net clock inp s hne]
  generalize (acquireTrackedFrames inp.channel (tickPrologue env net clock inp s).2).1 = A
    at hA1 hA2 hA3 hA4 hd ⊢
  generalize (tickPrologue env net clock inp s).1 = start at hd ⊢
  cases hf : tickFrames env net clock inp s with
  | nil =>
    rw [tickEpilogue_nil, hA2, ← hd]
    have hacc : env.RoundToDouble (s.elapsedTimeSinceLastPacketSentSec
        + tickDuration env net clock inp s) = tickAccumulator env net clock inp s := rfl
    rw [hacc]
    by_cases hk : env.RoundToDouble (1000 * tickAccumulator env net clock inp s) > 250
    · obtain ⟨s2, recs, k1, k2, k3⟩ := KeepAlive_total net
        { A with TimeReads := A.TimeReads + 1,
                 elapsedTimeSinceLastPacketSentSec := tickAccumulator env net clock inp s }
        (by rw [← hA1] at hsock; exact hsock)
      obtain ⟨⟨q1, q2, _, _, _, q6, _⟩, _⟩ := changedBySending_kept k2
      simp only [hk, if_true, k1, Option.map_some']
      refine ⟨_, rfl, by simp, rfl, q1, ?_, q2.trans hA3, q6.trans hA4⟩
      rw [← hA1]
      exact k3
    · simp only [hk, if_false]
      refine ⟨_, rfl, by simp, rfl, rfl, ?_, hA3, hA4⟩
      rw [← hA1]
  | cons frame rest =>
    rw [tickEpilogue_cons]
    obtain ⟨t, g1, g2, ⟨q1, q2, _, _, _, q6, _⟩, g4⟩ := sendTrackedFrames_total env net
      (frame :: rest) A (by rw [← hA1] at hsock; exact hsock)
    rw [g1]
    simp only [Option.map_some']
    refine ⟨_, rfl, by simp, ?_, q1, ?_, q2.trans hA3, q6.trans hA4⟩
    · simpa using g4
    · rw [← hA1]
      exact g2


theorem tickPrologue_no_replies (env : Env) (net : SendOracle) (clock : Clock)
    (inp : SenderTickInput) (s : Server) (h : inp.replies = []) :
    (tickPrologue env net clock inp s).1 = clock (s.TimeReads + 1) ∧
      (tickPrologue env net clock inp s).2.TimeReads = s.TimeReads + 2 ∧
      (tickPrologue env net clock inp s).2.Sent = s.Sent := by
  unfold tickPrologue
  simp only [h, sendCommandResponses, GetSystemTime]
  split <;> exact ⟨rfl, rfl, rfl⟩

theorem tickDuration_no_replies (env : Env) (net : SendOracle) (clock : Clock)
    (inp : SenderTickInput) (s : Server) (h : inp.replies = []) :
    tickDuration env net clock inp s
      = env.RoundToDouble (clock (s.TimeReads + 2) - clock (s.TimeReads + 1)) := by
  obtain ⟨h1, h2, _⟩ := tickPrologue_no_replies env net clock inp s h
  have hshape := acquire_shape inp.channel (tickPrologue env net clock inp s).2
  have hT : (acquireTrackedFrames inp.channel (tickPrologue env net clock inp s).2).1.TimeReads
      = s.TimeReads + 2 := by rw [hshape]; exact h2
  show env.RoundToDouble
    (clock (acquireTrackedFrames inp.channel (tickPrologue env net clock inp s).2).1.TimeReads
      - (tickPrologue env net clock inp s).1) = _
  rw [hT, h1]

theorem tickFrames_of_no_frames (env : Env) (net : SendOracle) (clock : Clock)
    (inp : SenderTickInput) (s : Server)
    (h : ∀ ts n, (inp.channel.GetTrackedFrameList ts n).2.2 = []) :
    tickFrames env net clock inp s = [] := by
  have hr := congrArg Prod.snd
    (acquire_result inp.channel (tickPrologue env net clock inp s).2)
  unfold tickFrames
  rw [hr]
  split
  · rfl
  · exact h _ _

theorem le_last_of_pairwise (frames : List TrackedFrame) (last : TrackedFrame)
    (hp : frames.Pairwise (fun a b => a.Timestamp < b.Timestamp))
    (hl : frames.getLast? = some last) : ∀ f ∈ frames, f.Timestamp ≤ last.Timestamp := by
  obtain ⟨init, rfl⟩ := List.getLast?_eq_some_iff.mp hl
  intro f hf
  rcases List.mem_append.mp hf with h | h
  · exact le_of_lt ((List.pairwise_append.mp hp).2.2 f h last (List.mem_singleton_self _))
  · rw [List.mem_singleton.mp h]

/-- The acquisition step against a channel that keeps the contract: the last
sent timestamp does not decrease; the frames come in strictly increasing
order of timestamp, all after the old last sent timestamp and none after the
new one; and when a frame came, the new value is the timestamp of the last
frame. -/
theorem acquire_lastSent (channel : ChannelView) (hc : channel.AnswersInOrder) (s : Server) :
    s.LastSentTrackedFrameTimestamp
      ≤ (acquireTrackedFrames channel s).1.LastSentTrackedFrameTimestamp ∧
    (acquireTrackedFrames channel s).2.2.Pairwise (fun a b => a.Timestamp < b.Timestamp) ∧
    (∀ f ∈ (acquireTrackedFrames channel s).2.2,
      s.LastSentTrackedFrameTimestamp < f.Timestamp ∧
      f.Timestamp ≤ (acquireTrackedFrames channel s).1.LastSentTrackedFrameTimestamp) ∧
    (∀ last, (acquireTrackedFrames channel s).2.2.getLast? = some last →
      (acquireTrackedFrames channel s).1.LastSentTrackedFrameTimestamp = last.Timestamp) := by
  have hres := acquire_result channel s
  have hq := acquire_channelQuery channel s
  have h1 := congrArg Prod.fst hres
  have h2 := congrArg Prod.snd hres
  simp only at h1 h2
  by_cases hcond : s.BroadcastChannel = true ∧ channel.noDataAvailable = false
      ∧ channel.GetOldestTimestamp.1 = PlusStatus.PLUS_SUCCESS
  · rw [if_pos hcond] at hq
    rw [hq] at h1 h2
    simp only at h1 h2
    rw [h1, h2]
    have hts : s.LastSentTrackedFrameTimestamp
        ≤ (if s.LastSentTrackedFrameTimestamp < channel.GetOldestTimestamp.2 then
            channel.GetOldestTimestamp.2 + SAMPLING_SKIPPING_MARGIN_SEC
          else s.LastSentTrackedFrameTimestamp) := by
      split
      · have : (0 : ℚ) < SAMPLING_SKIPPING_MARGIN_SEC := by norm_num [SAMPLING_SKIPPING_MARGIN_SEC]
        linarith
      · exact le_refl _
    generalize (if s.LastSentTrackedFrameTimestamp < channel.GetOldestTimestamp.2 then
            channel.GetOldestTimestamp.2 + SAMPLING_SKIPPING_MARGIN_SEC
          else s.LastSentTrackedFrameTimestamp) = ts at hts ⊢
    obtain ⟨c1, c2, c3⟩ := hc ts (batchSize s.MaxTimeSpentWithProcessingMs
      s.LastProcessingTimePerFrameMs s.MaxNumberOfIgtlMessagesToSend)
    generalize (channel.GetTrackedFrameList ts (batchSize s.MaxTimeSpentWithProcessingMs
      s.LastProcessingTimePerFrameMs s.MaxNumberOfIgtlMessagesToSend)) = got at c1 c2 c3 ⊢
    cases hlast : got.2.2.getLast? with
    | none =>
      have hnil : got.2.2 = [] := List.getLast?_eq_none_iff.mp hlast
      rw [hlast] at c3
      simp only [Option.map_none', Option.getD_none] at c3
      rw [c3, hnil]
      exact ⟨hts, List.Pairwise.nil, by simp, by simp⟩
    | some last =>
      rw [hlast] at c3
      simp only [Option.map_some', Option.getD_some] at c3
      have hmem : last ∈ got.2.2 := List.mem_of_mem_getLast? hlast
      refine ⟨?_, c1, fun f hf => ⟨lt_of_le_of_lt hts (c2 f hf), ?_⟩, ?_⟩
      · rw [c3]
        exact le_of_lt (lt_of_le_of_lt hts (c2 last hmem))
      · rw [c3]
        exact le_last_of_pairwise got.2.2 last c1 hlast f hf
      · intro l hl
        rw [c3, Option.some.inj hl]
  · rw [if_neg hcond] at hq
    rw [hq] at h1 h2
    simp only at h1 h2
    rw [h1, h2]
    exact ⟨le_refl _, List.Pairwise.nil, by simp, by simp⟩


/-- A tick with clients, all with a socket, against a channel that keeps the
contract: it returns, no client was added, and the last sent timestamp and
the frames are as `acquire_lastSent` says. -/
theorem tick_lastSent (env : Env) (net : SendOracle) (clock : Clock) (inp : SenderTickInput)
    (s : Server) (hne : s.IgtlClients ≠ [])
    (hsock : ∀ c ∈ s.IgtlClients, ∃ sock, c.ClientSocket = some sock)
    (hc : inp.channel.AnswersInOrder) :
    ∃ t, (DataSenderTick env net clock inp s).2 = some t ∧
      t.IgtlClients.Sublist s.IgtlClients ∧
      s.LastSentTrackedFrameTimestamp ≤ t.LastSentTrackedFrameTimestamp ∧
      (tickFrames env net clock inp s).Pairwise (fun a b => a.Timestamp < b.Timestamp) ∧
      (∀ f ∈ tickFrames env net clock inp s,
        s.LastSentTrackedFrameTimestamp < f.Timestamp ∧
        f.Timestamp ≤ t.LastSentTrackedFrameTimestamp) ∧
      (∀ last, (tickFrames env net clock inp s).getLast? = some last →
        t.LastSentTrackedFrameTimestamp = last.Timestamp) := by
  obtain ⟨t, h1, _, _, h4, h5, _, _⟩ := tick_spec env net clock inp s hne hsock
  obtain ⟨_, p2, _⟩ := sameMembers_tickPrologue env net clock inp s
  obtain ⟨a1, a2, a3, a4⟩ := acquire_lastSent inp.channel hc (tickPrologue env net clock inp s).2
  rw [p2, ← h4] at a1 a3
  rw [← h4] at a4
  exact ⟨t, h1, h5, a1, a2, a3, a4⟩


theorem senderRun_cons (env : Env) (net : SendOracle) (clock : Clock) (step : SenderStep)
    (rest : List SenderStep) (s after final : Server) (traces : List TickTrace)
    (htick : (DataSenderTick env net clock step.input
      { s with IgtlClients := s.IgtlClients ++ step.joined }).2 = some after)
    (hrest : senderRun env net clock rest after = some (traces, final)) :
    senderRun env net clock (step :: rest) s
      = some (⟨{ s with IgtlClients := s.IgtlClients ++ step.joined }, step.input,
          (DataSenderTick env net clock step.input
            { s with IgtlClients := s.IgtlClients ++ step.joined }).1,
          if (s.IgtlClients ++ step.joined).isEmpty then []
          else tickFrames env net clock step.input
            { s with IgtlClients := s.IgtlClients ++ step.joined },
          tickDuration env net clock step.input
            { s with IgtlClients := s.IgtlClients ++ step.joined }, after⟩ :: traces, final) := by
  simp only [senderRun, htick, hrest]

/-- C13: in a run of sender ticks in which every client has a socket and the
channel keeps its contract, every tick returns; after a tick in which the
frames f1..fn, n at least 1, came from the channel (and were sent),
`LastSentTrackedFrameTimestamp` is the timestamp of fn; and while every tick
starts with a client connected, the value never decreases from one tick to
the next and the frames fetched in the run have strictly increasing
timestamps, all after the value at the start, so none is fetched twice. -/
theorem C13_last_sent_timestamp (env : Env) (net : SendOracle) (clock : Clock)
    (steps : List SenderStep) (s : Server)
    (hsock : ∀ c ∈ s.IgtlClients, ∃ sock, c.ClientSocket = some sock)
    (hjoin : ∀ step ∈ steps, ∀ c ∈ step.joined, ∃ sock, c.ClientSocket = some sock)
    (hchan : ∀ step ∈ steps, step.input.channel.AnswersInOrder) :
    ∃ traces t, senderRun env net clock steps s = some (traces, t) ∧
      traces.length = steps.length ∧
      (∀ tr ∈ traces, ∀ last, tr.frames.getLast? = some last →
        tr.after.LastSentTrackedFrameTimestamp = last.Timestamp) ∧
      ((∀ tr ∈ traces, tr.before.IgtlClients ≠ []) →
        List.Chain (fun a b => a ≤ b) s.LastSentTrackedFrameTimestamp
          (traces.map (fun tr => tr.after.LastSentTrackedFrameTimestamp)) ∧
        (traces.flatMap (fun tr => tr.frames)).Pairwise
          (fun a b => a.Timestamp < b.Timestamp) ∧
        ∀ f ∈ traces.flatMap (fun tr => tr.frames),
          s.LastSentTrackedFrameTimestamp < f.Timestamp) := by
  induction steps generalizing s with
  | nil =>
    exact ⟨[], s, rfl, rfl, by simp, fun _ => ⟨List.Chain.nil, by simp, by simp⟩⟩
  | cons step rest ih =>
    have hjoin2 : ∀ st ∈ rest, ∀ c ∈ st.joined, ∃ sock, c.ClientSocket = some sock :=
      fun st hst => hjoin st (List.mem_cons_of_mem _ hst)
    have hchan2 : ∀ st ∈ rest, st.input.channel.AnswersInOrder :=
      fun st hst => hchan st (List.mem_cons_of_mem _ hst)
    have hsockB : ∀ c ∈ s.IgtlClients ++ step.joined, ∃ sock, c.ClientSocket = some sock := by
      intro c hc
      rcases List.mem_append.mp hc with h | h
      · exact hsock c h
      · exact hjoin step (List.mem_cons_self _ _) c h
    by_cases hempty : s.IgtlClients ++ step.joined = []
    · have htick : DataSenderTick env net clock step.input
          { s with IgtlClients := s.IgtlClients ++ step.joined }
          = (⟨false, none, false⟩,
              some { ({ s with IgtlClients := s.IgtlClients ++ step.joined } : Server) with
                LastSentTrackedFrameTimestamp := 0 }) := by
        simp [DataSenderTick, hempty]
      obtain ⟨traces, t, g1, g2, g3, _⟩ := ih
        { ({ s with IgtlClients := s.IgtlClients ++ step.joined } : Server) with
            LastSentTrackedFrameTimestamp := 0 }
        (by simp [hempty]) hjoin2 hchan2
      refine ⟨_, t, senderRun_cons env net clock step rest s _ t traces
        (by rw [htick]) g1, by simp [g2], ?_, ?_⟩
      · intro tr htr
        rcases List.mem_cons.mp htr with rfl | htr
        · simp [hempty]
        · exact g3 tr htr
      · intro hconn
        exact absurd hempty (hconn _ (List.mem_cons_self _ _))
    · obtain ⟨after, k1, k2, k3, k4, k5, k6⟩ := tick_lastSent env net clock step.input
        { s with IgtlClients := s.IgtlClients ++ step.joined } hempty hsockB
        (hchan step (List.mem_cons_self _ _))
      obtain ⟨traces, t, g1, g2, g3, g4⟩ := ih after
        (fun c hc => hsockB c (k2.subset hc)) hjoin2 hchan2
      have hfr : (if (s.IgtlClients ++ step.joined).isEmpty then []
          else tickFrames env net clock step.input
            { s with IgtlClients := s.IgtlClients ++ step.joined })
          = tickFrames env net clock step.input
            { s with IgtlClients := s.IgtlClients ++ step.joined } := by
        rw [if_neg]
        simpa using hempty
      refine ⟨_, t, senderRun_cons env net clock step rest s after t traces k1 g1,
        by simp [g2], ?_, ?_⟩
      · intro tr htr
        rcases List.mem_cons.mp htr with rfl | htr
        · intro last hlast
          simp only [hfr] at hlast
          exact k6 last hlast
        · exact g3 tr htr
      · intro hconn
        obtain ⟨c1, c2, c3⟩ := g4 (fun tr htr => hconn tr (List.mem_cons_of_mem _ htr))
        simp only [List.map_cons, List.flatMap_cons, hfr]
        refine ⟨List.Chain.cons k3 c1, ?_, ?_⟩
        · refine List.pairwise_append.mpr ⟨k4, c2, fun a ha b hb => ?_⟩
          exact lt_of_le_of_lt (k5 a ha).2 (c3 b hb)
        · intro f hf
          rcases List.mem_append.mp hf with h | h
          · exact (k5 f h).1
          · exact lt_of_le_of_lt k3 (c3 f h)


theorem historyChannel_answersInOrder : historyChannel.AnswersInOrder := by
  intro ts n
  have hp : historyFrames.Pairwise (fun a b => a.Timestamp < b.Timestamp) := by
    norm_num [historyFrames]
  refine ⟨?_, ?_, rfl⟩
  · exact hp.sublist ((List.take_sublist _ _).trans (List.filter_sublist _))
  · intro f hf
    have hmem : f ∈ historyFrames.filter (fun f => ts < f.Timestamp) :=
      (List.take_sublist _ _).subset hf
    simpa using (List.mem_filter.mp hmem).2

theorem historyFrames_after_margin :
    historyFrames.filter (fun f => (20 : ℚ) + SAMPLING_SKIPPING_MARGIN_SEC < f.Timestamp)
      = [⟨21, 1⟩, ⟨22, 2⟩, ⟨23, 3⟩, ⟨24, 4⟩, ⟨25, 5⟩] := by
  norm_num [historyFrames, SAMPLING_SKIPPING_MARGIN_SEC, List.filter_cons]

/-- The frames `historyChannel` hands to a tick of a broadcasting server whose
last sent timestamp is below 20 s: the frames after 20.1 s, at most the batch
size. -/
theorem tickFrames_history (env : Env) (net : SendOracle) (clock : Clock)
    (replies : List CommandResponse) (s : Server) (hb : s.BroadcastChannel = true)
    (hl : s.LastSentTrackedFrameTimestamp < 20) :
    tickFrames env net clock ⟨replies, historyChannel⟩ s
      = ([⟨21, 1⟩, ⟨22, 2⟩, ⟨23, 3⟩, ⟨24, 4⟩, ⟨25, 5⟩] : List TrackedFrame).take
          (batchSize s.MaxTimeSpentWithProcessingMs s.LastProcessingTimePerFrameMs
            s.MaxNumberOfIgtlMessagesToSend).toNat := by
  obtain ⟨_, p2, _, p4, p5, p6, p7, _⟩ := sameMembers_tickPrologue env net clock
    ⟨replies, historyChannel⟩ s
  have hr := congrArg Prod.snd
    (acquire_result historyChannel (tickPrologue env net clock ⟨replies, historyChannel⟩ s).2)
  have hq := acquire_channelQuery historyChannel
    (tickPrologue env net clock ⟨replies, historyChannel⟩ s).2
  rw [p2, p4, p5, p6, p7, if_pos ⟨hb, rfl, rfl⟩] at hq
  have hl2 : s.LastSentTrackedFrameTimestamp < historyChannel.GetOldestTimestamp.2 := hl
  rw [if_pos hl2] at hq
  simp only at hr
  rw [hq] at hr
  simp only at hr
  show (acquireTrackedFrames historyChannel
    (tickPrologue env net clock ⟨replies, historyChannel⟩ s).2).2.2 = _
  rw [hr, ← historyFrames_after_margin]
  rfl

/-- Witness of C13: one client and the channel holding the frames of 20 s to
25 s; the first tick of a server whose last sent timestamp is 0 fetches the
frames of 21 s to 25 s and leaves 25 s as last sent timestamp. -/
theorem C13_last_sent_timestamp_witness :
    ∃ traces t, senderRun exampleEnv exampleNet exampleClock [⟨[], ⟨[], historyChannel⟩⟩]
        (mkServer [mkClient 1 (some 7)]) = some (traces, t) ∧
      traces.map (fun tr => tr.frames) = [[⟨21, 1⟩, ⟨22, 2⟩, ⟨23, 3⟩, ⟨24, 4⟩, ⟨25, 5⟩]] ∧
      t.LastSentTrackedFrameTimestamp = 25 := by
  obtain ⟨traces, t, h1, _, h3, _⟩ := C13_last_sent_timestamp exampleEnv exampleNet
    exampleClock [⟨[], ⟨[], historyChannel⟩⟩] (mkServer [mkClient 1 (some 7)])
    (by simp [mkServer, mkClient]) (by simp)
    (by
      intro step hstep
      rw [List.mem_singleton.mp hstep]
      exact historyChannel_answersInOrder)
  obtain ⟨after, k1, _⟩ := tick_spec exampleEnv exampleNet exampleClock ⟨[], historyChannel⟩
    (mkServer [mkClient 1 (some 7)]) (by simp [mkServer]) (by simp [mkServer, mkClient])
  have hrun := senderRun_cons exampleEnv exampleNet exampleClock ⟨[], ⟨[], historyChannel⟩⟩ []
    (mkServer [mkClient 1 (some 7)]) after after [] k1 rfl
  have hfr : tickFrames exampleEnv exampleNet exampleClock ⟨[], historyChannel⟩
      (mkServer [mkClient 1 (some 7)])
      = [⟨21, 1⟩, ⟨22, 2⟩, ⟨23, 3⟩, ⟨24, 4⟩, ⟨25, 5⟩] := by
    rw [tickFrames_history exampleEnv exampleNet exampleClock [] _ rfl
      (by norm_num [mkServer])]
    rfl
  rw [h1] at hrun
  obtain ⟨ht, hfin⟩ := Prod.mk.inj (Option.some.inj hrun)
  have hframes : traces.map (fun tr => tr.frames)
      = [[⟨21, 1⟩, ⟨22, 2⟩, ⟨23, 3⟩, ⟨24, 4⟩, ⟨25, 5⟩]] := by
    rw [ht]
    simp only [List.map_cons, List.map_nil]
    rw [← hfr]
    rfl
  refine ⟨traces, t, h1, hframes, ?_⟩
  have hlast := h3 ⟨mkServer [mkClient 1 (some 7)], ⟨[], historyChannel⟩,
    (DataSenderTick exampleEnv exampleNet exampleClock ⟨[], historyChannel⟩
      (mkServer [mkClient 1 (some 7)])).1,
    [⟨21, 1⟩, ⟨22, 2⟩, ⟨23, 3⟩, ⟨24, 4⟩, ⟨25, 5⟩],
    tickDuration exampleEnv exampleNet exampleClock ⟨[], historyChannel⟩
      (mkServer [mkClient 1 (some 7)]), after⟩
    (by
      rw [ht, ← hfr]
      exact List.mem_singleton.mpr rfl)
    ⟨25, 5⟩ rfl
  rw [hfin]
  exact hlast


/-- C15: the first channel query after a period without clients does not start
from the most recent timestamp of the channel. The channel holds the frames
of 20 s to 25 s. A tick without clients resets the last sent timestamp from
25 s to 0; in the next tick, with a client connected, the test of lines
448-452 finds 0 below the oldest timestamp and the query starts from
20.1 s, which is before the most recent timestamp 25 s: the frames of 21 s to
24 s, all older than the most recent one, are fetched for the new client. -/
theorem C15_query_after_reset :
    historyFrames.getLast?.map (fun f => f.Timestamp) = some 25 ∧
    ∃ t, (DataSenderTick exampleEnv exampleNet exampleClock ⟨[], historyChannel⟩
        { mkServer [] with LastSentTrackedFrameTimestamp := 25 }).2 = some t ∧
      t.LastSentTrackedFrameTimestamp = 0 ∧
      (DataSenderTick exampleEnv exampleNet exampleClock ⟨[], historyChannel⟩
        { t with IgtlClients := [mkClient 1 (some 7)] }).1.acquire.bind (·.channelQuery)
        = some (201 / 10, 50) ∧
      (201 / 10 : ℚ) < 25 ∧
      tickFrames exampleEnv exampleNet exampleClock ⟨[], historyChannel⟩
        { t with IgtlClients := [mkClient 1 (some 7)] }
        = [⟨21, 1⟩, ⟨22, 2⟩, ⟨23, 3⟩, ⟨24, 4⟩, ⟨25, 5⟩] := by
  refine ⟨rfl, { mkServer [] with LastSentTrackedFrameTimestamp := 0 }, rfl, rfl, ?_,
    by norm_num, ?_⟩
  · rw [tick_channelQuery exampleEnv exampleNet exampleClock ⟨[], historyChannel⟩ _
      (by simp)]
    have hcond : ∀ s : Server, s = { ({ mkServer [] with LastSentTrackedFrameTimestamp := 0 }
        : Server) with IgtlClients := [mkClient 1 (some 7)] } →
        (s.BroadcastChannel = true
          ∧ (⟨[], historyChannel⟩ : SenderTickInput).channel.noDataAvailable = false
          ∧ (⟨[], historyChannel⟩ : SenderTickInput).channel.GetOldestTimestamp.1
            = PlusStatus.PLUS_SUCCESS) := by
      intro s hs
      rw [hs]
      exact ⟨rfl, rfl, rfl⟩
    rw [if_pos (hcond _ rfl)]
    norm_num [historyChannel, mkServer, SAMPLING_SKIPPING_MARGIN_SEC, batchSize]
  · rw [tickFrames_history exampleEnv exampleNet exampleClock [] _ rfl
      (by norm_num [mkServer])]
    rfl


/-- `KeepAlive` on a single client whose first send does not return 0: one
send of the whole status message, and the client stays. -/
theorem KeepAlive_single (net : SendOracle) (s : Server) (c : PlusIgtlClientInfo)
    (sock : Socket) (hc : s.IgtlClients = [c]) (hs : c.ClientSocket = some sock)
    (hr : net s.Sent sock statusOkMessage statusOkMessage.GetPackSize ≠ 0)
    (hn : 1 ≤ s.NumberOfRetryAttempts) :
    KeepAlive net s = some (PlusStatus.PLUS_SUCCESS,
      s.withSent [keepAliveEvent net s.Sent sock],
      [(c, net s.Sent sock statusOkMessage statusOkMessage.GetPackSize)]) := by
  obtain ⟨n, hn2⟩ : ∃ n, s.NumberOfRetryAttempts.toNat = n + 1 :=
    ⟨s.NumberOfRetryAttempts.toNat - 1, by omega⟩
  simp [KeepAlive, hc, keepAliveClients, hn2, retrySend, hs, socketSend, hr, Server.withSent,
    keepAliveEvent]

/-- A tick without frames of a server with a single client on whose socket no
send of the status message returns 0: the tick returns, the client stays, and what the tick adds to the
history after the command responses is the one send of the keep-alive when
`KeepAlive` was called and nothing otherwise. -/
theorem tick_single_client (env : Env) (net : SendOracle) (clock : Clock)
    (inp : SenderTickInput) (s : Server) (c : PlusIgtlClientInfo) (sock : Socket)
    (hc : s.IgtlClients = [c]) (hs : c.ClientSocket = some sock)
    (hnet : ∀ hist, net hist sock statusOkMessage statusOkMessage.GetPackSize ≠ 0) (hn : 1 ≤ s.NumberOfRetryAttempts)
    (hf : tickFrames env net clock inp s = []) :
    ∃ t, (DataSenderTick env net clock inp s).2 = some t ∧ t.IgtlClients = [c] ∧
      t.NumberOfRetryAttempts = s.NumberOfRetryAttempts ∧
      t.Sent = (tickPrologue env net clock inp s).2.Sent
        ++ (if (DataSenderTick env net clock inp s).1.keepAliveCalled = true then
              [keepAliveEvent net (tickPrologue env net clock inp s).2.Sent sock]
            else []) := by
  obtain ⟨p1, _, p3, _⟩ := sameMembers_tickPrologue env net clock inp s
  have hshape := acquire_shape inp.channel (tickPrologue env net clock inp s).2
  have hA1 : (acquireTrackedFrames inp.channel (tickPrologue env net clock inp s).2).1.IgtlClients
      = [c] := by rw [hshape]; exact p1.trans hc
  have hA3 : (acquireTrackedFrames inp.channel
      (tickPrologue env net clock inp s).2).1.NumberOfRetryAttempts
      = s.NumberOfRetryAttempts := by rw [hshape]; exact p3
  have hA5 : (acquireTrackedFrames inp.channel (tickPrologue env net clock inp s).2).1.Sent
      = (tickPrologue env net clock inp s).2.Sent := by rw [hshape]
  have hne : s.IgtlClients ≠ [] := by simp [hc]
  rw [tick_eq env net clock inp s hne, hf, tickEpilogue_nil]
  generalize (acquireTrackedFrames inp.channel (tickPrologue env net clock inp s).2).1 = A
    at hA1 hA3 hA5 ⊢
  generalize (tickPrologue env net clock inp s).1 = start
  split
  · have hk := KeepAlive_single net
      { A with
        TimeReads := A.TimeReads + 1,
        elapsedTimeSinceLastPacketSentSec :=
          env.RoundToDouble (A.elapsedTimeSinceLastPacketSentSec
            + env.RoundToDouble (clock A.TimeReads - start)) }
      c sock hA1 hs (hnet _) (by rw [← hA3] at hn; exact hn)
    rw [hk]
    simp only [Option.map_some', if_true]
    exact ⟨_, rfl, hA1, hA3, by simp [Server.withSent, hA5]⟩
  · exact ⟨_, rfl, hA1, hA3, by simp [hA5]⟩


theorem keepAliveCount_cons (tr : TickTrace) (traces : List TickTrace) :
    keepAliveCount (tr :: traces)
      = (if tr.report.keepAliveCalled = true then 1 else 0) + keepAliveCount traces := by
  unfold keepAliveCount
  by_cases h : tr.report.keepAliveCalled = true
  · simp [List.filter_cons, h, Nat.add_comm]
  · simp [List.filter_cons, h]

theorem totalDuration_cons (tr : TickTrace) (traces : List TickTrace) :
    totalDuration (tr :: traces) = tr.duration + totalDuration traces := by
  simp [totalDuration]

theorem keepAliveCount_le_length (traces : List TickTrace) :
    keepAliveCount traces ≤ traces.length :=
  List.length_filter_le _ _

theorem exampleEnv_roundsNotBelow (c : ℚ) : exampleEnv.RoundsNotBelow c := fun _ h => h

theorem exampleEnv_roundsWithin (B : ℚ) : exampleEnv.RoundsWithin B 0 := by
  intro q _
  show |q - q| ≤ 0
  simp

/-- A run of sender ticks without joining clients. It returns when every
client has a socket. When it starts with the single client `c`, on whose
socket no send of the status message returns 0, with the accumulator between
0 and 250 ms (up to `ε`), every tick is without frames and lasts between 0
and `dmax`, and rounding changes a value by at most `ε` and passes neither 0
nor 250: the client stays, each tick adds to the history, after the command
responses, exactly the one send of the keep-alive when `KeepAlive` was
called, and every keep-alive accounts for more than 250 ms and at most
250 ms + `dmax` of the time accumulated, up to `ε` per tick. -/
theorem senderRun_keepAlive (env : Env) (net : SendOracle) (clock : Clock) (dmax B ε : ℚ)
    (hdmax : 0 ≤ dmax)
    (hround : env.RoundsNotAbove 250) (hround0 : env.RoundsNotBelow 0)
    (hwithin : env.RoundsWithin B ε) (hε : ε ≤ 1 / 10) (hB : 1000 * (1 + dmax) ≤ B)
    (c : PlusIgtlClientInfo) (sock : Socket) (hs : c.ClientSocket = some sock)
    (hnet : ∀ hist, net hist sock statusOkMessage statusOkMessage.GetPackSize ≠ 0)
    (steps : List SenderStep) (hsteps : ∀ step ∈ steps, step.joined = []) (s : Server)
    (hsock : ∀ c ∈ s.IgtlClients, ∃ sock, c.ClientSocket = some sock) :
    ∃ traces t, senderRun env net clock steps s = some (traces, t) ∧
      traces.length = steps.length ∧
      (s.IgtlClients = [c] → 1 ≤ s.NumberOfRetryAttempts →
        0 ≤ s.elapsedTimeSinceLastPacketSentSec →
        1000 * s.elapsedTimeSinceLastPacketSentSec ≤ 250 + ε →
        (∀ tr ∈ traces, tr.frames = [] ∧ 0 ≤ tr.duration ∧ tr.duration ≤ dmax) →
        (∀ tr ∈ traces, tr.before.IgtlClients = [c] ∧
          tr.after.Sent = (tickPrologue env net clock tr.input tr.before).2.Sent
            ++ (if tr.report.keepAliveCalled = true then
                  [keepAliveEvent net (tickPrologue env net clock tr.input tr.before).2.Sent sock]
                else [])) ∧
        0 ≤ t.elapsedTimeSinceLastPacketSentSec ∧
        1000 * t.elapsedTimeSinceLastPacketSentSec ≤ 250 + ε ∧
        (keepAliveCount traces : ℚ) * 250
          ≤ 1000 * (s.elapsedTimeSinceLastPacketSentSec + totalDuration traces
              - t.elapsedTimeSinceLastPacketSentSec) + 1000 * (traces.length : ℚ) * ε ∧
        1000 * (s.elapsedTimeSinceLastPacketSentSec + totalDuration traces
              - t.elapsedTimeSinceLastPacketSentSec)
          ≤ (keepAliveCount traces : ℚ) * (250 + 1000 * dmax + ε)
            + 1000 * (traces.length : ℚ) * ε) := by
  have hB0 : |(0 : ℚ)| ≤ B := by
    rw [abs_zero]
    linarith
  have hε0 : 0 ≤ ε := le_trans (abs_nonneg _) (hwithin 0 hB0)
  induction steps generalizing s with
  | nil =>
    refine ⟨[], s, rfl, rfl, fun _ _ h0 h1 _ => ⟨by simp, h0, h1, ?_, ?_⟩⟩
    · simp [keepAliveCount, totalDuration]
    · simp [keepAliveCount, totalDuration]
  | cons step rest ih =>
    have hj : step.joined = [] := hsteps step (List.mem_cons_self _ _)
    have hsteps2 : ∀ st ∈ rest, st.joined = [] :=
      fun st hst => hsteps st (List.mem_cons_of_mem _ hst)
    have hb : ({ s with IgtlClients := s.IgtlClients ++ step.joined } : Server) = s := by
      rw [hj, List.append_nil]
    by_cases hempty : s.IgtlClients = []
    · have htick : (DataSenderTick env net clock step.input s).2
          = some { s with LastSentTrackedFrameTimestamp := 0 } := by
        simp [DataSenderTick, hempty]
      obtain ⟨traces, t, g1, g2, _⟩ := ih hsteps2 { s with LastSentTrackedFrameTimestamp := 0 }
        (by simp [hempty])
      have hrun := senderRun_cons env net clock step rest s _ t traces
        (by rw [hb]; exact htick) g1
      refine ⟨_, t, hrun, by simp [g2], fun hc => ?_⟩
      rw [hempty] at hc
      exact absurd hc (by simp)
    · obtain ⟨after, k1, k2, k3, _, k5, _, _⟩ := tick_spec env net clock step.input s hempty
        hsock
      obtain ⟨traces, t, g1, g2, g3⟩ := ih hsteps2 after (fun c hc => hsock c (k5.subset hc))
      have hrun := senderRun_cons env net clock step rest s after t traces
        (by rw [hb]; exact k1) g1
      rw [hb, hj, List.append_nil] at hrun
      refine ⟨_, t, hrun, by simp [g2], fun hc hn h0 h1 hprem => ?_⟩
      have hne2 : s.IgtlClients.isEmpty = false := by simp [hc]
      simp only [List.mem_cons, forall_eq_or_imp, hne2, Bool.false_eq_true, if_false] at hprem
      obtain ⟨⟨hf, hd0, hd1⟩, hprem2⟩ := hprem
      obtain ⟨t1, m1, m2, m3, m4⟩ := tick_single_client env net clock step.input s c sock hc hs
        hnet hn hf
      have ht1 : t1 = after := Option.some.inj (m1.symm.trans k1)
      rw [ht1] at m2 m3 m4
      simp only [hf, true_and, if_true] at k2 k3
      -- the accumulator after line 466 and what rounding did to it
      have hsum0 : 0 ≤ s.elapsedTimeSinceLastPacketSentSec
          + tickDuration env net clock step.input s := add_nonneg h0 hd0
      have hsumB : |s.elapsedTimeSinceLastPacketSentSec
          + tickDuration env net clock step.input s| ≤ B := by
        rw [abs_of_nonneg hsum0]
        linarith
      have herr1 : |tickAccumulator env net clock step.input s
          - (s.elapsedTimeSinceLastPacketSentSec + tickDuration env net clock step.input s)|
          ≤ ε := hwithin _ hsumB
      obtain ⟨e1, e2⟩ := abs_le.mp herr1
      have ha0 : 0 ≤ tickAccumulator env net clock step.input s := hround0 _ hsum0
      have haB : |1000 * tickAccumulator env net clock step.input s| ≤ B := by
        rw [abs_of_nonneg (by linarith)]
        linarith
      obtain ⟨e3, e4⟩ := abs_le.mp (hwithin _ haB)
      have hafter0 : 0 ≤ after.elapsedTimeSinceLastPacketSentSec := by
        rw [k3]
        split
        · exact le_refl _
        · exact ha0
      have hafter1 : 1000 * after.elapsedTimeSinceLastPacketSentSec ≤ 250 + ε := by
        rw [k3]
        split
        · linarith
        · linarith
      obtain ⟨r1, r2, r3, r4, r5⟩ := g3 m2 (by rw [m3]; exact hn) hafter0 hafter1 hprem2
      refine ⟨?_, r2, r3, ?_, ?_⟩
      · intro tr htr
        rcases List.mem_cons.mp htr with rfl | htr
        · exact ⟨hc, m4⟩
        · exact r1 tr htr
      · rw [keepAliveCount_cons, totalDuration_cons, List.length_cons]
        push_cast
        by_cases hk : env.RoundToDouble (1000 * tickAccumulator env net clock step.input s) > 250
        · rw [if_pos hk] at k3
          rw [k3] at r4
          have hgt := exact_gt_of_round_gt env 250 hround _ hk
          simp only [k2.mpr hk, if_true]
          linarith
        · rw [if_neg hk] at k3
          rw [k3] at r4
          have hno : ¬ (DataSenderTick env net clock step.input s).1.keepAliveCalled = true :=
            fun h => hk (k2.mp h)
          simp only [hno, if_false]
          push_cast
          linarith
      · rw [keepAliveCount_cons, totalDuration_cons, List.length_cons]
        push_cast
        by_cases hk : env.RoundToDouble (1000 * tickAccumulator env net clock step.input s) > 250
        · rw [if_pos hk] at k3
          rw [k3] at r5
          simp only [k2.mpr hk, if_true]
          linarith
        · rw [if_neg hk] at k3
          rw [k3] at r5
          have hno : ¬ (DataSenderTick env net clock step.input s).1.keepAliveCalled = true :=
            fun h => hk (k2.mp h)
          simp only [hno, if_false]
          push_cast
          linarith


/-- The run of a single tick of one second on one client and a channel
without new frames: no frame, one call of `KeepAlive`. -/
theorem exampleWindow_run :
    ∃ tr t, senderRun exampleEnv exampleNet exampleClock [⟨[], ⟨[], exampleChannel⟩⟩]
        (mkServer [mkClient 1 (some 7)]) = some ([tr], t) ∧
      tr.frames = [] ∧ tr.duration = 1 ∧ tr.report.keepAliveCalled = true := by
  obtain ⟨after, k1, k2, _⟩ := tick_spec exampleEnv exampleNet exampleClock
    ⟨[], exampleChannel⟩ (mkServer [mkClient 1 (some 7)]) (by simp [mkServer])
    (by simp [mkServer, mkClient])
  have hrun := senderRun_cons exampleEnv exampleNet exampleClock ⟨[], ⟨[], exampleChannel⟩⟩ []
    (mkServer [mkClient 1 (some 7)]) after after [] k1 rfl
  have hf := tickFrames_of_no_frames exampleEnv exampleNet exampleClock
    ⟨[], exampleChannel⟩ (mkServer [mkClient 1 (some 7)]) (fun _ _ => rfl)
  have hd : tickDuration exampleEnv exampleNet exampleClock ⟨[], exampleChannel⟩
      (mkServer [mkClient 1 (some 7)]) = 1 := by
    rw [tickDuration_no_replies exampleEnv exampleNet exampleClock
      ⟨[], exampleChannel⟩ (mkServer [mkClient 1 (some 7)]) rfl]
    norm_num [exampleEnv, mkServer, exampleClock]
  have hrun2 : senderRun exampleEnv exampleNet exampleClock [⟨[], ⟨[], exampleChannel⟩⟩]
      (mkServer [mkClient 1 (some 7)])
      = some ([⟨mkServer [mkClient 1 (some 7)], ⟨[], exampleChannel⟩,
          (DataSenderTick exampleEnv exampleNet exampleClock ⟨[], exampleChannel⟩
            (mkServer [mkClient 1 (some 7)])).1,
          tickFrames exampleEnv exampleNet exampleClock ⟨[], exampleChannel⟩
            (mkServer [mkClient 1 (some 7)]),
          tickDuration exampleEnv exampleNet exampleClock ⟨[], exampleChannel⟩
            (mkServer [mkClient 1 (some 7)]), after⟩], after) := hrun
  refine ⟨_, after, hrun2, hf, hd, ?_⟩
  show (DataSenderTick exampleEnv exampleNet exampleClock ⟨[], exampleChannel⟩
    (mkServer [mkClient 1 (some 7)])).1.keepAliveCalled = true
  rw [k2]
  unfold tickAccumulator
  rw [hd]
  exact ⟨hf, by norm_num [exampleEnv, mkServer]⟩

/-- C17, counterexample: a no-data window of a single tick that lasts 1 s, one
client, accumulator 0 at the start. `KeepAlive` is called once, while
floor(1 s / 250 ms) - 1 = 3. -/
theorem C17_counterexample :
    ∃ traces t, senderRun exampleEnv exampleNet exampleClock [⟨[], ⟨[], exampleChannel⟩⟩]
        (mkServer [mkClient 1 (some 7)]) = some (traces, t) ∧
      (mkServer [mkClient 1 (some 7)]).elapsedTimeSinceLastPacketSentSec = 0 ∧
      (∀ tr ∈ traces, tr.frames = []) ∧
      totalDuration traces = 1 ∧ keepAliveCount traces = 1 ∧
      ¬ (⌊totalDuration traces / (1 / 4)⌋ - 1 ≤ (keepAliveCount traces : ℤ)) := by
  obtain ⟨tr, t, h1, h2, h3, h4⟩ := exampleWindow_run
  have hD : totalDuration [tr] = 1 := by simp [totalDuration, h3]
  have hK : keepAliveCount [tr] = 1 := by simp [keepAliveCount, h4]
  refine ⟨[tr], t, h1, rfl, by simpa using h2, hD, hK, ?_⟩
  rw [hD, hK]
  have h4 : (1 : ℚ) / (1 / 4) = ((4 : ℤ) : ℚ) := by norm_num
  rw [h4, Int.floor_intCast]
  norm_num


/-- C17, amended: in a run of sender ticks that starts with the accumulator at
0 and a single client, on whose socket no send of the status message returns
0, and in which no client joins, every tick is without frames and lasts
between 0 and `dmax`, on a machine whose rounding changes a value of
magnitude up to `B` (at least 1000 (1 + `dmax`)) by at most `ε` and passes
neither 0 nor 250, with (number of ticks + 1) `ε` at most 1/10: the client
stays; each tick in which `KeepAlive` is called adds exactly one send of the
whole status message on the client's socket to the history, the other ticks
none besides command responses; and the number k of these keep-alives and
the total duration D of the ticks (in seconds) satisfy
floor(D / (0.25 + dmax)) - 1 ≤ k ≤ floor(D / 0.25) + 1.
In fact k / 4 ≤ D + n ε for the n ticks of the run, and without rounding
(`ε` = 0) k ≤ floor(D / 0.25) and D ≤ k (0.25 + dmax) + 0.25. -/
theorem C17_keep_alive_cadence (env : Env) (net : SendOracle) (clock : Clock) (dmax : ℚ)
    (hdmax : 0 ≤ dmax) (c : PlusIgtlClientInfo) (sock : Socket)
    (hs : c.ClientSocket = some sock)
    (hnet : ∀ hist, net hist sock statusOkMessage statusOkMessage.GetPackSize ≠ 0)
    (steps : List SenderStep) (hsteps : ∀ step ∈ steps, step.joined = []) (s : Server)
    (hc : s.IgtlClients = [c]) (hn : 1 ≤ s.NumberOfRetryAttempts)
    (hacc : s.elapsedTimeSinceLastPacketSentSec = 0)
    (B ε : ℚ) (hround : env.RoundsNotAbove 250) (hround0 : env.RoundsNotBelow 0)
    (hwithin : env.RoundsWithin B ε) (hB : 1000 * (1 + dmax) ≤ B)
    (hbudget : ((steps.length : ℚ) + 1) * ε ≤ 1 / 10) :
    ∃ traces t, senderRun env net clock steps s = some (traces, t) ∧
      traces.length = steps.length ∧
      ((∀ tr ∈ traces, tr.frames = [] ∧ 0 ≤ tr.duration ∧ tr.duration ≤ dmax) →
        (∀ tr ∈ traces, tr.before.IgtlClients = [c] ∧
          tr.after.Sent = (tickPrologue env net clock tr.input tr.before).2.Sent
            ++ (if tr.report.keepAliveCalled = true then
                  [keepAliveEvent net (tickPrologue env net clock tr.input tr.before).2.Sent sock]
                else [])) ∧
        ⌊totalDuration traces / (1 / 4 + dmax)⌋ - 1 ≤ (keepAliveCount traces : ℤ) ∧
        (keepAliveCount traces : ℤ) ≤ ⌊totalDuration traces / (1 / 4)⌋ + 1 ∧
        (keepAliveCount traces : ℚ) * (1 / 4)
          ≤ totalDuration traces + (traces.length : ℚ) * ε ∧
        (ε = 0 →
          (keepAliveCount traces : ℤ) ≤ ⌊totalDuration traces / (1 / 4)⌋ ∧
          totalDuration traces ≤ (keepAliveCount traces : ℚ) * (1 / 4 + dmax) + 1 / 4)) := by
  have hB0 : |(0 : ℚ)| ≤ B := by
    rw [abs_zero]
    linarith
  have hε0 : 0 ≤ ε := le_trans (abs_nonneg _) (hwithin 0 hB0)
  have hlen0 : (0 : ℚ) ≤ (steps.length : ℚ) := Nat.cast_nonneg _
  have hε : ε ≤ 1 / 10 := by nlinarith
  obtain ⟨traces, t, h1, h2, h3⟩ := senderRun_keepAlive env net clock dmax B ε hdmax hround
    hround0 hwithin hε hB c sock hs hnet steps hsteps s (by
      intro x hx
      rw [hc] at hx
      rw [List.mem_singleton.mp hx]
      exact ⟨sock, hs⟩)
  refine ⟨traces, t, h1, h2, fun hprem => ?_⟩
  obtain ⟨r1, r2, r3, r4, r5⟩ := h3 hc hn (by rw [hacc]) (by rw [hacc]; linarith) hprem
  rw [hacc] at r4 r5
  rw [h2] at r4 r5 ⊢
  have hkn : (keepAliveCount traces : ℚ) ≤ (steps.length : ℚ) := by
    have := keepAliveCount_le_length traces
    rw [h2] at this
    exact_mod_cast this
  have hk0 : (0 : ℚ) ≤ (keepAliveCount traces : ℚ) := Nat.cast_nonneg _
  have hkε : (keepAliveCount traces : ℚ) * ε ≤ (steps.length : ℚ) * ε :=
    mul_le_mul_of_nonneg_right hkn hε0
  have hnε : (steps.length : ℚ) * ε ≤ 1 / 10 := by linarith
  have hupper : (((keepAliveCount traces : ℤ) - 1 : ℤ) : ℚ) ≤ totalDuration traces / (1 / 4) := by
    rw [le_div_iff₀ (by norm_num)]
    push_cast
    linarith
  have hpos : (0 : ℚ) < 1 / 4 + dmax := by linarith
  have hlower : totalDuration traces / (1 / 4 + dmax)
      < (((keepAliveCount traces : ℤ) + 2 : ℤ) : ℚ) := by
    rw [div_lt_iff₀ hpos]
    push_cast
    nlinarith
  have hfl2 : ⌊totalDuration traces / (1 / 4 + dmax)⌋ < (keepAliveCount traces : ℤ) + 2 :=
    Int.floor_lt.mpr hlower
  have hup2 : (keepAliveCount traces : ℤ) - 1 ≤ ⌊totalDuration traces / (1 / 4)⌋ :=
    Int.le_floor.mpr hupper
  refine ⟨r1, by omega, by omega, by linarith, fun hz => ?_⟩
  rw [hz] at r4 r5
  constructor
  · apply Int.le_floor.mpr
    rw [le_div_iff₀ (by norm_num)]
    push_cast
    linarith
  · linarith

/-- Witness of C17: the window of a single tick of one second (`dmax` = 1 s)
on one client, with values that `double` arithmetic does not round: one
keep-alive, and 0 - 1 ≤ 1 ≤ 4 + 1. -/
theorem C17_keep_alive_cadence_witness :
    ∃ traces t, senderRun exampleEnv exampleNet exampleClock [⟨[], ⟨[], exampleChannel⟩⟩]
        (mkServer [mkClient 1 (some 7)]) = some (traces, t) ∧
      keepAliveCount traces = 1 ∧ totalDuration traces = 1 ∧
      ⌊totalDuration traces / (1 / 4 + 1)⌋ - 1 ≤ (keepAliveCount traces : ℤ) ∧
      (keepAliveCount traces : ℤ) ≤ ⌊totalDuration traces / (1 / 4)⌋ + 1 := by
  obtain ⟨traces, t, h1, _, h3⟩ := C17_keep_alive_cadence exampleEnv exampleNet exampleClock 1
    (by norm_num) (mkClient 1 (some 7)) 7 rfl
    (by
      intro hist
      simp [exampleNet, statusOkMessage, IgtlMessage.GetPackSize, IGTL_HEADER_SIZE])
    [⟨[], ⟨[], exampleChannel⟩⟩] (by simp) (mkServer [mkClient 1 (some 7)]) rfl
    (by simp [mkServer]) rfl 2000 0 (exampleEnv_roundsNotAbove _) (exampleEnv_roundsNotBelow _)
    (exampleEnv_roundsWithin _) (by norm_num) (by norm_num)
  obtain ⟨tr, t2, g1, g2, g3, g4⟩ := exampleWindow_run
  rw [h1] at g1
  obtain ⟨ht, _⟩ := Prod.mk.inj (Option.some.inj g1)
  have hprem : ∀ x ∈ traces, x.frames = [] ∧ 0 ≤ x.duration ∧ x.duration ≤ 1 := by
    intro x hx
    rw [ht] at hx
    rw [List.mem_singleton.mp hx, g2, g3]
    exact ⟨rfl, by norm_num, le_refl _⟩
  obtain ⟨_, b1, b2, _, _⟩ := h3 hprem
  refine ⟨traces, t, h1, ?_, ?_, b1, b2⟩
  · rw [ht]
    simp [keepAliveCount, g4]
  · rw [ht]
    simp [totalDuration, g3]


theorem clearPreviousCommands_sent (env : Env) (clock : Clock) (client : PlusIgtlClientInfo) (s : Server) :
    (clearPreviousCommands env clock client s).Sent = s.Sent := by
  rcases clearPreviousCommands_cases env clock client s with h | h <;> rw [h.1]

/-- An iteration in which a complete header arrived: the dispatch runs in the
state `afterHeader`, in which the time of the client's last command is the
time the header was received. -/
theorem receiveFromClient_complete (env : Env) (net : SendOracle) (clock : Clock)
    (client : PlusIgtlClientInfo) (sock : Socket) (inb : Inbound) (s : Server)
    (hb : inb.bytesReceived = (IGTL_HEADER_SIZE : Int)) :
    receiveFromClient env net clock client sock inb s
      = dispatchMessage env net client sock inb.message (afterHeader env clock client s) := by
  have hne : ¬ (inb.bytesReceived = IGTL_EMPTY_DATA_SIZE
      ∨ inb.bytesReceived ≠ (IGTL_HEADER_SIZE : Int)) := by
    rw [hb]
    simp [IGTL_EMPTY_DATA_SIZE, IGTL_HEADER_SIZE]
  unfold receiveFromClient
  simp only [hne, if_false]
  rfl

/-- C19: the reply to GET_STATUS is not the whole packed status message. Client
1 on socket 7 delivers a complete GET_STATUS header. The receiver makes one
`Send` of the status message with byte count `GetPackBodySize()` = 31 (line
581), the size of the body alone, while the packed message is
`GetPackSize()` = 89 bytes, header included, and `KeepAlive` (line 817) sends
the same message with byte count 89. -/
theorem C19_get_status_reply_length :
    (receiveFromClient exampleEnv exampleNet exampleClock (mkClient 1 (some 7)) 7
        exampleGetStatus (mkServer [mkClient 1 (some 7)])).1.Sent
      = [⟨7, statusOkMessage, 31, 31⟩] ∧
    statusOkMessage.GetPackBodySize = 31 ∧ statusOkMessage.GetPackSize = 89 ∧
    (KeepAlive exampleNet (mkServer [mkClient 1 (some 7)])).map (fun r => r.2.1.Sent)
      = some [⟨7, statusOkMessage, 89, 89⟩] := by
  refine ⟨?_, rfl, rfl, rfl⟩
  rw [receiveFromClient_complete exampleEnv exampleNet exampleClock (mkClient 1 (some 7)) 7
    exampleGetStatus (mkServer [mkClient 1 (some 7)]) rfl]
  have hd : ∀ s : Server, (dispatchMessage exampleEnv exampleNet (mkClient 1 (some 7)) 7
      exampleGetStatus.message s).1.Sent
      = s.Sent ++ [⟨7, statusOkMessage, 31, 31⟩] := fun s => rfl
  rw [hd]
  show (clearPreviousCommands exampleEnv exampleClock (mkClient 1 (some 7))
    (mkServer [mkClient 1 (some 7)])).Sent ++ _ = _
  rw [clearPreviousCommands_sent]
  rfl

/-- C20: when the acceptor leaves its loop, whatever the client list: the
calls of `CloseSocket` are one on the socket of every client that has one, in
the order of the list, followed, when the server socket is not null, by the
one on the server socket, which is thus the last; the client list is empty
afterwards and the running flag of the acceptor is false; and the thread
function that passed `CreateServer` ends with exactly this code. -/
theorem C20_acceptor_exit (clock : Clock) (serverSocketNotNull : Bool) (s : Server)
    (createServer : Int) (events : List ConnectionEvent) :
    (ConnectionReceiverExit serverSocketNotNull s).2
      = (s.IgtlClients.filterMap (fun c => c.ClientSocket)).map SocketClose.client
        ++ (if serverSocketNotNull then [SocketClose.server] else []) ∧
    (∀ c ∈ s.IgtlClients, ∀ sock, c.ClientSocket = some sock →
      ∃ pre post, (ConnectionReceiverExit serverSocketNotNull s).2
          = pre ++ SocketClose.client sock :: post ∧
        SocketClose.server ∉ pre) ∧
    (ConnectionReceiverExit serverSocketNotNull s).1.IgtlClients = [] ∧
    (ConnectionReceiverExit serverSocketNotNull s).1.ConnectionActive.2 = false ∧
    (ConnectionReceiverExit serverSocketNotNull s).1
      = { s with IgtlClients := [], ConnectionActive := (s.ConnectionActive.1, false) } ∧
    (0 ≤ createServer →
      ConnectionReceiverThread clock createServer serverSocketNotNull events s
        = ConnectionReceiverExit serverSocketNotNull
            (events.foldl (fun st ev => acceptConnection clock ev st)
              { s with ConnectionActive := (s.ConnectionActive.1, true) })) := by
  have hcl : ∀ clients : List PlusIgtlClientInfo, closeClientSockets clients
      = (clients.filterMap (fun c => c.ClientSocket)).map SocketClose.client := by
    intro clients
    induction clients with
    | nil => rfl
    | cons c rest ih =>
      cases hc : c.ClientSocket with
      | none => simp [closeClientSockets, hc, ih]
      | some sock => simp [closeClientSockets, hc, ih]
  have hlist : (ConnectionReceiverExit serverSocketNotNull s).2
      = (s.IgtlClients.filterMap (fun c => c.ClientSocket)).map SocketClose.client
        ++ (if serverSocketNotNull then [SocketClose.server] else []) := by
    unfold ConnectionReceiverExit
    cases serverSocketNotNull <;> simp [hcl]
  refine ⟨hlist, ?_, rfl, rfl, rfl, ?_⟩
  · intro c hc sock hs
    have hmem : SocketClose.client sock
        ∈ (s.IgtlClients.filterMap (fun c => c.ClientSocket)).map SocketClose.client :=
      List.mem_map.mpr ⟨sock, List.mem_filterMap.mpr ⟨c, hc, hs⟩, rfl⟩
    obtain ⟨pre, post, hsplit⟩ := List.append_of_mem hmem
    refine ⟨pre, post ++ (if serverSocketNotNull then [SocketClose.server] else []), ?_, ?_⟩
    · rw [hlist, hsplit]
      simp
    · intro hin
      have hin2 : SocketClose.server
          ∈ (s.IgtlClients.filterMap (fun c => c.ClientSocket)).map SocketClose.client := by
        rw [hsplit]
        exact List.mem_append_left _ hin
      obtain ⟨x, _, hx⟩ := List.mem_map.mp hin2
      exact SocketClose.noConfusion hx
  · intro hcs
    unfold ConnectionReceiverThread
    rw [if_neg (by omega)]


/-- Witness of C20: three clients, the second without socket; the sockets 7
and 9 are closed, then the server socket. -/
theorem C20_acceptor_exit_witness :
    (ConnectionReceiverExit true
        (mkServer [mkClient 1 (some 7), mkClient 2 none, mkClient 3 (some 9)])).2
      = [SocketClose.client 7, SocketClose.client 9, SocketClose.server] :=
  (C20_acceptor_exit exampleClock true
    (mkServer [mkClient 1 (some 7), mkClient 2 none, mkClient 3 (some 9)]) 0 []).1

theorem clearPreviousCommands_flags (env : Env) (clock : Clock) (client : PlusIgtlClientInfo) (s : Server) :
    (clearPreviousCommands env clock client s).DataReceiverActive = s.DataReceiverActive := by
  rcases clearPreviousCommands_cases env clock client s with h | h <;> rw [h.1]

/-- An iteration in which a complete GET_IMAGE header with a NULL device name
arrived: the thread function returns, in the state `afterHeader`. -/
theorem receiveFromClient_get_image_null (env : Env) (net : SendOracle) (clock : Clock)
    (client : PlusIgtlClientInfo) (sock : Socket) (inb : Inbound) (s : Server)
    (hb : inb.bytesReceived = (IGTL_HEADER_SIZE : Int))
    (ht : inb.message.DeviceType = "GET_IMAGE") (hn : inb.message.DeviceName = none) :
    receiveFromClient env net clock client sock inb s = (afterHeader env clock client s, true) := by
  rw [receiveFromClient_complete env net clock client sock inb s hb]
  unfold dispatchMessage
  simp [ht, hn]

theorem stopWaitEnds_running (polls : Nat) : stopWaitEnds true polls = false := by
  induction polls with
  | zero => rfl
  | succ n ih => simpa [stopWaitEnds] using ih


/-- A receiver tick in which the only client delivers a complete GET_IMAGE
header with a NULL device name: the thread function returns from inside the
loop (line 657), in the state `afterHeader`. -/
theorem DataReceiverTick_returns_inside (env : Env) (net : SendOracle) (clock : Clock)
    (client : PlusIgtlClientInfo) (sock : Socket) (inb : Inbound) (s : Server)
    (hc : s.IgtlClients = [client]) (hs : client.ClientSocket = some sock)
    (hb : inb.bytesReceived = (IGTL_HEADER_SIZE : Int))
    (ht : inb.message.DeviceType = "GET_IMAGE") (hn : inb.message.DeviceName = none) :
    DataReceiverTick env net clock (fun _ => inb) s
      = some (afterHeader env clock client s, true) := by
  have hr := receiveFromClient_get_image_null env net clock client sock inb s hb ht hn
  unfold DataReceiverTick
  rw [hc]
  simp only [List.isEmpty_cons, Bool.false_eq_true, if_false, receiveFromClients, hs, hr,
    if_true]

/-- The receiver thread whose first iteration gets, from its only client, a
complete GET_IMAGE header with a NULL device name: the thread function
returns in the state `afterHeader` of the state in which the running flag
was set. -/
theorem DataReceiverThread_returns_inside (env : Env) (net : SendOracle) (clock : Clock)
    (client : PlusIgtlClientInfo) (sock : Socket) (inb : Inbound) (s : Server)
    (rest : List (Nat → Inbound)) (hc : s.IgtlClients = [client])
    (hs : client.ClientSocket = some sock)
    (hb : inb.bytesReceived = (IGTL_HEADER_SIZE : Int))
    (ht : inb.message.DeviceType = "GET_IMAGE") (hn : inb.message.DeviceName = none) :
    DataReceiverThread env net clock ((fun _ => inb) :: rest) s
      = some (afterHeader env clock client
          { s with DataReceiverActive := (s.DataReceiverActive.1, true) }) := by
  have htick := DataReceiverTick_returns_inside env net clock client sock inb
    { s with DataReceiverActive := (s.DataReceiverActive.1, true) } hc hs hb ht hn
  unfold DataReceiverThread receiverTicks
  simp only [htick, if_true]

theorem DataReceiverThread_flag_left_set (env : Env) (net : SendOracle) (clock : Clock)
    (client : PlusIgtlClientInfo) (sock : Socket) (inb : Inbound) (s : Server)
    (rest : List (Nat → Inbound)) (hc : s.IgtlClients = [client])
    (hs : client.ClientSocket = some sock)
    (hb : inb.bytesReceived = (IGTL_HEADER_SIZE : Int))
    (ht : inb.message.DeviceType = "GET_IMAGE") (hn : inb.message.DeviceName = none) :
    (DataReceiverThread env net clock ((fun _ => inb) :: rest) s).map
      (fun t => t.DataReceiverActive.2) = some true := by
  rw [DataReceiverThread_returns_inside env net clock client sock inb s rest hc hs hb ht hn,
    Option.map_some']
  show some (clearPreviousCommands env clock client
    { s with DataReceiverActive := (s.DataReceiverActive.1, true) }).DataReceiverActive.2
    = some true
  rw [clearPreviousCommands_flags]

/-- C18: not every return of the worker thread functions leaves the running
flag false. `DataSenderThread` sets its flag at entry and returns at line 310
with the flag still set when `GetDevices` fails or the collection is empty;
`DataReceiverThread` sets its flag at entry and returns at line 657 with the
flag still set when a GET_IMAGE header with a NULL device name arrives. The
wait loop of `StopOpenIGTLinkService` on a flag left set never ends. The
returns at the end of the functions do clear the flag, and so does every
return of `ConnectionReceiverThread` that passed `CreateServer`. -/
theorem C18_running_flag_left_set :
    (∀ env net clock devs steps s,
      DataSenderThread env net clock (PlusStatus.PLUS_FAIL, devs) steps s
        = some { s with DataSenderActive := (s.DataSenderActive.1, true) }) ∧
    (∀ env net clock steps s,
      DataSenderThread env net clock (PlusStatus.PLUS_SUCCESS, []) steps s
        = some { s with DataSenderActive := (s.DataSenderActive.1, true) }) ∧
    (DataSenderThread exampleEnv exampleNet exampleClock (PlusStatus.PLUS_SUCCESS, []) []
        { mkServer [] with DataSenderActive := (true, false) }).map
      (fun t => t.DataSenderActive.2) = some true ∧
    (DataReceiverThread exampleEnv exampleNet exampleClock [fun _ => exampleGetImage]
        { mkServer [mkClient 1 (some 7)] with DataReceiverActive := (true, false) }).map
      (fun t => t.DataReceiverActive.2) = some true ∧
    (∀ polls, stopWaitEnds true polls = false) ∧
    (DataSenderThread exampleEnv exampleNet exampleClock
        (PlusStatus.PLUS_SUCCESS, [exampleDevice]) []
        { mkServer [] with DataSenderActive := (true, false) }).map
      (fun t => t.DataSenderActive.2) = some false ∧
    (∀ env net clock s, DataReceiverThread env net clock [] s
      = some { s with DataReceiverActive := (s.DataReceiverActive.1, false) }) ∧
    (∀ clock createServer serverSocketNotNull events s,
      (ConnectionReceiverThread clock createServer serverSocketNotNull events s).1.ConnectionActive.2
        = if createServer < 0 then s.ConnectionActive.2 else false) := by
  refine ⟨?_, ?_, rfl, ?_, stopWaitEnds_running, rfl, ?_, ?_⟩
  · intro env net clock devs steps s
    simp [DataSenderThread]
  · intro env net clock steps s
    simp [DataSenderThread]
  · exact DataReceiverThread_flag_left_set exampleEnv exampleNet exampleClock
      (mkClient 1 (some 7)) 7 exampleGetImage _ [] rfl rfl rfl rfl rfl
  · intro env net clock s
    rfl
  · intro clock createServer serverSocketNotNull events s
    unfold ConnectionReceiverThread
    split <;> rfl


theorem receiveFromClient_incomplete (env : Env) (net : SendOracle) (clock : Clock)
    (client : PlusIgtlClientInfo) (sock : Socket) (inb : Inbound) (s : Server)
    (h : inb.bytesReceived ≠ (IGTL_HEADER_SIZE : Int)) :
    receiveFromClient env net clock client sock inb s
      = (clearPreviousCommands env clock client s, false) := by
  unfold receiveFromClient
  simp only
  rw [if_pos (Or.inr h)]

theorem clearPreviousCommands_other (env : Env) (clock : Clock) (client : PlusIgtlClientInfo) (s : Server)
    (c : Int) (hc : client.ClientId ≠ c) :
    (clearPreviousCommands env clock client s).LastCommandTimestamp c = s.LastCommandTimestamp c ∧
    (clearPreviousCommands env clock client s).PreviousCommands c = s.PreviousCommands c := by
  rcases clearPreviousCommands_cases env clock client s with ⟨h, _⟩ | ⟨h, _⟩ <;> rw [h]
  · exact ⟨rfl, rfl⟩
  · exact ⟨Function.update_noteq (Ne.symm hc) _ _, Function.update_noteq (Ne.symm hc) _ _⟩

theorem receiveStringCommand_other (env : Env) (client : PlusIgtlClientInfo)
    (msg : InboundMessage) (s : Server) (c : Int) (hc : client.ClientId ≠ c) :
    (receiveStringCommand env client msg s).PreviousCommands c = s.PreviousCommands c := by
  unfold receiveStringCommand
  split
  · simp only
    split
    · split
      · rfl
      · exact Function.update_noteq (Ne.symm hc) _ _
    · rfl
  · rfl

theorem dispatchMessage_other (env : Env) (net : SendOracle) (client : PlusIgtlClientInfo)
    (sock : Socket) (msg : InboundMessage) (s : Server) (c : Int)
    (hc : client.ClientId ≠ c) :
    (dispatchMessage env net client sock msg s).1.PreviousCommands c
      = s.PreviousCommands c := by
  unfold dispatchMessage
  split
  · split <;> rfl
  · split
    · rfl
    · split
      · exact receiveStringCommand_other env client msg s c hc
      · split
        · rfl
        · split
          · split <;> rfl
          · rfl

/-- An iteration that is not a complete header of client `c` keeps the
invariant. -/
theorem reacceptInv_step (env : Env) (net : SendOracle) (clock : Clock) (c : Int) (t : ℚ)
    (e : ReceiverStep) (st : Server)
    (hmid : e.client.ClientId = c → e.inbound.bytesReceived ≠ (IGTL_HEADER_SIZE : Int))
    (h : ReacceptInv c t st) :
    ReacceptInv c t (receiveFromClient env net clock e.client e.sock e.inbound st).1 := by
  by_cases hc : e.client.ClientId = c
  · rw [receiveFromClient_incomplete env net clock e.client e.sock e.inbound st (hmid hc)]
    rcases clearPreviousCommands_cases env clock e.client st with ⟨heq, _⟩ | ⟨heq, _⟩
    · show ReacceptInv c t (clearPreviousCommands env clock e.client st)
      rw [heq]
      exact h
    · right
      show (clearPreviousCommands env clock e.client st).PreviousCommands c = []
      rw [heq, ← hc]
      exact Function.update_same _ _ _
  · obtain ⟨o1, o2⟩ := clearPreviousCommands_other env clock e.client st c hc
    by_cases hb : e.inbound.bytesReceived = (IGTL_HEADER_SIZE : Int)
    · rw [receiveFromClient_complete env net clock e.client e.sock e.inbound st hb]
      have hl := (dispatchMessage_frame env net e.client e.sock e.inbound.message
        (afterHeader env clock e.client st)).2.1
      have hp := dispatchMessage_other env net e.client e.sock e.inbound.message
        (afterHeader env clock e.client st) c hc
      have hl2 : (afterHeader env clock e.client st).LastCommandTimestamp c
          = st.LastCommandTimestamp c := by
        show Function.update _ e.client.ClientId _ c = _
        rw [Function.update_noteq (Ne.symm hc)]
        exact o1
      have hp2 : (afterHeader env clock e.client st).PreviousCommands c = st.PreviousCommands c := o2
      rcases h with h | h
      · left
        rw [hl, hl2]
        exact h
      · right
        rw [hp, hp2]
        exact h
    · rw [receiveFromClient_incomplete env net clock e.client e.sock e.inbound st hb]
      rcases h with h | h
      · left
        exact o1.trans h
      · right
        exact o2.trans h

theorem reacceptInv_run (env : Env) (net : SendOracle) (clock : Clock) (c : Int) (t : ℚ)
    (mid : List ReceiverStep) (st : Server)
    (hmid : ∀ e ∈ mid, e.client.ClientId = c →
      e.inbound.bytesReceived ≠ (IGTL_HEADER_SIZE : Int))
    (h : ReacceptInv c t st) :
    ReacceptInv c t (receiverRun env net clock mid st).1 := by
  induction mid generalizing st with
  | nil => exact h
  | cons e rest ih =>
    have hstep := reacceptInv_step env net clock c t e st (hmid e (List.mem_cons_self _ _)) h
    simp only [receiverRun]
    split
    · exact hstep
    · exact ih _ (fun x hx => hmid x (List.mem_cons_of_mem _ hx)) hstep

/-- A complete header of a client establishes the invariant with the time the
header was received. -/
theorem reacceptInv_header (env : Env) (net : SendOracle) (clock : Clock)
    (client : PlusIgtlClientInfo) (sock : Socket) (inb : Inbound) (s : Server)
    (hb : inb.bytesReceived = (IGTL_HEADER_SIZE : Int)) :
    ReacceptInv client.ClientId (headerTime env clock client s)
      (receiveFromClient env net clock client sock inb s).1 := by
  left
  rw [receiveFromClient_complete env net clock client sock inb s hb,
    (dispatchMessage_frame env net client sock inb.message (afterHeader env clock client s)).2.1]
  show Function.update _ client.ClientId _ client.ClientId = _
  exact Function.update_same _ _ _

/-- A STRING command with a non-empty uid received in an iteration whose
timeout check is made more than 30 s after the time `t` of the invariant is
queued, and its uid is the only one in the client's list afterwards. -/
theorem reaccept_step (env : Env) (net : SendOracle) (clock : Clock)
    (client : PlusIgtlClientInfo) (sock : Socket) (inb : Inbound) (u : String) (t : ℚ)
    (st : Server) (hcmd : inb.isStringCommand)
    (huid : env.GetUidFromCommandDeviceName inb.message.commandDeviceName = u) (hu : u ≠ "")
    (hinv : ReacceptInv client.ClientId t st)
    (hlate : env.RoundToDouble (clock st.TimeReads - t) > CLEAR_PREVIOUS_COMMANDS_TIMEOUT_SEC) :
    (receiveFromClient env net clock client sock inb st).1.CommandQueue
      = st.CommandQueue ++ [QueuedCommand.command client.ClientId inb.message.Text
          (env.GetPrefixFromCommandDeviceName inb.message.commandDeviceName) u] ∧
    (receiveFromClient env net clock client sock inb st).1.PreviousCommands client.ClientId
      = [u] := by
  have hempty : (clearPreviousCommands env clock client st).PreviousCommands client.ClientId
      = [] := by
    rcases clearPreviousCommands_cases env clock client st with ⟨heq, hno⟩ | ⟨heq, _⟩
    · rw [heq]
      show st.PreviousCommands client.ClientId = []
      rcases hinv with h | h
      · by_contra hne
        rw [← h] at hlate
        exact hno ⟨hlate, hne⟩
      · exact h
    · rw [heq]
      exact Function.update_same _ _ _
  have hprev : (afterHeader env clock client st).PreviousCommands client.ClientId = [] := hempty
  have hq : (afterHeader env clock client st).CommandQueue = st.CommandQueue :=
    clearPreviousCommands_queue env clock client st
  rw [receiveFromClient_string_afterHeader env net clock client sock inb st hcmd,
    receiveStringCommand_accepted env client inb.message (afterHeader env clock client st)
      hcmd.2.2 (by rw [huid]; exact hu) (by rw [hprev]; simp)]
  refine ⟨?_, ?_⟩
  · show (afterHeader env clock client st).CommandQueue ++ _ = _
    rw [hq, huid]
  · show Function.update _ client.ClientId _ client.ClientId = _
    rw [Function.update_same, hprev, huid]
    rfl


/-- The example server after a first iteration in which client 1 delivered the
command `Cmd_42`, for any clock: two clock readings were taken, the header
time is the second reading, the uid 42 is known and the command is queued. -/
theorem firstCommand_accepted (clock : Clock) :
    (receiveFromClient exampleEnv exampleNet clock exampleStep.client exampleStep.sock
        exampleStep.inbound (mkServer [mkClient 1 (some 7)])).1
      = { mkServer [mkClient 1 (some 7)] with
          TimeReads := 2
          LastCommandTimestamp := Function.update (fun _ => 0) 1 (clock 1)
          PreviousCommands := Function.update (fun _ => []) 1 ["42"]
          CommandQueue := [QueuedCommand.command 1 "<Command Name=\"Ping\" />" "Cmd" "42"] } ∧
    headerTime exampleEnv clock exampleStep.client (mkServer [mkClient 1 (some 7)]) = clock 1 := by
  have hA : clearPreviousCommands exampleEnv clock exampleStep.client (mkServer [mkClient 1 (some 7)])
      = { mkServer [mkClient 1 (some 7)] with TimeReads := 1 } :=
    clearPreviousCommands_no_timeout _ _ _ _ (fun h => h.2 rfl)
  have hT : headerTime exampleEnv clock exampleStep.client (mkServer [mkClient 1 (some 7)]) = clock 1 := by
    unfold headerTime
    rw [hA]
  refine ⟨?_, hT⟩
  rw [receiveFromClient_string_afterHeader _ _ _ _ _ _ _ ⟨rfl, rfl, rfl⟩]
  have hH : afterHeader exampleEnv clock exampleStep.client (mkServer [mkClient 1 (some 7)])
      = { mkServer [mkClient 1 (some 7)] with
          TimeReads := 2
          LastCommandTimestamp := Function.update (fun _ => 0) 1 (clock 1) } := by
    unfold afterHeader headerTime
    rw [hA]
    rfl
  rw [hH]
  rw [receiveStringCommand_accepted _ _ _ _ rfl (by decide) (by
    show ¬ ("42" ∈ ([] : List String))
    simp)]
  rfl

/-- C11, amended: after a complete header of a client was received at time t
and no other complete header of that client since, a STRING command of the
client with a non-empty uid, used before or not, is queued when, in the
timeout check of the iteration that receives it, made before the header is
read, the `double` difference of the clock reading and t, as line 530
computes it, is more than `CLEAR_PREVIOUS_COMMANDS_TIMEOUT_SEC` = 30 s; the
uid list of the client was cleared by then and holds this uid only
afterwards. -/
theorem C11_reaccept_after_timeout (env : Env) (net : SendOracle) (clock : Clock)
    (sA : Server) (e1 : ReceiverStep) (mid : List ReceiverStep) (e2 : ReceiverStep)
    (u : String) (h1 : e1.inbound.bytesReceived = (IGTL_HEADER_SIZE : Int))
    (hc : e1.client.ClientId = e2.client.ClientId)
    (hmid : ∀ e ∈ mid, e.client.ClientId = e2.client.ClientId →
      e.inbound.bytesReceived ≠ (IGTL_HEADER_SIZE : Int))
    (hcmd : e2.inbound.isStringCommand)
    (huid : env.GetUidFromCommandDeviceName e2.inbound.message.commandDeviceName = u)
    (hu : u ≠ "")
    (hrun : (receiverRun env net clock (e1 :: mid) sA).2 = false)
    (hlate : env.RoundToDouble (clock (receiverRun env net clock (e1 :: mid) sA).1.TimeReads
        - headerTime env clock e1.client sA) > CLEAR_PREVIOUS_COMMANDS_TIMEOUT_SEC) :
    CLEAR_PREVIOUS_COMMANDS_TIMEOUT_SEC = 30 ∧
    (receiverRun env net clock (e1 :: mid ++ [e2]) sA).1.CommandQueue
      = (receiverRun env net clock (e1 :: mid) sA).1.CommandQueue
        ++ [QueuedCommand.command e2.client.ClientId e2.inbound.message.Text
            (env.GetPrefixFromCommandDeviceName e2.inbound.message.commandDeviceName) u] ∧
    (receiverRun env net clock (e1 :: mid ++ [e2]) sA).1.PreviousCommands e2.client.ClientId
      = [u] := by
  have hinv : ReacceptInv e2.client.ClientId (headerTime env clock e1.client sA)
      (receiverRun env net clock (e1 :: mid) sA).1 := by
    have h0 := reacceptInv_header env net clock e1.client e1.sock e1.inbound sA h1
    rw [hc] at h0
    simp only [receiverRun]
    split
    · exact h0
    · exact reacceptInv_run env net clock _ _ mid _ hmid h0
  have happ : (receiverRun env net clock (e1 :: mid ++ [e2]) sA).1
      = (receiveFromClient env net clock e2.client e2.sock e2.inbound
          (receiverRun env net clock (e1 :: mid) sA).1).1 := by
    have h := receiverRun_append env net clock (e1 :: mid) [e2] sA
    rw [hrun] at h
    simp only [Bool.false_eq_true, if_false] at h
    have h2 : e1 :: mid ++ [e2] = (e1 :: mid) ++ [e2] := rfl
    rw [h2, h, receiverRun_single]
  rw [happ]
  exact ⟨rfl, reaccept_step env net clock e2.client e2.sock e2.inbound u _ _ hcmd huid hu hinv
    hlate⟩

/-- Witness of C11: client 1 sends the command `Cmd_42` in two consecutive
iterations; the first header arrives at 1 s and the timeout check of the
second iteration reads 100 s. Both commands are queued. -/
theorem C11_reaccept_after_timeout_witness :
    (receiverRun exampleEnv exampleNet jumpClock [exampleStep, exampleStep]
        (mkServer [mkClient 1 (some 7)])).1.CommandQueue
      = [QueuedCommand.command 1 "<Command Name=\"Ping\" />" "Cmd" "42",
          QueuedCommand.command 1 "<Command Name=\"Ping\" />" "Cmd" "42"] := by
  obtain ⟨hB, hT⟩ := firstCommand_accepted jumpClock
  have hrun1 : receiverRun exampleEnv exampleNet jumpClock [exampleStep]
      (mkServer [mkClient 1 (some 7)])
      = ((receiveFromClient exampleEnv exampleNet jumpClock exampleStep.client exampleStep.sock
          exampleStep.inbound (mkServer [mkClient 1 (some 7)])).1, false) := by
    have hflag := receiverRun_string_flag exampleEnv exampleNet jumpClock exampleStep
      (mkServer [mkClient 1 (some 7)]) ⟨rfl, rfl, rfl⟩
    have hst := receiverRun_single exampleEnv exampleNet jumpClock exampleStep
      (mkServer [mkClient 1 (some 7)])
    exact Prod.ext hst hflag
  have h := (C11_reaccept_after_timeout exampleEnv exampleNet jumpClock
    (mkServer [mkClient 1 (some 7)]) exampleStep [] exampleStep "42" rfl rfl (by simp)
    ⟨rfl, rfl, rfl⟩ rfl (by decide) (by rw [hrun1])
    (by
      rw [hrun1, hT]
      show jumpClock (receiveFromClient exampleEnv exampleNet jumpClock exampleStep.client
        exampleStep.sock exampleStep.inbound (mkServer [mkClient 1 (some 7)])).1.TimeReads
        - jumpClock 1 > CLEAR_PREVIOUS_COMMANDS_TIMEOUT_SEC
      rw [hB]
      norm_num [jumpClock, CLEAR_PREVIOUS_COMMANDS_TIMEOUT_SEC])).2.1
  rw [hrun1] at h
  show (receiverRun exampleEnv exampleNet jumpClock ([exampleStep] ++ [exampleStep])
    (mkServer [mkClient 1 (some 7)])).1.CommandQueue = _
  rw [h, hB]
  rfl


theorem receiverRun_cons_of_flag (env : Env) (net : SendOracle) (clock : Clock)
    (e : ReceiverStep) (rest : List ReceiverStep) (s : Server)
    (h : (receiveFromClient env net clock e.client e.sock e.inbound s).2 = false) :
    receiverRun env net clock (e :: rest) s
      = receiverRun env net clock rest
          (receiveFromClient env net clock e.client e.sock e.inbound s).1 := by
  simp only [receiverRun, h, Bool.false_eq_true, if_false]

theorem receiveFromClient_string_flag (env : Env) (net : SendOracle) (clock : Clock)
    (client : PlusIgtlClientInfo) (sock : Socket) (inb : Inbound) (s : Server)
    (hcmd : inb.isStringCommand) :
    (receiveFromClient env net clock client sock inb s).2 = false := by
  rw [receiveFromClient_string_afterHeader env net clock client sock inb s hcmd]

/-- An iteration with a STRING command whose uid is in the client's list and
whose timeout check reads no more than 30 s after the time recorded for the
client: the command is not queued; the header time is the next reading. -/
theorem string_step_dropped (env : Env) (net : SendOracle) (clock : Clock)
    (client : PlusIgtlClientInfo) (sock : Socket) (inb : Inbound) (u : String) (s : Server)
    (hcmd : inb.isStringCommand)
    (huid : env.GetUidFromCommandDeviceName inb.message.commandDeviceName = u) (hu : u ≠ "")
    (hk : u ∈ s.PreviousCommands client.ClientId)
    (hno : ¬ (env.RoundToDouble (clock s.TimeReads - s.LastCommandTimestamp client.ClientId)
      > CLEAR_PREVIOUS_COMMANDS_TIMEOUT_SEC)) :
    (receiveFromClient env net clock client sock inb s).1.CommandQueue = s.CommandQueue ∧
    headerTime env clock client s = clock (s.TimeReads + 1) := by
  have hA := clearPreviousCommands_no_timeout env clock client s (fun h => hno h.1)
  have hT : headerTime env clock client s = clock (s.TimeReads + 1) := by
    unfold headerTime
    rw [hA]
  have hP : (afterHeader env clock client s).PreviousCommands client.ClientId
      = s.PreviousCommands client.ClientId := by
    show (clearPreviousCommands env clock client s).PreviousCommands client.ClientId = _
    rw [hA]
  refine ⟨?_, hT⟩
  rw [receiveFromClient_string_afterHeader env net clock client sock inb s hcmd,
    receiveStringCommand_dropped env client inb.message (afterHeader env clock client s)
      (by rw [huid]; exact hu) (by rw [huid, hP]; exact hk)]
  exact clearPreviousCommands_queue env clock client s

/-- An iteration with a complete GET_STATUS header whose timeout check reads no
more than 30 s after the time recorded for the client: the thread goes on,
the uid lists and the queue are as before, and the time recorded for the
client is the time the header was received. -/
theorem status_step (env : Env) (net : SendOracle) (clock : Clock)
    (client : PlusIgtlClientInfo) (sock : Socket) (inb : Inbound) (s : Server)
    (hb : inb.bytesReceived = (IGTL_HEADER_SIZE : Int))
    (ht : inb.message.DeviceType = "GET_STATUS")
    (hno : ¬ (env.RoundToDouble (clock s.TimeReads - s.LastCommandTimestamp client.ClientId)
      > CLEAR_PREVIOUS_COMMANDS_TIMEOUT_SEC)) :
    (receiveFromClient env net clock client sock inb s).2 = false ∧
    (receiveFromClient env net clock client sock inb s).1.PreviousCommands
      = s.PreviousCommands ∧
    (receiveFromClient env net clock client sock inb s).1.LastCommandTimestamp client.ClientId
      = clock (s.TimeReads + 1) ∧
    (receiveFromClient env net clock client sock inb s).1.TimeReads = s.TimeReads + 2 ∧
    (receiveFromClient env net clock client sock inb s).1.CommandQueue = s.CommandQueue := by
  have hA := clearPreviousCommands_no_timeout env clock client s (fun h => hno h.1)
  have hd : dispatchMessage env net client sock inb.message (afterHeader env clock client s)
      = ((socketSend net (afterHeader env clock client s) sock statusOkMessage
          statusOkMessage.GetPackBodySize).2, false) := by
    unfold dispatchMessage
    simp [ht]
  rw [receiveFromClient_complete env net clock client sock inb s hb, hd]
  refine ⟨rfl, ?_, ?_, ?_, ?_⟩
  · show (clearPreviousCommands env clock client s).PreviousCommands = _
    rw [hA]
  · show Function.update (clearPreviousCommands env clock client s).LastCommandTimestamp
      client.ClientId (headerTime env clock client s) client.ClientId = _
    rw [Function.update_same]
    unfold headerTime
    rw [hA]
  · show (clearPreviousCommands env clock client s).TimeReads + 1 = _
    rw [hA]
  · show (clearPreviousCommands env clock client s).CommandQueue = _
    rw [hA]


/-- C11, counterexample. Client 1 sends the command `Cmd_42` twice. First run:
the first header arrives at 1 s; the second iteration makes its timeout check
at 30.8 s, 29.8 s after the last command, and the header arrives at 31.2 s,
30.2 s after the last command: the command is not queued again. Second run:
the command arrives at 1 s, a GET_STATUS message of the client at 20 s, and
the command again at 40 s, 39 s after the last command but 20 s after the
last message: it is not queued again. -/
theorem C11_counterexample :
    (headerTime exampleEnv lateClock exampleStep.client (mkServer [mkClient 1 (some 7)]) = 1 ∧
      headerTime exampleEnv lateClock exampleStep.client
        (receiverRun exampleEnv exampleNet lateClock [exampleStep]
          (mkServer [mkClient 1 (some 7)])).1 = 156 / 5 ∧
      (156 / 5 : ℚ) - 1 > CLEAR_PREVIOUS_COMMANDS_TIMEOUT_SEC ∧
      (receiverRun exampleEnv exampleNet lateClock [exampleStep]
          (mkServer [mkClient 1 (some 7)])).1.CommandQueue
        = [QueuedCommand.command 1 "<Command Name=\"Ping\" />" "Cmd" "42"] ∧
      (receiverRun exampleEnv exampleNet lateClock [exampleStep, exampleStep]
          (mkServer [mkClient 1 (some 7)])).1.CommandQueue
        = [QueuedCommand.command 1 "<Command Name=\"Ping\" />" "Cmd" "42"]) ∧
    (headerTime exampleEnv pingClock exampleStep.client (mkServer [mkClient 1 (some 7)]) = 1 ∧
      headerTime exampleEnv pingClock exampleStep.client
        (receiverRun exampleEnv exampleNet pingClock [exampleStep, exampleStatusStep]
          (mkServer [mkClient 1 (some 7)])).1 = 40 ∧
      (40 : ℚ) - 1 > CLEAR_PREVIOUS_COMMANDS_TIMEOUT_SEC ∧
      (receiverRun exampleEnv exampleNet pingClock [exampleStep, exampleStatusStep, exampleStep]
          (mkServer [mkClient 1 (some 7)])).1.CommandQueue
        = [QueuedCommand.command 1 "<Command Name=\"Ping\" />" "Cmd" "42"]) := by
  have hflag : ∀ (clock : Clock) (s : Server), (receiveFromClient exampleEnv exampleNet clock
      exampleStep.client exampleStep.sock exampleStep.inbound s).2 = false :=
    fun clock s => receiveFromClient_string_flag exampleEnv exampleNet clock _ _ _ s
      ⟨rfl, rfl, rfl⟩
  constructor
  · obtain ⟨hB, hT⟩ := firstCommand_accepted lateClock
    have hrun1 : (receiverRun exampleEnv exampleNet lateClock [exampleStep]
        (mkServer [mkClient 1 (some 7)])).1
        = (receiveFromClient exampleEnv exampleNet lateClock exampleStep.client exampleStep.sock
            exampleStep.inbound (mkServer [mkClient 1 (some 7)])).1 :=
      receiverRun_single _ _ _ _ _
    obtain ⟨d1, d2⟩ := string_step_dropped exampleEnv exampleNet lateClock exampleStep.client
      exampleStep.sock exampleStep.inbound "42"
      (receiveFromClient exampleEnv exampleNet lateClock exampleStep.client exampleStep.sock
        exampleStep.inbound (mkServer [mkClient 1 (some 7)])).1 ⟨rfl, rfl, rfl⟩ rfl (by decide)
      (by
        rw [hB]
        show "42" ∈ Function.update (fun _ => ([] : List String)) (1 : Int) ["42"] 1
        rw [Function.update_same]
        simp)
      (by
        rw [hB]
        show ¬ (lateClock 2 - Function.update (fun _ => (0 : ℚ)) (1 : Int) (lateClock 1) 1
          > CLEAR_PREVIOUS_COMMANDS_TIMEOUT_SEC)
        rw [Function.update_same]
        norm_num [lateClock, CLEAR_PREVIOUS_COMMANDS_TIMEOUT_SEC])
    refine ⟨?_, ?_, ?_, ?_, ?_⟩
    · rw [hT]
      norm_num [lateClock]
    · rw [hrun1, d2, hB]
      norm_num [lateClock]
    · norm_num [CLEAR_PREVIOUS_COMMANDS_TIMEOUT_SEC]
    · rw [hrun1, hB]
    · rw [receiverRun_cons_of_flag _ _ _ _ _ _ (hflag lateClock _), receiverRun_single, d1, hB]
  · obtain ⟨hB, hT⟩ := firstCommand_accepted pingClock
    obtain ⟨p1, p2, p3, p4, p5⟩ := status_step exampleEnv exampleNet pingClock
      exampleStatusStep.client exampleStatusStep.sock exampleStatusStep.inbound
      (receiveFromClient exampleEnv exampleNet pingClock exampleStep.client exampleStep.sock
        exampleStep.inbound (mkServer [mkClient 1 (some 7)])).1 rfl rfl
      (by
        rw [hB]
        show ¬ (pingClock 2 - Function.update (fun _ => (0 : ℚ)) (1 : Int) (pingClock 1) 1
          > CLEAR_PREVIOUS_COMMANDS_TIMEOUT_SEC)
        rw [Function.update_same]
        norm_num [pingClock, CLEAR_PREVIOUS_COMMANDS_TIMEOUT_SEC])
    have hrun2 : receiverRun exampleEnv exampleNet pingClock [exampleStep, exampleStatusStep]
        (mkServer [mkClient 1 (some 7)])
        = ((receiveFromClient exampleEnv exampleNet pingClock exampleStatusStep.client
            exampleStatusStep.sock exampleStatusStep.inbound
            (receiveFromClient exampleEnv exampleNet pingClock exampleStep.client
              exampleStep.sock exampleStep.inbound (mkServer [mkClient 1 (some 7)])).1).1,
          false) := by
      rw [receiverRun_cons_of_flag _ _ _ _ _ _ (hflag pingClock _)]
      exact Prod.ext (receiverRun_single _ _ _ _ _) (by
        simp only [receiverRun, p1, Bool.false_eq_true, if_false])
    have hT2 : (receiveFromClient exampleEnv exampleNet pingClock exampleStatusStep.client
        exampleStatusStep.sock exampleStatusStep.inbound
        (receiveFromClient exampleEnv exampleNet pingClock exampleStep.client
          exampleStep.sock exampleStep.inbound (mkServer [mkClient 1 (some 7)])).1).1.TimeReads
        = 4 := by
      rw [p4, hB]
    obtain ⟨d1, d2⟩ := string_step_dropped exampleEnv exampleNet pingClock exampleStep.client
      exampleStep.sock exampleStep.inbound "42"
      (receiveFromClient exampleEnv exampleNet pingClock exampleStatusStep.client
        exampleStatusStep.sock exampleStatusStep.inbound
        (receiveFromClient exampleEnv exampleNet pingClock exampleStep.client
          exampleStep.sock exampleStep.inbound (mkServer [mkClient 1 (some 7)])).1).1
      ⟨rfl, rfl, rfl⟩ rfl (by decide)
      (by
        rw [p2, hB]
        show "42" ∈ Function.update (fun _ => ([] : List String)) (1 : Int) ["42"] 1
        rw [Function.update_same]
        simp)
      (by
        have p3b : (receiveFromClient exampleEnv exampleNet pingClock exampleStatusStep.client
            exampleStatusStep.sock exampleStatusStep.inbound
            (receiveFromClient exampleEnv exampleNet pingClock exampleStep.client
              exampleStep.sock exampleStep.inbound
              (mkServer [mkClient 1 (some 7)])).1).1.LastCommandTimestamp
              exampleStep.client.ClientId = pingClock 3 :=
          p3.trans (by rw [hB])
        rw [p3b, hT2]
        show ¬ (pingClock 4 - pingClock 3 > CLEAR_PREVIOUS_COMMANDS_TIMEOUT_SEC)
        norm_num [pingClock, CLEAR_PREVIOUS_COMMANDS_TIMEOUT_SEC])
    refine ⟨?_, ?_, ?_, ?_⟩
    · rw [hT]
      norm_num [pingClock]
    · rw [hrun2, d2, hT2]
      norm_num [pingClock]
    · norm_num [CLEAR_PREVIOUS_COMMANDS_TIMEOUT_SEC]
    · rw [receiverRun_cons_of_flag _ _ _ _ _ _ (hflag pingClock _),
        receiverRun_cons_of_flag _ _ _ _ _ _ p1, receiverRun_single, d1, p5, hB]


/-- On a client list in which every client has a socket `SendTrackedFrame`
returns with one visit per client, in list order; each client was offered
what the factory packed for it from the frame with the universal timestamp,
and a client that was kept was sent every non-null message offered. -/
theorem SendTrackedFrame_visits (env : Env) (net : SendOracle) (frame : TrackedFrame)
    (s : Server) (hsock : ∀ c ∈ s.IgtlClients, ∃ sock, c.ClientSocket = some sock) :
    ∃ r, SendTrackedFrame env net frame s = some r ∧
      r.status = setTransformsStatus env frame s ∧
      r.visits.map (·.client) = s.IgtlClients ∧
      ∀ v ∈ r.visits, v.offered = packForClient env (afterSetTransforms env frame s)
          (universalFrame env frame) v.client ∧
        (v.erased = false → v.records.map Prod.fst = v.offered.filterMap id) := by
  have hcl := afterSetTransforms_clients env frame s
  obtain ⟨s2, visits, evs, g1, _, g3, _, _, g6⟩ := sendFrameToClients_spec env net
    (universalFrame env frame) (afterSetTransforms env frame s).IgtlClients
    (by rw [hcl]; exact hsock) [] (afterSetTransforms env frame s) rfl
  rw [hcl] at g3
  have heq := SendTrackedFrame_eq env net frame s
  rw [g1, Option.map_some'] at heq
  exact ⟨_, heq, rfl, g3, fun v hv => ⟨(g6 v hv).1, (g6 v hv).2.2.1⟩⟩

theorem setTransformsStatus_fail_iff (env : Env) (frame : TrackedFrame) (s : Server) :
    setTransformsStatus env frame s = PlusStatus.PLUS_FAIL ↔
      ∃ repo, s.TransformRepository = some repo ∧
        (env.SetTransforms repo frame).1 ≠ PlusStatus.PLUS_SUCCESS := by
  unfold setTransformsStatus
  cases hrepo : s.TransformRepository with
  | none => simp
  | some repo =>
    by_cases hst : (env.SetTransforms repo frame).1 = PlusStatus.PLUS_SUCCESS
    · simp [hst]
    · simp [hst]

/-- What `packForClient` hands to the Message Factory, list by list: the
client's list when it is not empty, the server's default list otherwise. -/
theorem packForClient_lists (env : Env) (s : Server) (frame : TrackedFrame)
    (client : PlusIgtlClientInfo) :
    packForClient env s frame client
      = (env.PackMessages
          (if client.IgtlMessageTypes ≠ [] then client.IgtlMessageTypes
            else s.DefaultClientInfo.IgtlMessageTypes)
          frame
          (if client.TransformNames ≠ [] then client.TransformNames
            else s.DefaultClientInfo.TransformNames)
          (if client.ImageStreams ≠ [] then client.ImageStreams
            else s.DefaultClientInfo.ImageStreams)
          (if client.StringNames ≠ [] then client.StringNames
            else s.DefaultClientInfo.StringNames)
          s.SendValidTransformsOnly s.TransformRepository).2 := by
  unfold packForClient effectiveSubscription
  simp only
  rw [not_isEmpty_ite, not_isEmpty_ite, not_isEmpty_ite, not_isEmpty_ite]

theorem afterSetTransforms_settings (env : Env) (frame : TrackedFrame) (s : Server) :
    (afterSetTransforms env frame s).DefaultClientInfo = s.DefaultClientInfo ∧
    (afterSetTransforms env frame s).SendValidTransformsOnly = s.SendValidTransformsOnly := by
  unfold afterSetTransforms
  split <;> exact ⟨rfl, rfl⟩

/-- C28: in `SendTrackedFrame` on a client list in which every client has a
socket, every client is visited and, for each of the four lists separately,
the list passed to the Message Factory for it is the client's own list when
that list is not empty and the server's default list otherwise; so a client
that set only its message types is packed with its own message types and the
server's default transform names, image streams and string names. -/
theorem C28_fallback_per_list (env : Env) (net : SendOracle) (frame : TrackedFrame)
    (s : Server) (hsock : ∀ c ∈ s.IgtlClients, ∃ sock, c.ClientSocket = some sock) :
    ∃ r, SendTrackedFrame env net frame s = some r ∧
      r.visits.map (·.client) = s.IgtlClients ∧
      ∀ v ∈ r.visits,
        v.offered = (env.PackMessages
          (if v.client.IgtlMessageTypes ≠ [] then v.client.IgtlMessageTypes
            else s.DefaultClientInfo.IgtlMessageTypes)
          (universalFrame env frame)
          (if v.client.TransformNames ≠ [] then v.client.TransformNames
            else s.DefaultClientInfo.TransformNames)
          (if v.client.ImageStreams ≠ [] then v.client.ImageStreams
            else s.DefaultClientInfo.ImageStreams)
          (if v.client.StringNames ≠ [] then v.client.StringNames
            else s.DefaultClientInfo.StringNames)
          s.SendValidTransformsOnly (afterSetTransforms env frame s).TransformRepository).2 ∧
        (v.client.IgtlMessageTypes ≠ [] → v.client.TransformNames = [] →
          v.client.ImageStreams = [] → v.client.StringNames = [] →
          v.offered = (env.PackMessages v.client.IgtlMessageTypes (universalFrame env frame)
            s.DefaultClientInfo.TransformNames s.DefaultClientInfo.ImageStreams
            s.DefaultClientInfo.StringNames s.SendValidTransformsOnly
            (afterSetTransforms env frame s).TransformRepository).2) := by
  obtain ⟨r, h1, _, h3, h4⟩ := SendTrackedFrame_visits env net frame s hsock
  obtain ⟨d1, d2⟩ := afterSetTransforms_settings env frame s
  have hoff : ∀ v ∈ r.visits,
      v.offered = (env.PackMessages
        (if v.client.IgtlMessageTypes ≠ [] then v.client.IgtlMessageTypes
          else s.DefaultClientInfo.IgtlMessageTypes)
        (universalFrame env frame)
        (if v.client.TransformNames ≠ [] then v.client.TransformNames
          else s.DefaultClientInfo.TransformNames)
        (if v.client.ImageStreams ≠ [] then v.client.ImageStreams
          else s.DefaultClientInfo.ImageStreams)
        (if v.client.StringNames ≠ [] then v.client.StringNames
          else s.DefaultClientInfo.StringNames)
        s.SendValidTransformsOnly (afterSetTransforms env frame s).TransformRepository).2 := by
    intro v hv
    rw [(h4 v hv).1, packForClient_lists, d1, d2]
  refine ⟨r, h1, h3, fun v hv => ⟨hoff v hv, fun a b c d => ?_⟩⟩
  have h := hoff v hv
  rw [if_pos a, b, c, d] at h
  simpa using h

/-- Witness of C28: a client that subscribed to TRANSFORM messages only, on a
server whose defaults name one transform, one image stream and one string:
the factory is called with TRANSFORM and the three default lists. -/
theorem C28_fallback_per_list_witness :
    ∃ r, SendTrackedFrame exampleEnv exampleNet ⟨1000, 4⟩
        { mkServer [exampleSubscriber] with DefaultClientInfo := exampleDefaults } = some r ∧
      r.visits.map (·.offered)
        = [(exampleEnv.PackMessages ["TRANSFORM"] ⟨2000, 4⟩ [⟨"Probe", "Reference"⟩]
            [⟨"Image", "Reference"⟩] ["DepthMm"] true none).2] := by
  obtain ⟨r, h1, h2, h3⟩ := C28_fallback_per_list exampleEnv exampleNet ⟨1000, 4⟩
    { mkServer [exampleSubscriber] with DefaultClientInfo := exampleDefaults }
    (by simp [mkServer, exampleSubscriber])
  refine ⟨r, h1, ?_⟩
  have h0 : (SendTrackedFrame exampleEnv exampleNet ⟨1000, 4⟩
      { mkServer [exampleSubscriber] with DefaultClientInfo := exampleDefaults }).map
        (fun x => x.visits.map (·.offered))
      = some [(exampleEnv.PackMessages ["TRANSFORM"] ⟨1000 + 1000, 4⟩ [⟨"Probe", "Reference"⟩]
            [⟨"Image", "Reference"⟩] ["DepthMm"] true none).2] := rfl
  rw [h1] at h0
  have h5 : r.visits.map (·.offered)
      = [(exampleEnv.PackMessages ["TRANSFORM"] ⟨1000 + 1000, 4⟩ [⟨"Probe", "Reference"⟩]
            [⟨"Image", "Reference"⟩] ["DepthMm"] true none).2] := by
    simpa using h0
  rw [h5]
  norm_num


/-- The pieces streamed into `replyStr` (lines 1048-1055) make up the text
`<CommandReply Status="S" Message="M" />`. -/
theorem replyStr_eq (status message : String) :
    "<CommandReply" ++ " Status=\"" ++ status ++ "\"" ++ " Message=\"" ++ message ++ "\""
        ++ " />" = commandReplyText status message := by
  have e1 : "<CommandReply" ++ " Status=\"" = "<CommandReply Status=\"" := by decide
  have e2 : "\"" ++ " Message=\"" = "\" Message=\"" := by decide
  have e3 : "\"" ++ " />" = "\" />" := by decide
  unfold commandReplyText
  rw [e1, String.append_assoc _ "\"" " Message=\"", e2, String.append_assoc _ "\"" " />", e3]

/-- C22: for every string response `CreateIgtlMessageFromCommandResponse`
returns a STRING message whose device name is the response's device name and
whose text is `<CommandReply Status="S" Message="M" />`, S being SUCCESS when
the status of the response is `PLUS_SUCCESS` and FAIL otherwise, M the
XML-encoded message of the response; an image response with an empty image
name gives, when a message is returned, a message with device name
`PlusServerImage`, and one is returned when there is image data and the
packing succeeds; a response of no known kind and an image response without
image data give no message. -/
theorem C22_message_from_response (env : Env) (clock : Clock) (s : Server) :
    (∀ clientId status message deviceName,
      CreateIgtlMessageFromCommandResponse env clock s
          (CommandResponse.stringResponse clientId status message deviceName)
        = (some ⟨"STRING", deviceName,
            env.PackString (commandReplyText
              (if status = PlusStatus.PLUS_SUCCESS then "SUCCESS" else "FAIL")
              (env.EncodeString message))⟩, s)) ∧
    (∀ clientId imageData transform m,
      (CreateIgtlMessageFromCommandResponse env clock s
          (CommandResponse.imageResponse clientId "" imageData transform)).1 = some m →
        m.DeviceType = "IMAGE" ∧ m.DeviceName = "PlusServerImage") ∧
    (∀ clientId imageData transform,
      (env.PackImageMessage imageData (transform.getD Matrix4x4.identity)
          (clock s.TimeReads)).1 = PlusStatus.PLUS_SUCCESS →
      (CreateIgtlMessageFromCommandResponse env clock s
          (CommandResponse.imageResponse clientId "" (some imageData) transform)).1
        = some ⟨"IMAGE", "PlusServerImage",
            (env.PackImageMessage imageData (transform.getD Matrix4x4.identity)
              (clock s.TimeReads)).2⟩) ∧
    (∀ clientId,
      (CreateIgtlMessageFromCommandResponse env clock s (CommandResponse.other clientId)).1
        = none) ∧
    (∀ clientId imageName transform,
      (CreateIgtlMessageFromCommandResponse env clock s
          (CommandResponse.imageResponse clientId imageName none transform)).1 = none) := by
  refine ⟨?_, ?_, ?_, fun _ => rfl, fun _ _ _ => rfl⟩
  · intro clientId status message deviceName
    simp only [CreateIgtlMessageFromCommandResponse, replyStr_eq]
  · intro clientId imageData transform m h
    cases imageData with
    | none => simp [CreateIgtlMessageFromCommandResponse] at h
    | some d =>
      simp only [CreateIgtlMessageFromCommandResponse] at h
      split at h
      · simp at h
      · simp only [Option.some.injEq] at h
        rw [← h]
        exact ⟨rfl, rfl⟩
  · intro clientId imageData transform hpack
    cases transform with
    | none =>
      simp only [Option.getD_none] at hpack
      simp [CreateIgtlMessageFromCommandResponse, GetSystemTime, hpack]
      rfl
    | some t =>
      simp only [Option.getD_some] at hpack
      simp [CreateIgtlMessageFromCommandResponse, GetSystemTime, hpack]
      rfl

/-- Witness of C22: a failed command `Cmd_42` with a message; the encoder of
the example leaves the text as it is and the packed body is its length. -/
theorem C22_message_from_response_witness :
    (CreateIgtlMessageFromCommandResponse exampleEnv exampleClock (mkServer [])
        (CommandResponse.stringResponse 1 PlusStatus.PLUS_FAIL "no device" "Cmd_42")).1
      = some ⟨"STRING", "Cmd_42",
          ["<CommandReply Status=\"FAIL\" Message=\"no device\" />".length]⟩ := by
  rw [(C22_message_from_response exampleEnv exampleClock (mkServer [])).1]
  decide


/-- The retry loop on a client with a socket returns, and the sends it adds to
the history are `attemptsOf`: all `n` attempts when it leaves 0, fewer than
`n` failed attempts and the successful one otherwise. -/
theorem retrySend_attempts (net : SendOracle) (client : PlusIgtlClientInfo) (sock : Socket)
    (m : IgtlMessage) (length : Nat) (hs : client.ClientSocket = some sock) (n : Nat)
    (s : Server) :
    ∃ r k, retrySend net client m length n 0 s
        = some (r, s.withSent (attemptsOf sock m length r k)) ∧
      (r = 0 → k = n) ∧ (r ≠ 0 → k < n) := by
  rcases attempts_dichotomy net s.Sent sock m length n with hall | ⟨k, hk, hfail, hv⟩
  · refine ⟨0, n, ?_, fun _ => rfl, fun h => absurd rfl h⟩
    rw [retrySend_allFail net client sock m length hs n s hall]
    simp [attemptsOf]
  · refine ⟨_, k, ?_, fun h => absurd h hv, fun _ => hk⟩
    rw [retrySend_success net client sock m length hs n s k _ hk hfail rfl hv]
    simp [attemptsOf, hv]

theorem attemptsOf_msg (sock : Socket) (m : IgtlMessage) (length : Nat) (r : Int) (k : Nat)
    (e : SendEvent) (he : e ∈ attemptsOf sock m length r k) :
    e.socket = sock ∧ e.msg = m ∧ e.length = length := by
  unfold attemptsOf failedAttempts at he
  rcases List.mem_append.mp he with h | h
  · rw [List.eq_of_mem_replicate h]
    exact ⟨rfl, rfl, rfl⟩
  · split at h
    · simp at h
    · rw [List.mem_singleton.mp h]
      exact ⟨rfl, rfl, rfl⟩

theorem messageBlocks_cons (sock : Socket) (rec : MessageRecord) (recs : List MessageRecord)
    (k : Nat) (ks : List Nat) :
    messageBlocks sock (rec :: recs) (k :: ks)
      = attemptsOf sock rec.1 rec.1.GetPackSize rec.2 k ++ messageBlocks sock recs ks := by
  simp [messageBlocks]

theorem messageBlocks_msg (sock : Socket) (recs : List MessageRecord) (ks : List Nat)
    (e : SendEvent) (he : e ∈ messageBlocks sock recs ks) :
    e.socket = sock ∧ e.msg ∈ recs.map Prod.fst ∧ e.length = e.msg.GetPackSize := by
  unfold messageBlocks at he
  obtain ⟨p, hp, hep⟩ := List.mem_flatMap.mp he
  obtain ⟨h1, h2, h3⟩ := attemptsOf_msg _ _ _ _ _ e hep
  refine ⟨h1, ?_, by rw [h3, h2]⟩
  rw [h2]
  exact List.mem_map.mpr ⟨p.1, (List.of_mem_zip hp).1, rfl⟩

theorem attemptsOf_mem (sock : Socket) (m : IgtlMessage) (length : Nat) (r : Int) (k : Nat) :
    (r ≠ 0 → ⟨sock, m, length, r⟩ ∈ attemptsOf sock m length r k) ∧
    (r = 0 → 0 < k → ⟨sock, m, length, 0⟩ ∈ attemptsOf sock m length r k) := by
  unfold attemptsOf failedAttempts
  refine ⟨fun h => ?_, fun _ hk => ?_⟩
  · simp [h]
  · exact List.mem_append_left _ (List.mem_replicate.mpr ⟨by omega, rfl⟩)

theorem recordsBacked_mono {sock : Socket} {N : Int} {recs : List MessageRecord}
    {evs evs2 : List SendEvent} (h : RecordsBacked sock N recs evs) (hsub : evs ⊆ evs2) :
    RecordsBacked sock N recs evs2 :=
  fun rec hrec => ⟨fun hne => hsub ((h rec hrec).1 hne), fun h0 hN => hsub ((h rec hrec).2 h0 hN)⟩

/-- The message loop for a client with a socket returns, and the sends it adds
to the history are, record by record and in the order of the records, the
attempts made for the message of the record; every record is backed by a
send among them. -/
theorem sendMessagesToClient_events (net : SendOracle) (client : PlusIgtlClientInfo)
    (sock : Socket) (hs : client.ClientSocket = some sock)
    (msgs : List (Option IgtlMessage)) (d : Bool) (s : Server) :
    ∃ d2 recs ks, ks.length = recs.length ∧
      sendMessagesToClient net client msgs d s
        = some (d2, s.withSent (messageBlocks sock recs ks), recs) ∧
      RecordsBacked sock s.NumberOfRetryAttempts recs (messageBlocks sock recs ks) := by
  induction msgs generalizing s with
  | nil =>
    exact ⟨d, [], [], rfl, by simp [sendMessagesToClient, messageBlocks, withSent_nil],
      fun rec hrec => by simp at hrec⟩
  | cons x rest ih =>
    cases x with
    | none =>
      obtain ⟨d2, recs, ks, h1, h2, h3⟩ := ih s
      exact ⟨d2, recs, ks, h1, by simpa [sendMessagesToClient] using h2, h3⟩
    | some m =>
      obtain ⟨r, k, hr, hk0, _⟩ := retrySend_attempts net client sock m m.GetPackSize hs
        s.NumberOfRetryAttempts.toNat s
      have hhead : RecordsBacked sock s.NumberOfRetryAttempts [(m, r)]
          (attemptsOf sock m m.GetPackSize r k) := by
        intro rec hrec
        rw [List.mem_singleton.mp hrec]
        refine ⟨fun hne => (attemptsOf_mem sock m m.GetPackSize r k).1 hne, fun h0 hN => ?_⟩
        have hk : 0 < k := by
          rw [hk0 h0]
          omega
        have := (attemptsOf_mem sock m m.GetPackSize r k).2 h0 hk
        exact this
      by_cases hr0 : r = 0
      · refine ⟨true, [(m, r)], [k], rfl, ?_, ?_⟩
        · simp [sendMessagesToClient, hr, hr0, messageBlocks]
        · have hb : messageBlocks sock [(m, r)] [k] = attemptsOf sock m m.GetPackSize r k := by
            simp [messageBlocks]
          rw [hb]
          exact hhead
      · obtain ⟨d2, recs, ks, h1, h2, h3⟩ :=
          ih (s.withSent (attemptsOf sock m m.GetPackSize r k))
        refine ⟨d2, (m, r) :: recs, k :: ks, by simp [h1], ?_, ?_⟩
        · simp only [sendMessagesToClient, hr, hr0, if_false, h2, withSent_withSent,
            messageBlocks_cons]
        · rw [messageBlocks_cons]
          intro rec hrec
          rcases List.mem_cons.mp hrec with hh | ht
          · exact recordsBacked_mono hhead (List.subset_append_left _ _) rec
              (by rw [hh]; exact List.mem_singleton_self _)
          · exact recordsBacked_mono h3 (List.subset_append_right _ _) rec ht


theorem visitsEvents_cons (v : ClientVisit) (visits : List ClientVisit) (ks : List Nat)
    (kss : List (List Nat)) :
    visitsEvents (v :: visits) (ks :: kss) = v.events ks ++ visitsEvents visits kss := by
  simp [visitsEvents]

/-- The client loop of `SendTrackedFrame` on clients that all have a socket:
the sends it adds to the history are, client by client in the order of the
visits, the sends of that client's visit, and the records of every visit are
backed by sends among them. -/
theorem sendFrameToClients_events (env : Env) (net : SendOracle) (frame : TrackedFrame)
    (remaining : List PlusIgtlClientInfo)
    (hsock : ∀ c ∈ remaining, ∃ sock, c.ClientSocket = some sock)
    (before : List PlusIgtlClientInfo) (s : Server) :
    ∃ s2 visits kss, kss.length = visits.length ∧
      sendFrameToClients env net frame before remaining false s = some (s2, visits) ∧
      s2.Sent = s.Sent ++ visitsEvents visits kss ∧
      ∀ v ∈ visits, ∀ sock, v.client.ClientSocket = some sock →
        RecordsBacked sock s.NumberOfRetryAttempts v.records (visitsEvents visits kss) := by
  induction remaining generalizing before s with
  | nil =>
    exact ⟨s, [], [], rfl, by simp [sendFrameToClients], by simp [visitsEvents],
      fun v hv => by simp at hv⟩
  | cons client rest ih =>
    obtain ⟨sock, hs⟩ := hsock client (List.mem_cons_self _ _)
    have hrest : ∀ c ∈ rest, ∃ sock, c.ClientSocket = some sock :=
      fun c hc => hsock c (List.mem_cons_of_mem _ hc)
    obtain ⟨d2, recs, ks, _, h2, h3⟩ := sendMessagesToClient_events net client sock hs
      (packForClient env s frame client) false s
    have hback : ∀ (erased : Bool) (visits : List ClientVisit) (kss : List (List Nat)),
        (∀ v ∈ visits, ∀ sock, v.client.ClientSocket = some sock →
          RecordsBacked sock s.NumberOfRetryAttempts v.records (visitsEvents visits kss)) →
        ∀ v ∈ (⟨client, packForClient env s frame client, recs, erased⟩ : ClientVisit) :: visits,
          ∀ sock2, v.client.ClientSocket = some sock2 →
          RecordsBacked sock2 s.NumberOfRetryAttempts v.records
            (visitsEvents ((⟨client, packForClient env s frame client, recs, erased⟩
              : ClientVisit) :: visits) (ks :: kss)) := by
      intro erased visits kss hrec v hv sock2 hs2
      rw [visitsEvents_cons]
      rcases List.mem_cons.mp hv with hh | ht
      · rw [hh] at hs2 ⊢
        have hsame : sock2 = sock := Option.some.inj (hs2.symm.trans hs)
        rw [hsame]
        refine recordsBacked_mono ?_ (List.subset_append_left _ _)
        simpa [ClientVisit.events, hs] using h3
      · exact recordsBacked_mono (hrec v ht sock2 hs2) (List.subset_append_right _ _)
    cases d2 with
    | true =>
      obtain ⟨s2, visits, kss, g1, g2, g3, g4⟩ := ih hrest before
        { s.withSent (messageBlocks sock recs ks) with IgtlClients := before ++ rest }
      refine ⟨s2, ⟨client, packForClient env s frame client, recs, true⟩ :: visits, ks :: kss,
        by simp [g1], ?_, ?_, hback true visits kss g4⟩
      · simp only [sendFrameToClients, h2, if_true, g2]
      · rw [g3, visitsEvents_cons]
        simp [Server.withSent, ClientVisit.events, hs, List.append_assoc]
    | false =>
      obtain ⟨s2, visits, kss, g1, g2, g3, g4⟩ := ih hrest (before ++ [client])
        (s.withSent (messageBlocks sock recs ks))
      refine ⟨s2, ⟨client, packForClient env s frame client, recs, false⟩ :: visits, ks :: kss,
        by simp [g1], ?_, ?_, hback false visits kss g4⟩
      · simp only [sendFrameToClients, h2, Bool.false_eq_true, if_false, g2]
      · rw [g3, visitsEvents_cons]
        simp [Server.withSent, ClientVisit.events, hs, List.append_assoc]

theorem afterSetTransforms_retries (env : Env) (frame : TrackedFrame) (s : Server) :
    (afterSetTransforms env frame s).NumberOfRetryAttempts = s.NumberOfRetryAttempts := by
  unfold afterSetTransforms
  split <;> rfl

/-- The sends `SendTrackedFrame` adds to the history on a client list in
which every client has a socket: client by client in the order of the visits,
and for each client record by record; every record of every visit is backed
by a send among them. -/
theorem SendTrackedFrame_events (env : Env) (net : SendOracle) (frame : TrackedFrame)
    (s : Server) (hsock : ∀ c ∈ s.IgtlClients, ∃ sock, c.ClientSocket = some sock) :
    ∃ r kss, SendTrackedFrame env net frame s = some r ∧ kss.length = r.visits.length ∧
      r.server.Sent = s.Sent ++ visitsEvents r.visits kss ∧
      ∀ v ∈ r.visits, ∀ sock, v.client.ClientSocket = some sock →
        RecordsBacked sock s.NumberOfRetryAttempts v.records
          (visitsEvents r.visits kss) := by
  have hcl := afterSetTransforms_clients env frame s
  obtain ⟨s2, visits, kss, g1, g2, g3, g4⟩ := sendFrameToClients_events env net
    (universalFrame env frame) (afterSetTransforms env frame s).IgtlClients
    (by rw [hcl]; exact hsock) [] (afterSetTransforms env frame s)
  rw [afterSetTransforms_sent] at g3
  rw [afterSetTransforms_retries] at g4
  have heq := SendTrackedFrame_eq env net frame s
  rw [g2, Option.map_some'] at heq
  exact ⟨_, kss, heq, g1, g3, g4⟩


/-- The sends made for one command response are appended to the history, and
each of them sends the message created from the response. -/
theorem sendCommandResponse_events (env : Env) (net : SendOracle) (clock : Clock)
    (r : CommandResponse) (s : Server) :
    ∃ evs, (sendCommandResponse env net clock r s).Sent = s.Sent ++ evs ∧
      ∀ e ∈ evs, (CreateIgtlMessageFromCommandResponse env clock s r).1 = some e.msg := by
  have hc := create_sent env clock s r
  unfold sendCommandResponse
  simp only
  cases hm : (CreateIgtlMessageFromCommandResponse env clock s r).1 with
  | none => exact ⟨[], by simp [hc], by simp⟩
  | some m =>
    simp only
    split
    · obtain ⟨evs, h1, h2⟩ := broadcast_sent net m
        (CreateIgtlMessageFromCommandResponse env clock s r).2.IgtlClients
        (CreateIgtlMessageFromCommandResponse env clock s r).2
      refine ⟨evs, by rw [h1, hc], fun e he => ?_⟩
      have hcall : e.call ∈ callsToAll m
          (CreateIgtlMessageFromCommandResponse env clock s r).2.IgtlClients := by
        rw [← h2]
        exact List.mem_map.mpr ⟨e, he, rfl⟩
      unfold callsToAll at hcall
      obtain ⟨c, _, hcs⟩ := List.mem_filterMap.mp hcall
      cases hsock : c.ClientSocket with
      | none => simp [hsock] at hcs
      | some sock =>
        simp only [hsock, Option.map_some', Option.some.injEq] at hcs
        have hmsg : e.msg = m := by
          have := congrArg (fun x => x.2.1) hcs
          simpa [SendEvent.call] using this.symm
        rw [hmsg]
    · cases hg : GetClientSocket (CreateIgtlMessageFromCommandResponse env clock s r).2.IgtlClients
          r.GetClientId with
      | none => exact ⟨[], by simp [hc], by simp⟩
      | some sock =>
        refine ⟨[⟨sock, m, m.GetPackSize,
          net (CreateIgtlMessageFromCommandResponse env clock s r).2.Sent sock m
            m.GetPackSize⟩], ?_, ?_⟩
        · simp only [socketSend, hc]
        · intro e he
          rw [List.mem_singleton.mp he]

theorem sendCommandResponses_events (env : Env) (net : SendOracle) (clock : Clock)
    (rs : List CommandResponse) (s : Server) :
    ∃ evs, (sendCommandResponses env net clock rs s).Sent = s.Sent ++ evs ∧
      ∀ e ∈ evs, ∃ r ∈ rs, ∃ st,
        (CreateIgtlMessageFromCommandResponse env clock st r).1 = some e.msg := by
  induction rs generalizing s with
  | nil => exact ⟨[], by simp [sendCommandResponses], by simp⟩
  | cons r rest ih =>
    obtain ⟨evs1, a1, a2⟩ := sendCommandResponse_events env net clock r s
    obtain ⟨evs2, b1, b2⟩ := ih (sendCommandResponse env net clock r s)
    refine ⟨evs1 ++ evs2, ?_, ?_⟩
    · simp only [sendCommandResponses]
      rw [b1, a1, List.append_assoc]
    · intro e he
      rcases List.mem_append.mp he with h | h
      · exact ⟨r, List.mem_cons_self _ _, s, a2 e h⟩
      · obtain ⟨x, hx, st, hst⟩ := b2 e h
        exact ⟨x, List.mem_cons_of_mem _ hx, st, hst⟩

/-- The part of a tick before the channel is asked adds to the history the
sends of the command responses drained in the tick, and nothing else. -/
theorem tickPrologue_events (env : Env) (net : SendOracle) (clock : Clock)
    (inp : SenderTickInput) (s : Server) :
    ∃ evs, (tickPrologue env net clock inp s).2.Sent = s.Sent ++ evs ∧
      ∀ e ∈ evs, ∃ r ∈ inp.replies, ∃ st,
        (CreateIgtlMessageFromCommandResponse env clock st r).1 = some e.msg := by
  unfold tickPrologue
  simp only [GetSystemTime]
  split
  · obtain ⟨evs, h1, h2⟩ := sendCommandResponses_events env net clock inp.replies
      { s with TimeReads := s.TimeReads + 1,
               GracePeriodLogLevel := LogLevel.LOG_LEVEL_WARNING }
    exact ⟨evs, h1, h2⟩
  · obtain ⟨evs, h1, h2⟩ := sendCommandResponses_events env net clock inp.replies
      { s with TimeReads := s.TimeReads + 1 }
    exact ⟨evs, h1, h2⟩


theorem keepAliveEvents_cons (rec : PlusIgtlClientInfo × Int)
    (recs : List (PlusIgtlClientInfo × Int)) (k : Nat) (ks : List Nat) :
    keepAliveEvents (rec :: recs) (k :: ks)
      = attemptsOf (rec.1.ClientSocket.getD 0) statusOkMessage statusOkMessage.GetPackSize
          rec.2 k ++ keepAliveEvents recs ks := by
  simp [keepAliveEvents]

theorem keepAliveEvents_msg (recs : List (PlusIgtlClientInfo × Int)) (ks : List Nat)
    (e : SendEvent) (he : e ∈ keepAliveEvents recs ks) :
    e.msg = statusOkMessage ∧ e.length = statusOkMessage.GetPackSize ∧
      ∃ rec ∈ recs, rec.1.ClientSocket.getD 0 = e.socket := by
  unfold keepAliveEvents at he
  obtain ⟨p, hp, hep⟩ := List.mem_flatMap.mp he
  obtain ⟨h1, h2, h3⟩ := attemptsOf_msg _ _ _ _ _ e hep
  exact ⟨h2, h3, p.1, (List.of_mem_zip hp).1, h1.symm⟩

/-- With at least one attempt allowed, the attempts made for one message are
not empty and end with the send that gave the final `retValue`. -/
theorem attemptsOf_getLast (sock : Socket) (m : IgtlMessage) (length : Nat) (r : Int)
    (k n : Nat) (hn : 0 < n) (h0 : r = 0 → k = n) :
    (attemptsOf sock m length r k).getLast? = some ⟨sock, m, length, r⟩ := by
  unfold attemptsOf failedAttempts
  by_cases hr : r = 0
  · obtain ⟨j, hj⟩ : ∃ j, k = j + 1 := ⟨k - 1, by have := h0 hr; omega⟩
    simp [hr, hj, List.replicate_succ']
  · simp [hr]

/-- The client loop of `KeepAlive` on clients that all have a socket: it
returns, every client from the iterator on is visited once and in order, the
list afterwards is the clients passed before followed by the visited clients
whose `retValue` was not 0, and the sends added to the history are the
attempts of the records. -/
theorem keepAliveClients_spec (net : SendOracle) (n : Nat)
    (remaining : List PlusIgtlClientInfo)
    (hsock : ∀ c ∈ remaining, ∃ sock, c.ClientSocket = some sock)
    (before : List PlusIgtlClientInfo) (s : Server)
    (hn : s.NumberOfRetryAttempts.toNat = n)
    (hinv : s.IgtlClients = before ++ remaining) :
    ∃ s2 recs ks, keepAliveClients net before remaining s = some (s2, recs) ∧
      ks.length = recs.length ∧
      recs.map Prod.fst = remaining ∧
      s2.IgtlClients = before ++ keptClients recs ∧
      s2.Sent = s.Sent ++ keepAliveEvents recs ks ∧
      ∀ p ∈ recs.zip ks, (p.1.2 = 0 → p.2 = n) ∧ (p.1.2 ≠ 0 → p.2 < n) := by
  induction remaining generalizing before s with
  | nil =>
    exact ⟨s, [], [], by simp [keepAliveClients], rfl, rfl, by simpa [keptClients] using hinv,
      by simp [keepAliveEvents], by simp⟩
  | cons client rest ih =>
    obtain ⟨sock, hs⟩ := hsock client (List.mem_cons_self _ _)
    have hrest : ∀ c ∈ rest, ∃ sock, c.ClientSocket = some sock :=
      fun c hc => hsock c (List.mem_cons_of_mem _ hc)
    obtain ⟨r, k, hr, hk0, hk1⟩ := retrySend_attempts net client sock statusOkMessage
      statusOkMessage.GetPackSize hs s.NumberOfRetryAttempts.toNat s
    rw [hn] at hk0 hk1
    by_cases hr0 : r = 0
    · subst hr0
      obtain ⟨s2, recs, ks, g1, g2, g3, g4, g5, g6⟩ := ih hrest before
        { s.withSent (attemptsOf sock statusOkMessage statusOkMessage.GetPackSize 0 k)
          with IgtlClients := before ++ rest } hn rfl
      refine ⟨s2, (client, 0) :: recs, k :: ks, ?_, by simp [g2], by simp [g3], ?_, ?_, ?_⟩
      · simp [keepAliveClients, hr, g1]
      · rw [g4]
        simp [keptClients]
      · rw [g5, keepAliveEvents_cons]
        simp [Server.withSent, hs, List.append_assoc]
      · intro p hp
        rw [List.zip_cons_cons] at hp
        rcases List.mem_cons.mp hp with h | h
        · rw [h]
          exact ⟨hk0, hk1⟩
        · exact g6 p h
    · obtain ⟨s2, recs, ks, g1, g2, g3, g4, g5, g6⟩ := ih hrest (before ++ [client])
        (s.withSent (attemptsOf sock statusOkMessage statusOkMessage.GetPackSize r k)) hn
        (by simp [Server.withSent, hinv])
      refine ⟨s2, (client, r) :: recs, k :: ks, ?_, by simp [g2], by simp [g3], ?_, ?_, ?_⟩
      · simp only [keepAliveClients, hr, hr0, if_false, Bool.false_eq_true, g1]
      · rw [g4]
        simp [keptClients, hr0]
      · rw [g5, keepAliveEvents_cons]
        simp [Server.withSent, hs, List.append_assoc]
      · intro p hp
        rw [List.zip_cons_cons] at hp
        rcases List.mem_cons.mp hp with h | h
        · rw [h]
          exact ⟨hk0, hk1⟩
        · exact g6 p h

/-- The sends of a `KeepAlive` call on a client list in which every client
has a socket. -/
theorem KeepAlive_events (net : SendOracle) (s : Server)
    (hsock : ∀ c ∈ s.IgtlClients, ∃ sock, c.ClientSocket = some sock) :
    ∃ s2 recs ks, KeepAlive net s = some (PlusStatus.PLUS_SUCCESS, s2, recs) ∧
      ks.length = recs.length ∧
      recs.map Prod.fst = s.IgtlClients ∧
      s2.IgtlClients = keptClients recs ∧
      s2.Sent = s.Sent ++ keepAliveEvents recs ks ∧
      ∀ p ∈ recs.zip ks, (p.1.2 = 0 → p.2 = s.NumberOfRetryAttempts.toNat) ∧
        (p.1.2 ≠ 0 → p.2 < s.NumberOfRetryAttempts.toNat) := by
  obtain ⟨s2, recs, ks, g1, g2, g3, g4, g5, g6⟩ := keepAliveClients_spec net
    s.NumberOfRetryAttempts.toNat s.IgtlClients hsock [] s rfl rfl
  exact ⟨s2, recs, ks, by simp [KeepAlive, g1], g2, g3, by simpa using g4, g5, g6⟩


/-- C26: on a client list in which every client has a socket, `KeepAlive`
returns `PLUS_SUCCESS` with one record per client of the list it was called
on, in list order; the sends it adds to the history are, client by client,
attempts to send the whole STATUS_OK message on that client's socket; the
list afterwards is the original list without exactly the clients whose
`retValue` after the retry loop was 0, the others in their order; a
`retValue` of 0 stands for all the attempts allowed having returned 0, and
when at least one attempt is allowed the last send made for a client is the
one that returned its `retValue`. -/
theorem C26_KeepAlive_clients (net : SendOracle) (s : Server)
    (hsock : ∀ c ∈ s.IgtlClients, ∃ sock, c.ClientSocket = some sock) :
    ∃ s2 recs ks, KeepAlive net s = some (PlusStatus.PLUS_SUCCESS, s2, recs) ∧
      ks.length = recs.length ∧
      recs.map Prod.fst = s.IgtlClients ∧
      s2.IgtlClients = (recs.filter (fun r => decide (r.2 ≠ 0))).map Prod.fst ∧
      s2.IgtlClients.Sublist s.IgtlClients ∧
      (∀ c, c ∈ s2.IgtlClients ↔ ∃ r, (c, r) ∈ recs ∧ r ≠ 0) ∧
      s2.Sent = s.Sent ++ keepAliveEvents recs ks ∧
      (∀ e ∈ keepAliveEvents recs ks,
        e.msg = statusOkMessage ∧ e.length = statusOkMessage.GetPackSize) ∧
      (∀ p ∈ recs.zip ks, (p.1.2 = 0 → p.2 = s.NumberOfRetryAttempts.toNat) ∧
        (p.1.2 ≠ 0 → p.2 < s.NumberOfRetryAttempts.toNat)) ∧
      (1 ≤ s.NumberOfRetryAttempts → ∀ p ∈ recs.zip ks,
        (attemptsOf (p.1.1.ClientSocket.getD 0) statusOkMessage statusOkMessage.GetPackSize
          p.1.2 p.2).getLast?
          = some ⟨p.1.1.ClientSocket.getD 0, statusOkMessage, statusOkMessage.GetPackSize,
              p.1.2⟩) := by
  obtain ⟨s2, recs, ks, g1, g2, g3, g4, g5, g6⟩ := KeepAlive_events net s hsock
  refine ⟨s2, recs, ks, g1, g2, g3, g4, ?_, ?_, g5, ?_, g6, ?_⟩
  · rw [g4, ← g3]
    exact (List.filter_sublist recs).map Prod.fst
  · intro c
    rw [g4]
    simp only [keptClients, List.mem_map, List.mem_filter, decide_eq_true_eq]
    constructor
    · rintro ⟨p, ⟨hp, hne⟩, rfl⟩
      exact ⟨p.2, hp, hne⟩
    · rintro ⟨r, hr, hne⟩
      exact ⟨(c, r), ⟨hr, hne⟩, rfl⟩
  · intro e he
    obtain ⟨h1, h2, _⟩ := keepAliveEvents_msg recs ks e he
    exact ⟨h1, h2⟩
  · intro hn p hp
    exact attemptsOf_getLast _ _ _ _ _ s.NumberOfRetryAttempts.toNat (by omega) (g6 p hp).1

theorem C26_KeepAlive_clients_witness :
    (∀ c ∈ (mkServer [mkClient 1 (some 7), mkClient 2 (some 13),
        mkClient 3 (some 9)]).IgtlClients, ∃ sock, c.ClientSocket = some sock) ∧
    ∃ s2 recs, KeepAlive exampleNet
        (mkServer [mkClient 1 (some 7), mkClient 2 (some 13), mkClient 3 (some 9)])
        = some (PlusStatus.PLUS_SUCCESS, s2, recs) ∧
      recs.map Prod.fst = [mkClient 1 (some 7), mkClient 2 (some 13), mkClient 3 (some 9)] ∧
      s2.IgtlClients = [mkClient 1 (some 7), mkClient 3 (some 9)] ∧
      s2.Sent.length = 12 := by
  have hsock : ∀ c ∈ (mkServer [mkClient 1 (some 7), mkClient 2 (some 13),
      mkClient 3 (some 9)]).IgtlClients, ∃ sock, c.ClientSocket = some sock := by
    simp [mkServer, mkClient]
  obtain ⟨s2, recs, ks, h1, _, h3, _⟩ := C26_KeepAlive_clients exampleNet
    (mkServer [mkClient 1 (some 7), mkClient 2 (some 13), mkClient 3 (some 9)]) hsock
  have h0 : (KeepAlive exampleNet
      (mkServer [mkClient 1 (some 7), mkClient 2 (some 13), mkClient 3 (some 9)])).map
        (fun x => (x.2.1.IgtlClients, x.2.1.Sent.length))
      = some ([mkClient 1 (some 7), mkClient 3 (some 9)], 12) := rfl
  rw [h1] at h0
  simp only [Option.map_some', Option.some.injEq, Prod.mk.injEq] at h0
  exact ⟨hsock, s2, recs, h1, h3, h0.1, h0.2⟩


theorem visitsEvents_msg (visits : List ClientVisit) (kss : List (List Nat)) (e : SendEvent)
    (he : e ∈ visitsEvents visits kss) :
    ∃ v ∈ visits, e.socket = v.client.ClientSocket.getD 0 ∧ e.msg ∈ v.records.map Prod.fst := by
  unfold visitsEvents at he
  obtain ⟨p, hp, hep⟩ := List.mem_flatMap.mp he
  obtain ⟨h1, h2, _⟩ := messageBlocks_msg _ _ _ e hep
  exact ⟨p.1, (List.of_mem_zip hp).1, h1, h2⟩

/-- What `SendTrackedFrame` does with one frame on a client list in which
every client has a socket, with the sends it adds to the history. -/
theorem SendTrackedFrame_order (env : Env) (net : SendOracle) (frame : TrackedFrame)
    (s : Server) (hsock : ∀ c ∈ s.IgtlClients, ∃ sock, c.ClientSocket = some sock) :
    ∃ r kss, SendTrackedFrame env net frame s = some r ∧
      FrameSends env s.IgtlClients frame (r.visits, kss) ∧
      r.visits.map (·.client) = s.IgtlClients ∧
      r.server.Sent = s.Sent ++ visitsEvents r.visits kss ∧
      r.server.IgtlClients.Sublist s.IgtlClients := by
  obtain ⟨r, kss, h1, h2, h3, _⟩ := SendTrackedFrame_events env net frame s hsock
  obtain ⟨r2, k1, k2, _⟩ := SendTrackedFrame_total env net frame s hsock
  have hcl := afterSetTransforms_clients env frame s
  obtain ⟨s2, visits, evs, g1, _, g3, _, _, g6⟩ := sendFrameToClients_spec env net
    (universalFrame env frame) (afterSetTransforms env frame s).IgtlClients
    (by rw [hcl]; exact hsock) [] (afterSetTransforms env frame s) rfl
  rw [hcl] at g3
  have heq := SendTrackedFrame_eq env net frame s
  rw [g1, Option.map_some', h1] at heq
  have hv : r.visits = visits := by
    have := congrArg SendTrackedFrameResult.visits (Option.some.inj heq)
    simpa using this
  have hr2 : r2 = r := Option.some.inj (k1.symm.trans h1)
  rw [hr2] at k2
  refine ⟨r, kss, h1, ⟨h2, ?_, ?_⟩, ?_, h3, k2⟩
  · show (r.visits.map (·.client)).Sublist s.IgtlClients
    rw [hv, g3]
  · intro v hv2
    have hv3 : v ∈ visits := by rw [← hv]; exact hv2
    exact ⟨⟨_, (g6 v hv3).1⟩, (g6 v hv3).2.2.2.1⟩
  · rw [hv, g3]

/-- C29: whenever `SendTrackedFrame` returns, its status is `PLUS_FAIL` if and
only if a transform repository is set and `SetTransforms` on the frame does
not succeed, and `PLUS_SUCCESS` otherwise; the status is the same for every
Message Factory, every network and every client list, so pack failures, send
failures and evictions do not change it; and on a client list in which every
client has a socket the function returns, also in the failing case, after
visiting every client of the list: each client is offered what the factory
packed for it from the frame, the sends added to the history are those of
the visits, a client that is kept was sent every non-null message offered in
a send that did not return 0, and for a client that is erased the messages
up to the one whose send ended with 0 were sent; a client that was offered a
non-null message has at least one record, and every record is backed by a
send on the client's socket in the history (for a record that ended with 0
when at least one attempt is allowed). -/
theorem C29_status_of_SendTrackedFrame (env : Env) (net : SendOracle) (frame : TrackedFrame)
    (s : Server) (hsock : ∀ c ∈ s.IgtlClients, ∃ sock, c.ClientSocket = some sock) :
    (∀ r, SendTrackedFrame env net frame s = some r →
      (r.status = PlusStatus.PLUS_FAIL ↔
        ∃ repo, s.TransformRepository = some repo ∧
          (env.SetTransforms repo frame).1 ≠ PlusStatus.PLUS_SUCCESS) ∧
      (r.status ≠ PlusStatus.PLUS_FAIL → r.status = PlusStatus.PLUS_SUCCESS)) ∧
    (∀ (env2 : Env) (net2 : SendOracle) (s2 : Server) r r2,
      env2.SetTransforms = env.SetTransforms →
      s2.TransformRepository = s.TransformRepository →
      SendTrackedFrame env net frame s = some r →
      SendTrackedFrame env2 net2 frame s2 = some r2 → r2.status = r.status) ∧
    ∃ r kss, SendTrackedFrame env net frame s = some r ∧
      r.visits.map (·.client) = s.IgtlClients ∧
      kss.length = r.visits.length ∧
      r.server.Sent = s.Sent ++ visitsEvents r.visits kss ∧
      ∀ v ∈ r.visits, v.offered = packForClient env (afterSetTransforms env frame s)
          (universalFrame env frame) v.client ∧
        (v.erased = false → v.records.map Prod.fst = v.offered.filterMap id) ∧
        v.records.map Prod.fst <+: v.offered.filterMap id ∧
        (v.erased = true ↔ ∃ rec ∈ v.records, rec.2 = 0) ∧
        (v.offered.filterMap id ≠ [] → v.records ≠ []) ∧
        ∀ sock, v.client.ClientSocket = some sock → ∀ rec ∈ v.records,
          (rec.2 ≠ 0 →
            ⟨sock, rec.1, rec.1.GetPackSize, rec.2⟩ ∈ visitsEvents r.visits kss) ∧
          (rec.2 = 0 → 1 ≤ s.NumberOfRetryAttempts →
            ⟨sock, rec.1, rec.1.GetPackSize, 0⟩ ∈ visitsEvents r.visits kss) := by
  have hst : ∀ (e : Env) (n : SendOracle) (st : Server) r,
      SendTrackedFrame e n frame st = some r → r.status = setTransformsStatus e frame st :=
    fun e n st r hr => (SendTrackedFrame_returns e n frame st r hr).2.1
  refine ⟨fun r hr => ⟨?_, ?_⟩, ?_, ?_⟩
  · rw [hst env net s r hr]
    exact setTransformsStatus_fail_iff env frame s
  · intro hne
    cases hs : r.status with
    | PLUS_FAIL => exact absurd hs hne
    | PLUS_SUCCESS => rfl
  · intro env2 net2 s2 r r2 he hrepo hr hr2
    rw [hst env net s r hr, hst env2 net2 s2 r2 hr2]
    unfold setTransformsStatus
    rw [he, hrepo]
  · obtain ⟨r, kss, h1, h2, h3, h4⟩ := SendTrackedFrame_events env net frame s hsock
    have hcl := afterSetTransforms_clients env frame s
    obtain ⟨s2, visits, evs, g1, _, g3, _, _, g6⟩ := sendFrameToClients_spec env net
      (universalFrame env frame) (afterSetTransforms env frame s).IgtlClients
      (by rw [hcl]; exact hsock) [] (afterSetTransforms env frame s) rfl
    rw [hcl] at g3
    have heq := SendTrackedFrame_eq env net frame s
    rw [g1, Option.map_some', h1] at heq
    have hv : r.visits = visits := by
      have := congrArg SendTrackedFrameResult.visits (Option.some.inj heq)
      simpa using this
    refine ⟨r, kss, h1, by rw [hv, g3], h2, h3, fun v hv2 => ?_⟩
    have hv3 : v ∈ visits := by rw [← hv]; exact hv2
    obtain ⟨a1, a2, a3, a4, _⟩ := g6 v hv3
    refine ⟨a1, a3, a4, a2, fun hne => ?_, fun sock hs rec hrec => h4 v hv2 sock hs rec hrec⟩
    cases he : v.erased with
    | true =>
      obtain ⟨rec, hrec, _⟩ := a2.mp he
      exact List.ne_nil_of_mem hrec
    | false =>
      intro hnil
      have := a3 he
      rw [hnil] at this
      exact hne this.symm

/-- Witness of C29: a repository whose `SetTransforms` fails, three clients of
which the second, on socket 13, is evicted: the status is `PLUS_FAIL`, and
the history holds the send of the IMAGE message to the first client, the ten
attempts on socket 13 that returned 0, and the send to the third client. -/
theorem C29_status_of_SendTrackedFrame_witness :
    ∃ r, SendTrackedFrame { exampleEnv with
          SetTransforms := fun repo _ => (PlusStatus.PLUS_FAIL, repo) } exampleNet ⟨1000, 4⟩
        { mkServer [mkClient 1 (some 7), mkClient 2 (some 13), mkClient 3 (some 9)] with
          TransformRepository := some 0 } = some r ∧
      r.status = PlusStatus.PLUS_FAIL ∧ r.visits.length = 3 ∧
      r.server.Sent.map (fun e => (e.socket, e.msg.DeviceType, e.ret))
        = [(7, "IMAGE", 59)] ++ List.replicate 10 (13, "IMAGE", 0) ++ [(9, "IMAGE", 59)] := by
  obtain ⟨h1, _, r, kss, hr, hv, _⟩ := C29_status_of_SendTrackedFrame
    { exampleEnv with SetTransforms := fun repo _ => (PlusStatus.PLUS_FAIL, repo) }
    exampleNet ⟨1000, 4⟩
    { mkServer [mkClient 1 (some 7), mkClient 2 (some 13), mkClient 3 (some 9)] with
      TransformRepository := some 0 }
    (by simp [mkServer, mkClient])
  have h0 : (SendTrackedFrame { exampleEnv with
        SetTransforms := fun repo _ => (PlusStatus.PLUS_FAIL, repo) } exampleNet ⟨1000, 4⟩
      { mkServer [mkClient 1 (some 7), mkClient 2 (some 13), mkClient 3 (some 9)] with
        TransformRepository := some 0 }).map
        (fun x => x.server.Sent.map (fun e => (e.socket, e.msg.DeviceType, e.ret)))
      = some ([(7, "IMAGE", 59)] ++ List.replicate 10 (13, "IMAGE", 0) ++ [(9, "IMAGE", 59)]) :=
    rfl
  rw [hr] at h0
  refine ⟨r, hr, (h1 r hr).1.mpr ⟨0, rfl, by simp⟩, ?_, by simpa using h0⟩
  have hlen := congrArg List.length hv
  simpa [mkServer] using hlen


/-- The frame loop on a client list in which every client has a socket: it
returns, and the sends it adds to the history are those of the frames, one
frame after the other in the order of the list. -/
theorem sendTrackedFrames_events (env : Env) (net : SendOracle) (frames : List TrackedFrame)
    (clients : List PlusIgtlClientInfo) (s : Server)
    (hsub : s.IgtlClients.Sublist clients)
    (hsock : ∀ c ∈ s.IgtlClients, ∃ sock, c.ClientSocket = some sock) :
    ∃ t rs, sendTrackedFrames env net frames s = some t ∧
      List.Forall₂ (FrameSends env clients) frames rs ∧
      t.Sent = s.Sent ++ framesEvents rs := by
  induction frames generalizing s with
  | nil => exact ⟨s, [], rfl, List.Forall₂.nil, by simp [framesEvents]⟩
  | cons frame rest ih =>
    obtain ⟨r, kss, h1, ⟨a1, a2, a3⟩, _, h3, h4⟩ := SendTrackedFrame_order env net frame s hsock
    obtain ⟨t, rs, g1, g2, g3⟩ := ih { r.server with elapsedTimeSinceLastPacketSentSec := 0 }
      (h4.trans hsub) (fun c hc => hsock c (h4.subset hc))
    refine ⟨t, (r.visits, kss) :: rs, by simp only [sendTrackedFrames, h1, g1],
      List.Forall₂.cons ⟨a1, a2.trans hsub, a3⟩ g2, ?_⟩
    rw [g3]
    simp only [framesEvents, List.flatMap_cons] at *
    rw [h3, List.append_assoc]

/-- Every send of a frame loop carries a message the Message Factory packed
for one of the clients from one of the frames. -/
theorem framesEvents_msg (env : Env) (clients : List PlusIgtlClientInfo)
    (frames : List TrackedFrame) (rs : List (List ClientVisit × List (List Nat)))
    (h : List.Forall₂ (FrameSends env clients) frames rs) (e : SendEvent)
    (he : e ∈ framesEvents rs) :
    ∃ f ∈ frames, ∃ st, ∃ c ∈ clients,
      some e.msg ∈ packForClient env st (universalFrame env f) c := by
  induction h with
  | nil => simp [framesEvents] at he
  | @cons f p fs ps hp _ ih =>
    simp only [framesEvents, List.flatMap_cons, List.mem_append] at he
    rcases he with he | he
    · obtain ⟨v, hv, _, hm⟩ := visitsEvents_msg p.1 p.2 e he
      obtain ⟨_, hsub, hall⟩ := hp
      obtain ⟨⟨st, hoff⟩, hpre⟩ := hall v hv
      have hm2 : e.msg ∈ v.offered.filterMap id := hpre.subset hm
      have hm3 : some e.msg ∈ v.offered := by
        obtain ⟨x, hx, hxe⟩ := List.mem_filterMap.mp hm2
        simp only [id] at hxe
        rw [← hxe]
        exact hx
      refine ⟨f, List.mem_cons_self _ _, st, v.client, ?_, ?_⟩
      · exact hsub.subset (List.mem_map.mpr ⟨v, hv, rfl⟩)
      · rw [← hoff]
        exact hm3
    · obtain ⟨g, hg, st, c, hc, hmem⟩ := ih he
      exact ⟨g, List.mem_cons_of_mem _ hg, st, c, hc, hmem⟩


/-- C25: in every sender tick on a non-empty client list in which every
client has a socket, the sends added to the history are first the sends made
for the command responses drained in the tick (each carries a message created
from one of them) and after all of them the sends of the rest of the tick;
when the tick got frames these are the sends of `SendTrackedFrame`, frame by
frame, for each frame client by client, and for each client the messages are
the first of the non-null messages the Message Factory returned for it, in
the order it returned them (retries of a message next to each other); when
the tick got no frame they are keep-alive STATUS messages. -/
theorem C25_send_order (env : Env) (net : SendOracle) (clock : Clock) (inp : SenderTickInput)
    (s : Server) (hne : s.IgtlClients ≠ [])
    (hsock : ∀ c ∈ s.IgtlClients, ∃ sock, c.ClientSocket = some sock) :
    ∃ t respEvs rs lateEvs,
      (DataSenderTick env net clock inp s).2 = some t ∧
      (tickPrologue env net clock inp s).2.Sent = s.Sent ++ respEvs ∧
      (∀ e ∈ respEvs, ∃ r ∈ inp.replies, ∃ st,
        (CreateIgtlMessageFromCommandResponse env clock st r).1 = some e.msg) ∧
      t.Sent = s.Sent ++ respEvs ++ lateEvs ∧
      (tickFrames env net clock inp s ≠ [] →
        lateEvs = framesEvents rs ∧
        List.Forall₂ (FrameSends env s.IgtlClients) (tickFrames env net clock inp s) rs ∧
        ∀ e ∈ lateEvs, ∃ f ∈ tickFrames env net clock inp s, ∃ st, ∃ c ∈ s.IgtlClients,
          some e.msg ∈ packForClient env st (universalFrame env f) c) ∧
      (tickFrames env net clock inp s = [] → ∀ e ∈ lateEvs, e.msg = statusOkMessage) := by
  obtain ⟨respEvs, hp1, hp2⟩ := tickPrologue_events env net clock inp s
  obtain ⟨p1, _⟩ := sameMembers_tickPrologue env net clock inp s
  have hshape := acquire_shape inp.channel (tickPrologue env net clock inp s).2
  have hA1 : (acquireTrackedFrames inp.channel (tickPrologue env net clock inp s).2).1.IgtlClients
      = s.IgtlClients := by rw [hshape]; exact p1
  have hA2 : (acquireTrackedFrames inp.channel (tickPrologue env net clock inp s).2).1.Sent
      = s.Sent ++ respEvs := by rw [hshape]; exact hp1
  rw [tick_eq env net clock inp s hne]
  generalize (acquireTrackedFrames inp.channel (tickPrologue env net clock inp s).2).1 = A
    at hA1 hA2 ⊢
  generalize (tickPrologue env net clock inp s).1 = start
  cases hf : tickFrames env net clock inp s with
  | nil =>
    rw [tickEpilogue_nil]
    by_cases hk : env.RoundToDouble (1000 * env.RoundToDouble
        (A.elapsedTimeSinceLastPacketSentSec + env.RoundToDouble (clock A.TimeReads - start)))
        > 250
    · obtain ⟨s2, recs, ks, k1, _, _, _, k5, _⟩ := KeepAlive_events net
        { A with TimeReads := A.TimeReads + 1,
                 elapsedTimeSinceLastPacketSentSec :=
                   env.RoundToDouble (A.elapsedTimeSinceLastPacketSentSec
                     + env.RoundToDouble (clock A.TimeReads - start)) }
        (by rw [← hA1] at hsock; exact hsock)
      simp only [hk, if_true, k1, Option.map_some']
      refine ⟨_, respEvs, [], keepAliveEvents recs ks, rfl, hp1, hp2, ?_,
        fun h => absurd rfl h, fun _ e he => (keepAliveEvents_msg recs ks e he).1⟩
      show s2.Sent = _
      rw [k5]
      show A.Sent ++ _ = _
      rw [hA2]
    · simp only [hk, if_false]
      exact ⟨_, respEvs, [], [], rfl, hp1, hp2, by simpa using hA2,
        fun h => absurd rfl h, fun _ e he => by simp at he⟩
  | cons frame rest =>
    rw [tickEpilogue_cons]
    obtain ⟨t, rs, g1, g2, g3⟩ := sendTrackedFrames_events env net (frame :: rest)
      s.IgtlClients A (by rw [hA1]) (by rw [← hA1] at hsock; exact hsock)
    rw [g1]
    simp only [Option.map_some']
    refine ⟨_, respEvs, rs, framesEvents rs, rfl, hp1, hp2, ?_,
      fun _ => ⟨rfl, g2, fun e he => framesEvents_msg env s.IgtlClients _ rs g2 e he⟩,
      fun h => by simp at h⟩
    show t.Sent = _
    rw [g3, hA2]


/-- Witness of C25: a tick that drains the reply to the command `Cmd_42` and
gets five frames from the channel, with one client: the history after the
tick is the sends of the reply followed by the sends of the frame messages. -/
theorem C25_send_order_witness :
    ∃ t respEvs lateEvs,
      (DataSenderTick exampleEnv exampleNet exampleClock
        ⟨[CommandResponse.stringResponse 1 PlusStatus.PLUS_FAIL "no device" "Cmd_42"],
          historyChannel⟩ (mkServer [mkClient 1 (some 7)])).2 = some t ∧
      t.Sent = respEvs ++ lateEvs ∧
      (∀ e ∈ respEvs, e.msg.DeviceName = "Cmd_42") ∧
      (∀ e ∈ lateEvs, e.msg.DeviceName = "PlusServerImage") := by
  obtain ⟨t, respEvs, rs, lateEvs, h1, _, h3, h4, h5, _⟩ := C25_send_order exampleEnv
    exampleNet exampleClock
    ⟨[CommandResponse.stringResponse 1 PlusStatus.PLUS_FAIL "no device" "Cmd_42"],
      historyChannel⟩ (mkServer [mkClient 1 (some 7)]) (by simp [mkServer])
    (by simp [mkServer, mkClient])
  have hfr : tickFrames exampleEnv exampleNet exampleClock
      ⟨[CommandResponse.stringResponse 1 PlusStatus.PLUS_FAIL "no device" "Cmd_42"],
        historyChannel⟩ (mkServer [mkClient 1 (some 7)])
      = [⟨21, 1⟩, ⟨22, 2⟩, ⟨23, 3⟩, ⟨24, 4⟩, ⟨25, 5⟩] := by
    rw [tickFrames_history exampleEnv exampleNet exampleClock _ _ rfl
      (by norm_num [mkServer])]
    rfl
  refine ⟨t, respEvs, lateEvs, h1, by simpa [mkServer] using h4, ?_, ?_⟩
  · intro e he
    obtain ⟨r, hr, st, hc⟩ := h3 e he
    rw [List.mem_singleton.mp hr] at hc
    simp only [CreateIgtlMessageFromCommandResponse, Option.some.injEq] at hc
    rw [← hc]
  · intro e he
    obtain ⟨_, _, hall⟩ := h5 (by rw [hfr]; simp)
    obtain ⟨f, _, st, c, _, hm⟩ := hall e he
    simp only [packForClient, exampleEnv, List.mem_map, Option.some.injEq] at hm
    obtain ⟨ty, _, hty⟩ := hm
    rw [← hty]


theorem updateFirst_length {α : Type} (p : α → Bool) (f : α → α) (l : List α) :
    (updateFirst p f l).length = l.length := by
  induction l with
  | nil => rfl
  | cons a rest ih =>
    unfold updateFirst
    split
    · rfl
    · simp [ih]

/-- Updating the first match by a function that keeps a key keeps the keys of
the list, in their order. -/
theorem updateFirst_map_key {α β : Type} (p : α → Bool) (f : α → α) (key : α → β)
    (hf : ∀ a, key (f a) = key a) (l : List α) :
    (updateFirst p f l).map key = l.map key := by
  induction l with
  | nil => rfl
  | cons a rest ih =>
    unfold updateFirst
    split
    · simp [hf]
    · simp [ih]

theorem clearPreviousCommands_clients (env : Env) (clock : Clock) (client : PlusIgtlClientInfo)
    (s : Server) : (clearPreviousCommands env clock client s).IgtlClients = s.IgtlClients := by
  rcases clearPreviousCommands_cases env clock client s with ⟨h, _⟩ | ⟨h, _⟩ <;> rw [h]

theorem afterHeader_clients (env : Env) (clock : Clock) (client : PlusIgtlClientInfo) (s : Server) :
    (afterHeader env clock client s).IgtlClients = s.IgtlClients ∧
    (afterHeader env clock client s).CommandQueue = s.CommandQueue :=
  ⟨clearPreviousCommands_clients env clock client s, clearPreviousCommands_queue env clock client s⟩

theorem receiveStringCommand_clients (env : Env) (client : PlusIgtlClientInfo)
    (msg : InboundMessage) (s : Server) :
    (receiveStringCommand env client msg s).IgtlClients = s.IgtlClients := by
  unfold receiveStringCommand
  split
  · simp only
    split
    · split <;> rfl
    · rfl
  · rfl

/-- The client list after the dispatch of a complete header: only an unpacked
CLIENTINFO message touches it, through the update of the first entry equal
to the client. -/
theorem dispatchMessage_clients (env : Env) (net : SendOracle) (client : PlusIgtlClientInfo)
    (sock : Socket) (msg : InboundMessage) (s : Server) :
    (dispatchMessage env net client sock msg s).1.IgtlClients
      = if msg.DeviceType = "CLIENTINFO" ∧ msg.unpackBody = true then
          updateFirst (fun c => env.ClientEquals c client)
            (fun c => env.ShallowCopy c msg.ClientInfo) s.IgtlClients
        else s.IgtlClients := by
  unfold dispatchMessage
  by_cases h1 : msg.DeviceType = "CLIENTINFO"
  · by_cases h2 : msg.unpackBody = true
    · simp [h1, h2]
    · simp [h1, h2]
  · simp only [h1, if_false, false_and]
    split
    · rfl
    · split
      · exact receiveStringCommand_clients env client msg s
      · split
        · rfl
        · split
          · split <;> rfl
          · rfl

/-- The client list after one execution of the receiver loop body. -/
theorem receiveFromClient_clients (env : Env) (net : SendOracle) (clock : Clock)
    (client : PlusIgtlClientInfo) (sock : Socket) (inb : Inbound) (s : Server) :
    (receiveFromClient env net clock client sock inb s).1.IgtlClients
      = if inb.bytesReceived = (IGTL_HEADER_SIZE : Int) ∧ inb.message.DeviceType = "CLIENTINFO"
            ∧ inb.message.unpackBody = true then
          updateFirst (fun c => env.ClientEquals c client)
            (fun c => env.ShallowCopy c inb.message.ClientInfo) s.IgtlClients
        else s.IgtlClients := by
  by_cases hb : inb.bytesReceived = (IGTL_HEADER_SIZE : Int)
  · rw [receiveFromClient_complete env net clock client sock inb s hb, dispatchMessage_clients,
      (afterHeader_clients env clock client s).1]
    simp [hb]
  · rw [receiveFromClient_incomplete env net clock client sock inb s hb]
    simp [hb, clearPreviousCommands_clients]

/-- A complete header of a type the receiver does not know changes neither
the queue nor the client list and the loop goes on. -/
theorem dispatchMessage_unknown (env : Env) (net : SendOracle) (client : PlusIgtlClientInfo)
    (sock : Socket) (msg : InboundMessage) (s : Server)
    (h : msg.DeviceType ∉ ["CLIENTINFO", "GET_STATUS", "STRING", "GET_IMGMETA", "GET_IMAGE"]) :
    dispatchMessage env net client sock msg s = (s, false) := by
  simp only [List.mem_cons, List.mem_singleton, List.not_mem_nil, or_false, not_or] at h
  obtain ⟨h1, h2, h3, h4, h5⟩ := h
  simp [dispatchMessage, h1, h2, h3, h4, h5]

/-- C27: the receiver never changes which clients are connected, provided the
copy of a subscription into an entry (`ShallowCopy`) keeps the id of the
entry. For every execution of the loop body (no data, a short read, or a
complete header of any type) the ids of the client list and their order are
the same afterwards; the list itself is the same unless an unpacked
CLIENTINFO arrived; after a read that is not a complete header and after a
complete header of an unknown type the client list and the command queue are
as before and the loop goes on; and the ids are the same after every sequence
of executions of the loop body. -/
theorem C27_receiver_keeps_clients (env : Env) (net : SendOracle) (clock : Clock)
    (hid : ∀ dst src, (env.ShallowCopy dst src).ClientId = dst.ClientId) :
    (∀ client sock inb s,
      (receiveFromClient env net clock client sock inb s).1.IgtlClients.map (·.ClientId)
          = s.IgtlClients.map (·.ClientId) ∧
      (receiveFromClient env net clock client sock inb s).1.IgtlClients.length
          = s.IgtlClients.length ∧
      (¬ (inb.bytesReceived = (IGTL_HEADER_SIZE : Int) ∧ inb.message.DeviceType = "CLIENTINFO"
            ∧ inb.message.unpackBody = true) →
        (receiveFromClient env net clock client sock inb s).1.IgtlClients = s.IgtlClients) ∧
      (inb.bytesReceived ≠ (IGTL_HEADER_SIZE : Int) →
        (receiveFromClient env net clock client sock inb s).1.IgtlClients = s.IgtlClients ∧
        (receiveFromClient env net clock client sock inb s).1.CommandQueue = s.CommandQueue ∧
        (receiveFromClient env net clock client sock inb s).2 = false) ∧
      (inb.bytesReceived = (IGTL_HEADER_SIZE : Int) →
        inb.message.DeviceType
          ∉ ["CLIENTINFO", "GET_STATUS", "STRING", "GET_IMGMETA", "GET_IMAGE"] →
        (receiveFromClient env net clock client sock inb s).1.IgtlClients = s.IgtlClients ∧
        (receiveFromClient env net clock client sock inb s).1.CommandQueue = s.CommandQueue ∧
        (receiveFromClient env net clock client sock inb s).2 = false)) ∧
    (∀ steps s,
      (receiverRun env net clock steps s).1.IgtlClients.map (·.ClientId)
        = s.IgtlClients.map (·.ClientId)) := by
  have hstep : ∀ client sock inb s,
      (receiveFromClient env net clock client sock inb s).1.IgtlClients.map (·.ClientId)
        = s.IgtlClients.map (·.ClientId) := by
    intro client sock inb s
    rw [receiveFromClient_clients]
    split
    · exact updateFirst_map_key _ _ _ (fun a => hid a _) _
    · rfl
  refine ⟨fun client sock inb s => ⟨hstep client sock inb s, ?_, ?_, ?_, ?_⟩, ?_⟩
  · rw [receiveFromClient_clients]
    split
    · exact updateFirst_length _ _ _
    · rfl
  · intro h
    rw [receiveFromClient_clients, if_neg h]
  · intro h
    rw [receiveFromClient_incomplete env net clock client sock inb s h]
    exact ⟨clearPreviousCommands_clients env clock client s,
      clearPreviousCommands_queue env clock client s, rfl⟩
  · intro hb ht
    rw [receiveFromClient_complete env net clock client sock inb s hb,
      dispatchMessage_unknown env net client sock inb.message _ ht]
    exact ⟨(afterHeader_clients env clock client s).1, (afterHeader_clients env clock client s).2, rfl⟩
  · intro steps
    induction steps with
    | nil => intro s; rfl
    | cons e rest ih =>
      intro s
      simp only [receiverRun]
      split
      · exact hstep e.client e.sock e.inbound s
      · rw [ih, hstep]

/-- Witness of C27: client 2 sends a CLIENTINFO message; the ids of the list
are 1 and 2 as before. -/
theorem C27_receiver_keeps_clients_witness :
    (∀ dst src, (exampleEnv.ShallowCopy dst src).ClientId = dst.ClientId) ∧
    (receiveFromClient exampleEnv exampleNet exampleClock (mkClient 2 (some 9)) 9
        exampleClientInfo (mkServer [mkClient 1 (some 7), mkClient 2 (some 9)])).1.IgtlClients.map
      (·.ClientId) = [1, 2] :=
  ⟨fun _ _ => rfl,
    ((C27_receiver_keeps_clients exampleEnv exampleNet exampleClock (fun _ _ => rfl)).1
      (mkClient 2 (some 9)) 9 exampleClientInfo
      (mkServer [mkClient 1 (some 7), mkClient 2 (some 9)])).1⟩


theorem applySubscription_ids (id : Int) (info : PlusIgtlClientInfo)
    (clients : List PlusIgtlClientInfo) :
    (applySubscription id info clients).map (·.ClientId) = clients.map (·.ClientId) ∧
    (applySubscription id info clients).map (·.ClientSocket)
      = clients.map (·.ClientSocket) := by
  unfold applySubscription
  constructor
  · rw [List.map_map]
    apply List.map_congr_left
    intro c _
    simp only [Function.comp]
    split <;> rfl
  · rw [List.map_map]
    apply List.map_congr_left
    intro c _
    simp only [Function.comp]
    split <;> rfl

theorem applySubscription_absent (id : Int) (info : PlusIgtlClientInfo)
    (clients : List PlusIgtlClientInfo) (h : id ∉ clients.map (·.ClientId)) :
    applySubscription id info clients = clients := by
  unfold applySubscription
  conv_rhs => rw [← List.map_id clients]
  apply List.map_congr_left
  intro c hc
  have hne : c.ClientId ≠ id := fun heq => h (heq ▸ List.mem_map.mpr ⟨c, hc, rfl⟩)
  simp [hne]

/-- A second subscription for the same id replaces the first. -/
theorem applySubscription_twice (id : Int) (info1 info2 : PlusIgtlClientInfo)
    (clients : List PlusIgtlClientInfo) :
    applySubscription id info2 (applySubscription id info1 clients)
      = applySubscription id info2 clients := by
  unfold applySubscription
  rw [List.map_map]
  apply List.map_congr_left
  intro c _
  simp only [Function.comp]
  by_cases h : c.ClientId = id
  · have h2 : (c.withSubscription info1).ClientId = id := h
    simp only [h, if_true, h2]
    rfl
  · simp [h]

/-- Under the contract of the registry and with ids that are unique in the
list, the update through `std::find` is `applySubscription` for the id of
the client. -/
theorem updateFirst_applySubscription (env : Env) (hc : env.RegistryContract)
    (client info : PlusIgtlClientInfo) (clients : List PlusIgtlClientInfo)
    (hnodup : (clients.map (·.ClientId)).Nodup) :
    updateFirst (fun c => env.ClientEquals c client) (fun c => env.ShallowCopy c info) clients
      = applySubscription client.ClientId info clients := by
  induction clients with
  | nil => rfl
  | cons a rest ih =>
    rw [List.map_cons, List.nodup_cons] at hnodup
    unfold updateFirst
    by_cases ha : a.ClientId = client.ClientId
    · have hp : env.ClientEquals a client = true := (hc.1 a client).mpr ha
      rw [if_pos hp, hc.2]
      have hrest := applySubscription_absent client.ClientId info rest (ha ▸ hnodup.1)
      simp only [applySubscription, List.map_cons, ha, if_true] at hrest ⊢
      rw [hrest]
    · have hp : ¬ env.ClientEquals a client = true := fun h => ha ((hc.1 a client).mp h)
      rw [if_neg hp, ih hnodup.2]
      simp [applySubscription, ha]

/-- An unpacked CLIENTINFO message under the contract of the registry. -/
theorem clientInfo_step (env : Env) (net : SendOracle) (clock : Clock)
    (hc : env.RegistryContract) (client : PlusIgtlClientInfo) (sock : Socket) (m : Inbound)
    (s : Server) (hm : m.isClientInfo) (hnodup : (s.IgtlClients.map (·.ClientId)).Nodup) :
    (receiveFromClient env net clock client sock m s).1.IgtlClients
      = applySubscription client.ClientId m.message.ClientInfo s.IgtlClients := by
  have hm2 : m.bytesReceived = (IGTL_HEADER_SIZE : Int) ∧ m.message.DeviceType = "CLIENTINFO"
      ∧ m.message.unpackBody = true := hm
  rw [receiveFromClient_clients, if_pos hm2,
    updateFirst_applySubscription env hc client _ _ hnodup]

/-- C21: under the contract of the registry (entries compared by id,
`ShallowCopy` overwrites the four subscription lists) and with ids unique in
the client list: after two unpacked CLIENTINFO messages `m1` then `m2` of a
client the list is the original list with the subscription of `m2` applied
to the client's entry, the same as after `m2` alone; every entry with the
client's id carries the subscription of `m2`; ids, sockets and the number of
entries are as before; every entry of another client stays at its place
unchanged; and when no entry has the client's id the list stays as it is
after each of the messages. -/
theorem C21_clientinfo_converges (env : Env) (net : SendOracle) (clock : Clock)
    (hc : env.RegistryContract) (client client2 : PlusIgtlClientInfo) (sock sock2 : Socket)
    (m1 m2 : Inbound) (s : Server) (h1 : m1.isClientInfo) (h2 : m2.isClientInfo)
    (hsame : client2.ClientId = client.ClientId)
    (hnodup : (s.IgtlClients.map (·.ClientId)).Nodup) :
    let s1 := (receiveFromClient env net clock client sock m1 s).1
    let s2 := (receiveFromClient env net clock client2 sock2 m2 s1).1
    s2.IgtlClients = applySubscription client.ClientId m2.message.ClientInfo s.IgtlClients ∧
    s2.IgtlClients = (receiveFromClient env net clock client sock m2 s).1.IgtlClients ∧
    (∀ c ∈ s2.IgtlClients, c.ClientId = client.ClientId →
      c.subscription = m2.message.ClientInfo.subscription) ∧
    s2.IgtlClients.map (·.ClientId) = s.IgtlClients.map (·.ClientId) ∧
    s2.IgtlClients.map (·.ClientSocket) = s.IgtlClients.map (·.ClientSocket) ∧
    s2.IgtlClients.length = s.IgtlClients.length ∧
    (∀ (i : Nat) (c : PlusIgtlClientInfo), s.IgtlClients[i]? = some c →
        c.ClientId ≠ client.ClientId →
      s2.IgtlClients[i]? = some c) ∧
    (client.ClientId ∉ s.IgtlClients.map (·.ClientId) →
      s1.IgtlClients = s.IgtlClients ∧ s2.IgtlClients = s.IgtlClients) := by
  intro s1 s2
  have e1 : s1.IgtlClients = applySubscription client.ClientId m1.message.ClientInfo
      s.IgtlClients := clientInfo_step env net clock hc client sock m1 s h1 hnodup
  have hn1 : (s1.IgtlClients.map (·.ClientId)).Nodup := by
    rw [e1, (applySubscription_ids _ _ _).1]
    exact hnodup
  have e2 : s2.IgtlClients = applySubscription client.ClientId m2.message.ClientInfo
      s.IgtlClients := by
    have := clientInfo_step env net clock hc client2 sock2 m2 s1 h2 hn1
    rw [this, hsame, e1, applySubscription_twice]
  refine ⟨e2, ?_, ?_, ?_, ?_, ?_, ?_, ?_⟩
  · rw [e2, clientInfo_step env net clock hc client sock m2 s h2 hnodup]
  · intro c hmem hcid
    rw [e2] at hmem
    obtain ⟨a, _, ha⟩ := List.mem_map.mp hmem
    by_cases hid : a.ClientId = client.ClientId
    · rw [if_pos hid] at ha
      rw [← ha]
      rfl
    · rw [if_neg hid] at ha
      exact absurd (ha ▸ hcid) hid
  · rw [e2, (applySubscription_ids _ _ _).1]
  · rw [e2, (applySubscription_ids _ _ _).2]
  · rw [e2]
    simp [applySubscription]
  · intro i c hi hne
    rw [e2]
    simp [applySubscription, List.getElem?_map, hi, hne]
  · intro habs
    exact ⟨by rw [e1, applySubscription_absent _ _ _ habs],
      by rw [e2, applySubscription_absent _ _ _ habs]⟩


theorem exampleEnv_registryContract : exampleEnv.RegistryContract :=
  ⟨fun a b => by simp [exampleEnv], fun _ _ => rfl⟩

/-- Witness of C21: client 2 subscribes to TRANSFORM messages and then sends
the lists of `exampleDefaults`; its entry ends with these and the entry of
client 1 is untouched. -/
theorem C21_clientinfo_converges_witness :
    exampleEnv.RegistryContract ∧ exampleClientInfo.isClientInfo ∧
    exampleClientInfo2.isClientInfo ∧
    ((mkServer [mkClient 1 (some 7), mkClient 2 (some 9)]).IgtlClients.map (·.ClientId)).Nodup ∧
    (receiveFromClient exampleEnv exampleNet exampleClock
        ((mkClient 2 (some 9)).withSubscription exampleSubscriber) 9 exampleClientInfo2
        (receiveFromClient exampleEnv exampleNet exampleClock (mkClient 2 (some 9)) 9
          exampleClientInfo (mkServer [mkClient 1 (some 7), mkClient 2 (some 9)])).1).1.IgtlClients
      = [mkClient 1 (some 7), (mkClient 2 (some 9)).withSubscription exampleDefaults] := by
  have h1 : exampleClientInfo.isClientInfo := ⟨rfl, rfl, rfl⟩
  have h2 : exampleClientInfo2.isClientInfo := ⟨rfl, rfl, rfl⟩
  have hn : ((mkServer [mkClient 1 (some 7), mkClient 2 (some 9)]).IgtlClients.map
      (·.ClientId)).Nodup := by decide
  exact ⟨exampleEnv_registryContract, h1, h2, hn,
    (C21_clientinfo_converges exampleEnv exampleNet exampleClock exampleEnv_registryContract
      (mkClient 2 (some 9)) ((mkClient 2 (some 9)).withSubscription exampleSubscriber) 9 9
      exampleClientInfo exampleClientInfo2 (mkServer [mkClient 1 (some 7), mkClient 2 (some 9)])
      h1 h2 rfl hn).1.trans (by decide)⟩


/-- The first loop of the start-up under the contract of the lookup: the
pointer ends on the requested channel of the first device that has one, and
stays as it was when no device has one. -/
theorem findRequestedChannel_spec (devices : List DeviceView)
    (req : List (Option OutputChannel)) (h : List.Forall₂ DeviceView.LooksUp devices req)
    (p : Option OutputChannel) :
    findRequestedChannel devices p
      = match (req.filterMap id).head? with
        | some channel => some channel
        | none => p := by
  induction h generalizing p with
  | nil => rfl
  | @cons d r ds rs hd _ ih =>
    unfold findRequestedChannel
    cases r with
    | none =>
      have hp := hd p
      simp only at hp
      simp only [hp]
      rw [if_neg (by decide), ih]
      simp
    | some channel =>
      have hp := hd p
      simp only at hp
      simp [hp]

theorem findAnyChannel_eq (devices : List DeviceView) :
    findAnyChannel devices = (devices.flatMap (·.OutputChannels)).head? := by
  induction devices with
  | nil => rfl
  | cons d rest ih =>
    unfold findAnyChannel
    cases hd : d.OutputChannels with
    | nil => simp [hd, ih]
    | cons channel more => simp [hd]

/-- C23: for a device collection that `GetDevices` returned and that is not
empty, with `req` the output channel of each device that has the configured
id (none when the device has none): the sender thread enters its loop, for
whatever iterations follow, with the broadcast channel `chosen`, which is the
requested channel of the first device that has one, and when no device has
one the first output channel of the first device that has any output
channel, and null when no device has an output channel; the flag
`BroadcastChannel` tells whether it is not null and, when it is not, the last
sent timestamp is the value the `GetMostRecentTimestamp` of that channel
leaves in it. -/
theorem C23_broadcast_channel (env : Env) (net : SendOracle) (clock : Clock)
    (devices : List DeviceView) (req : List (Option OutputChannel)) (steps : List SenderStep)
    (s : Server) (hne : devices ≠ [])
    (hreq : List.Forall₂ DeviceView.LooksUp devices req) :
    ∃ chosen,
      chosen = (match (req.filterMap id).head? with
        | some channel => some channel
        | none => (devices.flatMap (·.OutputChannels)).head?) ∧
      DataSenderThread env net clock (PlusStatus.PLUS_SUCCESS, devices) steps s
        = (senderRun env net clock steps (senderStart s chosen)).map (fun x =>
            { x.2 with DataSenderActive := (x.2.DataSenderActive.1, false) }) ∧
      ((∀ d ∈ devices, d.OutputChannels = []) → (∀ r ∈ req, r = none) → chosen = none) ∧
      (senderStart s chosen).BroadcastChannel = chosen.isSome ∧
      (∀ channel, chosen = some channel →
        (senderStart s chosen).LastSentTrackedFrameTimestamp
          = channel.GetMostRecentTimestamp s.LastSentTrackedFrameTimestamp) ∧
      (chosen = none →
        (senderStart s chosen).LastSentTrackedFrameTimestamp
          = s.LastSentTrackedFrameTimestamp) := by
  have hlen : ¬ (devices.length = 0) := fun h => hne (List.length_eq_zero.mp h)
  have h1 := findRequestedChannel_spec devices req hreq none
  have h2 := findAnyChannel_eq devices
  refine ⟨_, rfl, ?_, ?_, rfl, ?_, ?_⟩
  · have key : ∀ st, (match senderRun env net clock steps st with
        | none => none
        | some (_, s4) =>
          some { s4 with DataSenderActive := (s4.DataSenderActive.1, false) })
        = (senderRun env net clock steps st).map (fun x =>
            { x.2 with DataSenderActive := (x.2.DataSenderActive.1, false) }) := by
      intro st
      cases senderRun env net clock steps st <;> rfl
    unfold DataSenderThread
    simp only [ne_eq, not_true_eq_false, false_or, hlen, if_false, h1, h2]
    cases (req.filterMap id).head? with
    | some channel => exact key (senderStart s (some channel))
    | none =>
      simp only [Option.isNone_none, if_true]
      cases (devices.flatMap (·.OutputChannels)).head? with
      | some channel => exact key (senderStart s (some channel))
      | none => exact key (senderStart s none)
  · intro hd hr
    have e1 : req.filterMap id = [] := by
      rw [List.filterMap_eq_nil_iff]
      intro r hr2
      rw [hr r hr2]
      rfl
    have e2 : devices.flatMap (·.OutputChannels) = [] := by
      rw [List.flatMap_eq_nil_iff]
      exact hd
    simp [e1, e2]
  · intro channel hch
    rw [hch]
    rfl
  · intro hch
    rw [hch]
    rfl


/-- Witness of C23: the first device has an output channel but not the
requested one, the second has the requested channel, whose most recent
timestamp is 25 s: the second device's channel is chosen. -/
theorem C23_broadcast_channel_witness :
    [otherDevice, exampleDevice] ≠ [] ∧
    List.Forall₂ DeviceView.LooksUp [otherDevice, exampleDevice]
      [none, some ⟨fun _ => 25⟩] ∧
    (DataSenderThread exampleEnv exampleNet exampleClock
        (PlusStatus.PLUS_SUCCESS, [otherDevice, exampleDevice]) [] (mkServer [])).map
      (fun t => (t.BroadcastChannel, t.LastSentTrackedFrameTimestamp)) = some (true, 25) := by
  have hreq : List.Forall₂ DeviceView.LooksUp [otherDevice, exampleDevice]
      [none, some ⟨fun _ => 25⟩] :=
    List.Forall₂.cons (fun _ => rfl) (List.Forall₂.cons (fun _ => rfl) List.Forall₂.nil)
  obtain ⟨chosen, hch, hrun, _⟩ := C23_broadcast_channel exampleEnv exampleNet exampleClock
    [otherDevice, exampleDevice] [none, some ⟨fun _ => 25⟩] [] (mkServer []) (by simp) hreq
  refine ⟨by simp, hreq, ?_⟩
  rw [hrun, hch]
  rfl


/-- The add policy on a timestamp that is not greater than the latest one. -/
theorem add_rejected (b : vtkPlusBuffer) (prev : ℚ)
    (hprev : b.latestUnfilteredTimestamp = some prev) (payload frameNumber : Nat) (uts : ℚ)
    (hle : uts ≤ prev) (fts : Option ℚ) :
    b.add payload frameNumber uts fts = (PlusStatus.PLUS_FAIL, b) := by
  unfold vtkPlusBuffer.add
  split
  · rfl
  · simp [hprev, hle]

/-- An add that succeeds had a timestamp greater than the latest one and
appended the item with the next uid. -/
theorem add_success (b : vtkPlusBuffer) (payload frameNumber : Nat) (uts : ℚ) (fts : Option ℚ)
    (h : (b.add payload frameNumber uts fts).1 = PlusStatus.PLUS_SUCCESS) :
    b.BufferSize ≠ 0 ∧ (∀ prev, b.latestUnfilteredTimestamp = some prev → prev < uts) ∧
    (b.add payload frameNumber uts fts).2
      = { b with
          Items := (b.Items ++ [b.newItem payload frameNumber uts fts]).drop
            ((b.Items ++ [b.newItem payload frameNumber uts fts]).length - b.BufferSize)
          LatestUid := b.LatestUid + 1 } := by
  unfold vtkPlusBuffer.add at h ⊢
  by_cases h0 : b.BufferSize = 0
  · simp [h0] at h
  · simp only [h0, if_false] at h ⊢
    cases hl : b.latestUnfilteredTimestamp with
    | none => simp [h0]
    | some latest =>
      simp only [hl] at h ⊢
      by_cases hle : uts ≤ latest
      · simp [hle] at h
      · refine ⟨h0, ?_, by simp [hle]⟩
        intro prev hp
        rw [← Option.some.inj hp]
        exact lt_of_not_le hle

/-- One add keeps the order of the buffer. -/
theorem add_ordered (b : vtkPlusBuffer) (hb : b.Ordered) (payload frameNumber : Nat) (uts : ℚ)
    (fts : Option ℚ) : (b.add payload frameNumber uts fts).2.Ordered := by
  by_cases h : (b.add payload frameNumber uts fts).1 = PlusStatus.PLUS_SUCCESS
  · obtain ⟨h0, hlt, heq⟩ := add_success b payload frameNumber uts fts h
    rw [heq]
    obtain ⟨p1, p2, _⟩ := hb
    have hall : (b.Items ++ [b.newItem payload frameNumber uts fts]).Pairwise
        (fun x y => x.UnfilteredTimestamp < y.UnfilteredTimestamp ∧ x.Uid < y.Uid) := by
      rw [List.pairwise_append]
      refine ⟨p1, List.pairwise_singleton _ _, ?_⟩
      intro x hx y hy
      rw [List.mem_singleton.mp hy]
      refine ⟨?_, Nat.lt_succ_of_le (p2 x hx)⟩
      show x.UnfilteredTimestamp < uts
      obtain ⟨last, hlast⟩ : ∃ last, b.Items.getLast? = some last := by
        cases hg : b.Items.getLast? with
        | none =>
          rw [List.getLast?_eq_none_iff] at hg
          rw [hg] at hx
          simp at hx
        | some last => exact ⟨last, rfl⟩
      have h1 := hlt last.UnfilteredTimestamp (by simp [vtkPlusBuffer.latestUnfilteredTimestamp,
        hlast])
      obtain ⟨init, hinit⟩ := List.getLast?_eq_some_iff.mp hlast
      rw [hinit] at hx p1
      rcases List.mem_append.mp hx with hm | hm
      · exact lt_trans ((List.pairwise_append.mp p1).2.2 x hm last
          (List.mem_singleton_self _)).1 h1
      · rw [List.mem_singleton.mp hm]
        exact h1
    refine ⟨hall.sublist (List.drop_sublist _ _), ?_, ?_⟩
    · intro x hx
      have hx2 := List.mem_of_mem_drop hx
      rcases List.mem_append.mp hx2 with hm | hm
      · exact Nat.le_succ_of_le (p2 x hm)
      · rw [List.mem_singleton.mp hm]
        exact Nat.le_refl _
    · simp only [List.length_drop, List.length_append, List.length_singleton]
      omega
  · have hsame : (b.add payload frameNumber uts fts).2 = b := by
      unfold vtkPlusBuffer.add at h ⊢
      split
      · rfl
      · split
        · rfl
        · rename_i h0 hrej
          simp [h0, hrej] at h
    rw [hsame]
    exact hb

theorem step_ordered (b : vtkPlusBuffer) (hb : b.Ordered) (op : BufferOp) :
    (b.step op).Ordered := by
  cases op with
  | addItem format frame frameNumber uts fts =>
    show (b.AddItem format frame frameNumber uts fts).2.Ordered
    unfold vtkPlusBuffer.AddItem
    split
    · exact hb
    · exact add_ordered b hb frame frameNumber uts fts
  | addTimeStampedItem matrix frameNumber uts fts =>
    exact add_ordered b hb matrix frameNumber uts fts

theorem run_ordered (ops : List BufferOp) (b : vtkPlusBuffer) (hb : b.Ordered) :
    (b.run ops).Ordered := by
  induction ops generalizing b with
  | nil => exact hb
  | cons op rest ih => exact ih (b.step op) (step_ordered b hb op)


/-- C24: in the buffer modelled from the specification, for every buffer whose
latest item has the unfiltered timestamp `prev` and every unfiltered
timestamp `uts ≤ prev`: `AddItem` and `AddTimeStampedItem` with `uts` fail
and return the buffer as it was, so the number of items, the oldest and the
latest uid and the stored items are unchanged; an add that succeeds on this
buffer has an unfiltered timestamp greater than `prev`; and after every
sequence of adds on an empty buffer the unfiltered timestamps of the stored
items increase strictly. -/
theorem C24_timestamp_non_regression (b : vtkPlusBuffer) (prev uts : ℚ)
    (hprev : b.latestUnfilteredTimestamp = some prev) (hle : uts ≤ prev) :
    (∀ format frame frameNumber fts,
      b.AddItem format frame frameNumber uts fts = (PlusStatus.PLUS_FAIL, b)) ∧
    (∀ matrix frameNumber fts,
      b.AddTimeStampedItem matrix frameNumber uts fts = (PlusStatus.PLUS_FAIL, b)) ∧
    (∀ format frame frameNumber fts,
      (b.AddItem format frame frameNumber uts fts).2.GetNumberOfItems = b.GetNumberOfItems ∧
      (b.AddItem format frame frameNumber uts fts).2.GetOldestItemUidInBuffer
        = b.GetOldestItemUidInBuffer ∧
      (b.AddItem format frame frameNumber uts fts).2.GetLatestItemUidInBuffer
        = b.GetLatestItemUidInBuffer ∧
      (b.AddItem format frame frameNumber uts fts).2.Items = b.Items) ∧
    (∀ matrix frameNumber fts,
      (b.AddTimeStampedItem matrix frameNumber uts fts).2.GetNumberOfItems
        = b.GetNumberOfItems ∧
      (b.AddTimeStampedItem matrix frameNumber uts fts).2.GetOldestItemUidInBuffer
        = b.GetOldestItemUidInBuffer ∧
      (b.AddTimeStampedItem matrix frameNumber uts fts).2.GetLatestItemUidInBuffer
        = b.GetLatestItemUidInBuffer ∧
      (b.AddTimeStampedItem matrix frameNumber uts fts).2.Items = b.Items) ∧
    (∀ format frame frameNumber uts2 fts,
      (b.AddItem format frame frameNumber uts2 fts).1 = PlusStatus.PLUS_SUCCESS →
        prev < uts2) ∧
    (∀ matrix frameNumber uts2 fts,
      (b.AddTimeStampedItem matrix frameNumber uts2 fts).1 = PlusStatus.PLUS_SUCCESS →
        prev < uts2) ∧
    (∀ capacity format ops,
      ((⟨capacity, format, [], 0⟩ : vtkPlusBuffer).run ops).Items.Pairwise
        (fun x y => x.UnfilteredTimestamp < y.UnfilteredTimestamp)) := by
  have hadd : ∀ payload frameNumber fts,
      b.add payload frameNumber uts fts = (PlusStatus.PLUS_FAIL, b) :=
    fun payload frameNumber fts => add_rejected b prev hprev payload frameNumber uts hle fts
  have hitem : ∀ format frame frameNumber fts,
      b.AddItem format frame frameNumber uts fts = (PlusStatus.PLUS_FAIL, b) := by
    intro format frame frameNumber fts
    unfold vtkPlusBuffer.AddItem
    split
    · rfl
    · exact hadd frame frameNumber fts
  have hmat : ∀ matrix frameNumber fts,
      b.AddTimeStampedItem matrix frameNumber uts fts = (PlusStatus.PLUS_FAIL, b) :=
    fun matrix frameNumber fts => hadd matrix frameNumber fts
  refine ⟨hitem, hmat, ?_, ?_, ?_, ?_, ?_⟩
  · intro format frame frameNumber fts
    rw [hitem]
    exact ⟨rfl, rfl, rfl, rfl⟩
  · intro matrix frameNumber fts
    rw [hmat]
    exact ⟨rfl, rfl, rfl, rfl⟩
  · intro format frame frameNumber uts2 fts h
    unfold vtkPlusBuffer.AddItem at h
    split at h
    · simp at h
    · exact (add_success b frame frameNumber uts2 fts h).2.1 prev hprev
  · intro matrix frameNumber uts2 fts h
    exact (add_success b matrix frameNumber uts2 fts h).2.1 prev hprev
  · intro capacity format ops
    have hrun := run_ordered ops ⟨capacity, format, [], 0⟩
      ⟨List.Pairwise.nil, by simp, Nat.zero_le _⟩
    exact hrun.1.imp (fun h => h.1)

/-- Witness of C24: the example buffer holds an item added at 5 s; a matrix
with the same timestamp is not added. -/
theorem C24_timestamp_non_regression_witness :
    exampleBuffer.latestUnfilteredTimestamp = some 5 ∧ (5 : ℚ) ≤ 5 ∧
    exampleBuffer.AddTimeStampedItem 7 1 5 none = (PlusStatus.PLUS_FAIL, exampleBuffer) :=
  ⟨rfl, le_refl _,
    (C24_timestamp_non_regression exampleBuffer 5 5 rfl (le_refl _)).2.1 7 1 none⟩

end PlusServer
